import Mathlib

/-!
# Forwarder: connection handler and MITM engine

A shallow embedding of the response writer (`proxy_conn.go`), the MITM path of
the CONNECT handler and the certificate engine (`mitm/mitm.go`), together with
the properties the specification states about them.

Conventions of the embedding:

* Go `string` is `String`; bytes on the wire are `List Char`.
* Go `int` is `Int`; `/` on `int` truncates toward zero (`Int.tdiv`).
* `error` results are `Option Err` (`none` is `nil`).
* Library and hook behaviour outside the repository (the status-text table,
  header serialisation, the clock, the random source, X.509 signing and
  verification) is taken as a field of an environment record.
-/

set_option autoImplicit false

namespace Forwarder

/-! ## Errors -/

/-- Errors the handler distinguishes: the sentinel `errClose`, and any other error. -/
inductive Err where
  | errClose
  | other (msg : String)
  deriving DecidableEq, Repr

/-- Equality of `Except` results is decidable when it is for errors and values. -/
instance instDecidableEqExcept {ε α : Type} [DecidableEq ε] [DecidableEq α] :
    DecidableEq (Except ε α) := fun a b =>
  match a, b with
  | Except.ok x, Except.ok y =>
    if h : x = y then isTrue (by rw [h]) else isFalse (fun e => h (by cases e; rfl))
  | Except.error x, Except.error y =>
    if h : x = y then isTrue (by rw [h]) else isFalse (fun e => h (by cases e; rfl))
  | Except.ok _, Except.error _ => isFalse (fun e => by cases e)
  | Except.error _, Except.ok _ => isFalse (fun e => by cases e)

/-! ## HTTP data model -/

/-- An `http.Header`: canonical key to list of values. -/
abbrev Header := List (String × List String)

/-- `http.Header.Add` for a key that is already in canonical form:
appends `value` to the values stored under `key`. -/
def Header.Add : Header → String → String → Header
  | [], key, value => [(key, [value])]
  | (k, vs) :: t, key, value =>
    if k = key then (k, vs ++ [value]) :: t else (k, vs) :: Header.Add t key value

/-- `http.Header.Values`: the values stored under `key`. -/
def Header.Values : Header → String → List String
  | [], _ => []
  | (k, vs) :: t, key => if k = key then vs else Header.Values t key

/-- The `tls.ConnectionState` fields the handler inspects. -/
structure ConnectionState where
  NegotiatedProtocol : String
  deriving DecidableEq, Repr

/-- The fields of `http.Request` the handler reads. `URLHost` is `req.URL.Host`, and
`TLS` the connection state `req.TLS` points to (`none`: nil). -/
structure Request where
  Method : String
  Host : String
  ProtoMajor : Int
  ProtoMinor : Int
  Close : Bool
  Header : Forwarder.Header := []
  URLHost : String := ""
  ContentLength : Int := 0
  RemoteAddr : String := ""
  TLS : Option ConnectionState := none
  deriving DecidableEq, Repr

/-- A response body, as far as the handler tells bodies apart: `http.NoBody`, a body
that can only be read, a body that is also an `io.ReadWriteCloser` (the stream behind
a protocol switch), and the sentinel `panicBody`. -/
inductive Body where
  | noBody
  | reader (id : Nat)
  | readWriter (id : Nat)
  | panicBody
  deriving DecidableEq, Repr

/-- The fields of `http.Response` the handler reads and writes. -/
structure Response where
  Status : String
  StatusCode : Int
  ProtoMajor : Int
  ProtoMinor : Int
  Header : Forwarder.Header
  Trailer : Forwarder.Header
  Close : Bool
  Request : Request
  Body : Forwarder.Body := Body.noBody
  ContentLength : Int := 0
  deriving DecidableEq, Repr

/-- `http.MethodConnect`. -/
def MethodConnect : String := "CONNECT"

/-- The guard `req.Method == http.MethodConnect && res.StatusCode/100 == 2`. -/
def isConnectOK (res : Response) : Bool :=
  res.Request.Method == MethodConnect && Int.tdiv res.StatusCode 100 == 2

/-! ## Writers -/

/-- An `io.Writer`: the bytes accepted so far and the number of bytes it still
accepts before it starts to fail (`none`: it never fails). -/
structure Writer where
  out : List Char
  room : Option Nat
  deriving DecidableEq, Repr

/-- `io.WriteString(w, s)`: one write of the whole string. -/
def Writer.WriteString (w : Writer) (s : String) : Writer × Option Err :=
  match w.room with
  | none => ({ w with out := w.out ++ s.data }, none)
  | some r =>
    if s.data.length ≤ r then
      ({ out := w.out ++ s.data, room := some (r - s.data.length) }, none)
    else
      ({ out := w.out ++ s.data.take r, room := some 0 }, some (Err.other "short write"))

/-- Which flushing adapter `res.Write` runs under in the default case of `writeResponse`. -/
inductive WriteMode where
  | sse
  | chunk
  | plain
  deriving DecidableEq, Repr

/-- Behaviour the response writer takes from outside the repository's sources. -/
structure WriteEnv where
  /-- The table `http.StatusText`. -/
  StatusText : Int → String
  /-- The bytes `http.Header.Write` produces for a header. -/
  headerLines : Header → String
  /-- The key order `maps.Keys` yields for a trailer map. -/
  mapsKeys : Header → List String
  /-- The predicate `isHeaderOnlySpec`. -/
  isHeaderOnlySpec : Response → Bool
  /-- The predicate `isTextEventStream`. -/
  isTextEventStream : Response → Bool
  /-- The predicate `shouldChunk`. -/
  shouldChunk : Response → Bool
  /-- The library serialiser `res.Write` under the given flushing adapter. -/
  resWrite : WriteMode → Response → Writer → Writer × Option Err
  /-- Outcome of `bufio.Writer.Flush` when no earlier write failed. -/
  flush : Writer → Option Err

/-- `strconv.Itoa`. -/
def Itoa (n : Int) : String :=
  match n with
  | Int.ofNat k => Nat.repr k
  | Int.negSucc k => "-" ++ Nat.repr (k + 1)

/-- Left-pad a digit string with `'0'` to the given width. -/
def zeroPad (width : Nat) (s : String) : String :=
  String.mk (List.replicate (width - s.data.length) '0') ++ s

/-- The verb `%03d` of `fmt`: width three, zero padded, the sign counted in the width. -/
def fmt03d (n : Int) : String :=
  match n with
  | Int.ofNat k => zeroPad 3 (Nat.repr k)
  | Int.negSucc k => "-" ++ zeroPad 2 (Nat.repr (k + 1))

/-- `strings.TrimPrefix`. -/
def TrimPrefix (s pre : String) : String :=
  if pre.data.isPrefixOf s.data then String.mk (s.data.drop pre.data.length) else s

/-- The status text `writeHeaderOnlyResponse` puts on the status line. -/
def statusLineText (env : WriteEnv) (res : Response) : String :=
  if res.Status = "" then
    let text := env.StatusText res.StatusCode
    if text = "" then "status code " ++ Itoa res.StatusCode else text
  else
    TrimPrefix res.Status (Itoa res.StatusCode ++ " ")

/-- The status line: `fmt.Sprintf("HTTP/%d.%d %03d %s\r\n", ...)`. -/
def statusLine (env : WriteEnv) (res : Response) : String :=
  "HTTP/" ++ Itoa res.ProtoMajor ++ "." ++ Itoa res.ProtoMinor ++ " " ++
    fmt03d res.StatusCode ++ " " ++ statusLineText env res ++ "\r\n"

/-- The loop `for i, k := range maps.Keys(res.Trailer)` of `writeHeaderOnlyResponse`,
from index `i` on. -/
def writeTrailerKeys (w : Writer) (i : Nat) : List String → Writer × Option Err
  | [] => (w, none)
  | k :: ks =>
    let step : Writer × Option Err :=
      if i > 0 then w.WriteString ", " else (w, none)
    match step with
    | (w1, some e) => (w1, some e)
    | (w1, none) =>
      match w1.WriteString k with
      | (w2, some e) => (w2, some e)
      | (w2, none) => writeTrailerKeys w2 (i + 1) ks

/-- `writeHeaderOnlyResponse`: writes the status line and header of `res` to `w`. -/
def writeHeaderOnlyResponse (env : WriteEnv) (w : Writer) (res : Response) :
    Writer × Option Err :=
  -- Status line
  match w.WriteString (statusLine env res) with
  | (w1, some e) => (w1, some e)
  | (w1, none) =>
    -- Header
    match w1.WriteString (env.headerLines res.Header) with
    | (w2, some e) => (w2, some e)
    | (w2, none) =>
      -- Add Trailer header if needed
      let trailer : Writer × Option Err :=
        if res.Trailer.length > 0 then
          match w2.WriteString "Trailer: " with
          | (w3, some e) => (w3, some e)
          | (w3, none) => writeTrailerKeys w3 0 (env.mapsKeys res.Trailer)
        else (w2, none)
      match trailer with
      | (w4, some e) => (w4, some e)
      | (w4, none) =>
        -- End-of-header
        w4.WriteString "\r\n"

/-- Modelled from the spec: `writeConnectOKResponse` is not among the sources; the
specification gives the bytes of a successful CONNECT reply as exactly
`HTTP/1.1 200 OK\r\n\r\n`. -/
def writeConnectOKResponse (w : Writer) : Writer × Option Err :=
  w.WriteString "HTTP/1.1 200 OK\r\n\r\n"

/-- What `writeResponse` leaves behind: the response (it is mutated in place),
the buffered writer, the returned error, and whether the trace hook ran. -/
structure WriteResult where
  res : Response
  w : Writer
  err : Option Err
  /-- Whether `traceWroteResponse` was invoked. -/
  traced : Bool
  deriving DecidableEq, Repr

/-- The body-framing switch of `writeResponse`. -/
def writeBody (env : WriteEnv) (w : Writer) (res : Response) : Writer × Option Err :=
  if isConnectOK res then writeConnectOKResponse w
  else if env.isHeaderOnlySpec res then writeHeaderOnlyResponse env w res
  else if env.isTextEventStream res then env.resWrite WriteMode.sse res w
  else if env.shouldChunk res then env.resWrite WriteMode.chunk res w
  else env.resWrite WriteMode.plain res w

/-- The close decision of `writeResponse`: `res.Close` is set when the proxy is closing
or the request asks to close, cleared for a successful CONNECT while the proxy is not
closing, and `Connection: close` is added when it ends up set. -/
def markClose (closing : Bool) (res : Response) : Response :=
  let req := res.Request
  let res1 : Response :=
    if closing then { res with Close := true }
    else
      let r := if req.Close then { res with Close := true } else res
      -- Support CONNECT over HTTP/1.0.
      -- If connect is successful, the connection should not be closed.
      if req.Method == MethodConnect && Int.tdiv r.StatusCode 100 == 2 then
        { r with Close := false }
      else r
  if res1.Close then { res1 with Header := res1.Header.Add "Connection" "close" } else res1

/-- `skipTraceWroteResponse`: `traceWroteResponse` is skipped after an error-free
successful CONNECT or protocol upgrade. -/
def skipTraceWroteResponse (res : Response) (err : Option Err) : Bool :=
  match err with
  | some _ => false
  | none =>
    if res.Request.Method == MethodConnect && Int.tdiv res.StatusCode 100 == 2 then true
    else if res.StatusCode == 101 then true
    else false

/-- `proxyConn.writeResponse`, with `closing` the value `p.closing()` reads. -/
def writeResponse (env : WriteEnv) (closing : Bool) (w : Writer) (res : Response) :
    WriteResult :=
  let res2 := markClose closing res
  match writeBody env w res2 with
  | (w1, werr) =>
    let err : Option Err :=
      match werr with
      | some e => some e
      | none => env.flush w1
    let traced := !skipTraceWroteResponse res2 err
    match err with
    | some _ => { res := res2, w := w1, err := some Err.errClose, traced := traced }
    | none =>
      if res2.Close then { res := res2, w := w1, err := some Err.errClose, traced := traced }
      else { res := res2, w := w1, err := none, traced := traced }

/-! ## Buffered reading over the accepted connection -/

/-- The accepted `net.Conn`, seen from its reading end: what successive `Read` calls
deliver. An empty segment is a read that returns no byte and no error; once no segment
is left a read fails. -/
structure NetConn where
  incoming : List (List Nat)
  deriving DecidableEq, Repr

/-- `net.Conn.Read` into a slice of length `n`. -/
def NetConn.Read (c : NetConn) (n : Nat) : NetConn × List Nat × Option Err :=
  match c.incoming with
  | [] => (c, [], some (Err.other "EOF"))
  | seg :: rest =>
    if seg.length ≤ n then ({ incoming := rest }, seg, none)
    else ({ incoming := seg.drop n :: rest }, seg.take n, none)

/-- Which connection `p.conn` designates: the accepted connection, or a TLS
connection layered on another one. -/
inductive ConnKind where
  | raw
  | tls (inner : ConnKind)
  deriving DecidableEq, Repr

/-- What `p.brw.Reader` reads from: a connection directly, or the reader
`io.MultiReader(bytes.NewReader(buf), conn)` with `buf` the unread part of the byte
slice. -/
inductive Source where
  | direct (k : ConnKind)
  | multi (buf : List Nat) (k : ConnKind)
  deriving DecidableEq, Repr

/-- Outcome of `tlsconn.HandshakeContext`. -/
inductive HandshakeResult where
  | fail (e : Err) (net : NetConn)
  | ok (cs : ConnectionState) (net : NetConn)

/-- Hooks and library behaviour the connection handler takes from outside. -/
structure HandlerEnv where
  wenv : WriteEnv
  /-- The response-modifier chain; it mutates the response and may fail. -/
  modifyResponse : Response → Response × Option Err
  /-- The error-response synthesiser `p.errorResponse`. -/
  errorResponse : Request → Err → Response
  /-- The server-side handshake over the re-prepended bytes and the connection `p.conn`,
  with the configuration `TLSForHost` builds for the given host. -/
  tlsHandshake : String → List Nat → ConnKind → NetConn → HandshakeResult
  /-- A read of decrypted bytes from a TLS connection layered on the given one. -/
  tlsRead : ConnKind → NetConn → Nat → NetConn × List Nat × Option Err
  /-- The hand-off `H2Config().Proxy`. -/
  h2Proxy : Request → Option Err

/-- The fields of a `url.URL` the connect path reads. -/
structure URL where
  Scheme : String
  Host : String
  deriving DecidableEq, Repr

/-- An `io.ReadWriteCloser` the handler tunnels over: a dialed `net.Conn`, the
client-side TLS connection `tls.Client` layers on a dialed connection, or a response
body that can be written to. A `ConnectFunc` may return any of them. -/
inductive ReadWriteCloser where
  | conn (id : Nat)
  | tlsClient (inner : Nat)
  | body (id : Nat)
  deriving DecidableEq, Repr

/-- Observable steps of the handler. The steps from `setReadDeadline` on are recorded
by `readRequest`, the connect path, `handleConnectRequest` and `handle`; `writeResponse`
carries the response as `writeResponse` leaves it. -/
inductive Event where
  | traceWroteResponse
  | tlsHandshake (host : String)
  | handshakeErrorCallback
  | h2Proxy
  | setReadDeadline (t : Option Int)
  | peek (n : Nat)
  | readRequest
  | traceReadRequest
  | modifyRequest (req : Request)
  | connect (req : Request) (terminateTLS : Bool)
  | connectFunc (req : Request)
  | proxyURL (req : Request)
  | dial (network addr : String)
  | dialHTTPProxy (https : Bool) (proxy : URL) (timeout : Int) (header : Header)
      (network addr : String)
  | dialSOCKS5 (proxy : URL) (timeout : Int) (network addr : String)
  | tlsClientHandshake (conn : Nat)
  | bodyClose (b : Body)
  | requestBodyClose
  | close (crw : ReadWriteCloser)
  | roundTrip (req : Request)
  | writeResponse (res : Response)
  | drainBuffer (crw : Option ReadWriteCloser)
  | bicopy (name : String) (crw : Option ReadWriteCloser)
  deriving DecidableEq, Repr

/-- The state of a `proxyConn`: the connection, the `bufio.Reader` of `p.brw`
(unread buffered bytes `rdBuf`, its source, its sticky error, its buffer size), the
`bufio.Writer`, and the fields `conn`, `secure`, `cs`. -/
structure ProxyConn where
  net : NetConn
  rdBuf : List Nat
  rdSrc : Source
  rdErr : Option Err
  rdSize : Nat
  w : Writer
  conn : ConnKind
  secure : Bool
  cs : Option ConnectionState
  deriving DecidableEq, Repr

/-- One `Read` of a connection into a slice of length `n`. -/
def readConn (env : HandlerEnv) (k : ConnKind) (net : NetConn) (n : Nat) :
    NetConn × List Nat × Option Err :=
  match k with
  | ConnKind.raw => net.Read n
  | ConnKind.tls inner => env.tlsRead inner net n

/-- One `Read` of the reader's source into a slice of length `n`. -/
def readSource (env : HandlerEnv) (src : Source) (net : NetConn) (n : Nat) :
    Source × NetConn × List Nat × Option Err :=
  match src with
  | Source.direct k =>
    match readConn env k net n with
    | (net1, bs, e) => (Source.direct k, net1, bs, e)
  | Source.multi buf k =>
    if buf.length = 0 then
      -- the byte reader is at EOF: the multi-reader moves on to the connection
      match readConn env k net n with
      | (net1, bs, e) => (Source.multi [] k, net1, bs, e)
    else (Source.multi (buf.drop n) k, net, buf.take n, none)

/-- The loop of `bufio.Reader.fill`: read once from the source, again while the read
yields neither byte nor error, at most `i` times. -/
def fillLoop (env : HandlerEnv) : Nat → ProxyConn → ProxyConn
  | 0, p => { p with rdErr := some (Err.other "multiple Read calls return no data or error") }
  | i + 1, p =>
    match readSource env p.rdSrc p.net (p.rdSize - p.rdBuf.length) with
    | (src1, net1, bs, some e) =>
      { p with rdSrc := src1, net := net1, rdBuf := p.rdBuf ++ bs, rdErr := some e }
    | (src1, net1, bs, none) =>
      if bs.length > 0 then { p with rdSrc := src1, net := net1, rdBuf := p.rdBuf ++ bs }
      else fillLoop env i { p with rdSrc := src1, net := net1 }

/-- `bufio.Reader.fill`, with `maxConsecutiveEmptyReads = 100`. -/
def fill (env : HandlerEnv) (p : ProxyConn) : ProxyConn := fillLoop env 100 p

/-- The loop of `Peek`: fill while fewer than `n` bytes are buffered, the buffer is not
full and no error is pending. Each round that goes on has buffered one more byte at
least, so `fuel = n` rounds are enough. -/
def peekLoop (env : HandlerEnv) (n : Nat) : Nat → ProxyConn → ProxyConn
  | 0, p => p
  | fuel + 1, p =>
    if p.rdBuf.length < n ∧ p.rdBuf.length < p.rdSize ∧ p.rdErr = none then
      peekLoop env n fuel (fill env p)
    else p

/-- `bufio.Reader.Peek(n)`: the next `n` bytes without advancing the reader. -/
def Peek (env : HandlerEnv) (p : ProxyConn) (n : Nat) : ProxyConn × List Nat × Option Err :=
  let p1 := peekLoop env n n p
  if n > p1.rdSize then (p1, p1.rdBuf, some (Err.other "bufio: buffer full"))
  else if p1.rdBuf.length < n then
    -- not enough data in buffer
    match p1.rdErr with
    | some e => ({ p1 with rdErr := none }, p1.rdBuf, some e)
    | none => (p1, p1.rdBuf, some (Err.other "bufio: buffer full"))
  else (p1, p1.rdBuf.take n, none)

/-- `bufio.Reader.Buffered`. -/
def Buffered (p : ProxyConn) : Nat := p.rdBuf.length

/-- `bufio.Reader.Read` into a slice of length `n`. -/
def Read (env : HandlerEnv) (p : ProxyConn) (n : Nat) : ProxyConn × List Nat × Option Err :=
  if n = 0 then
    if Buffered p > 0 then (p, [], none) else ({ p with rdErr := none }, [], p.rdErr)
  else if p.rdBuf.length = 0 then
    match p.rdErr with
    | some e => ({ p with rdErr := none }, [], some e)
    | none =>
      if n ≥ p.rdSize then
        -- Large read, empty buffer: read directly into the slice.
        match readSource env p.rdSrc p.net n with
        | (src1, net1, bs, e) => ({ p with rdSrc := src1, net := net1, rdErr := none }, bs, e)
      else
        -- One read.
        match readSource env p.rdSrc p.net p.rdSize with
        | (src1, net1, bs, e) =>
          if bs.length = 0 then ({ p with rdSrc := src1, net := net1, rdErr := none }, [], e)
          else
            ({ p with rdSrc := src1, net := net1, rdErr := e, rdBuf := bs.drop n }, bs.take n, none)
  else
    -- copy as much as we can
    ({ p with rdBuf := p.rdBuf.drop n }, p.rdBuf.take n, none)

/-- `bufio.Reader.Reset(r)`: discards buffered data and the pending error, and
switches the reader to read from `r`. -/
def ReaderReset (p : ProxyConn) (src : Source) : ProxyConn :=
  { p with rdBuf := [], rdErr := none, rdSrc := src }

/-- The bytes the reader will deliver from now on when it reads the accepted
connection, directly or through a multi-reader: the buffered bytes, the rest of the
re-prepended slice, then what the connection still holds. Through a TLS layer the
bytes to come are those of the decrypted stream, which the connection state does not
determine; only the buffered bytes and the slice are known. -/
def pendingBytes (p : ProxyConn) : List Nat :=
  match p.rdSrc with
  | Source.direct ConnKind.raw => p.rdBuf ++ p.net.incoming.flatten
  | Source.multi buf ConnKind.raw => p.rdBuf ++ buf ++ p.net.incoming.flatten
  | Source.direct (ConnKind.tls _) => p.rdBuf
  | Source.multi buf (ConnKind.tls _) => p.rdBuf ++ buf

/-- `newConnectResponse`. -/
def newConnectResponse (env : WriteEnv) (req : Request) : Response :=
  let ok : Int := 200
  { Status := Itoa ok ++ " " ++ env.StatusText ok
    StatusCode := ok
    ProtoMajor := req.ProtoMajor
    ProtoMinor := req.ProtoMinor
    Header := []
    Trailer := []
    Close := false
    Body := Body.noBody
    ContentLength := -1
    Request := req }

/-- What a handler step leaves behind: the connection state, the returned error and
the observable steps taken, in order. -/
structure HandleResult where
  p : ProxyConn
  err : Option Err
  events : List Event
  deriving DecidableEq, Repr

/-- The trace step a `writeResponse` call contributes. -/
def traceEvents (r : WriteResult) : List Event :=
  if r.traced then [Event.traceWroteResponse] else []

/-- `proxyConn.handleMITM`, with `closing` the value `p.closing()` reads while the
response is written. -/
def handleMITM (env : HandlerEnv) (closing : Bool) (p : ProxyConn) (req : Request) :
    HandleResult :=
  let res := newConnectResponse env.wenv req
  match env.modifyResponse res with
  | (_, some err) =>
    let r := writeResponse env.wenv closing p.w (env.errorResponse req err)
    { p := { p with w := r.w }, err := r.err, events := traceEvents r }
  | (res1, none) =>
    let r := writeResponse env.wenv closing p.w res1
    match r.err with
    | some e => { p := { p with w := r.w }, err := some e, events := traceEvents r }
    | none =>
      -- Successful CONNECT response does not invoke trace.
      let tr := traceEvents r ++ [Event.traceWroteResponse]
      let p1 := { p with w := r.w }
      match Peek env p1 1 with
      | (p2, _, some _) => { p := p2, err := some Err.errClose, events := tr }
      | (p2, b, none) =>
        -- Drain the rest of the buffered data.
        match Read env p2 (Buffered p2) with
        | (p3, _, some _) => { p := p3, err := some Err.errClose, events := tr }
        | (p3, buf, none) =>
          -- 22 is the TLS handshake.
          if b.length > 0 ∧ b.head? = some 22 then
            match env.tlsHandshake req.Host buf p3.conn p3.net with
            | HandshakeResult.fail _ net1 =>
              { p := { p3 with net := net1 }, err := some Err.errClose,
                events := tr ++ [Event.tlsHandshake req.Host, Event.handshakeErrorCallback] }
            | HandshakeResult.ok cs net1 =>
              if cs.NegotiatedProtocol = "h2" then
                { p := { p3 with net := net1 }, err := env.h2Proxy req,
                  events := tr ++ [Event.tlsHandshake req.Host, Event.h2Proxy] }
              else
                { p := { ReaderReset { p3 with net := net1 }
                        (Source.direct (ConnKind.tls p3.conn)) with
                      conn := ConnKind.tls p3.conn, secure := true, cs := some cs },
                  err := none,
                  events := tr ++ [Event.tlsHandshake req.Host] }
          else
            -- Prepend the previously read data to be read again by http.ReadRequest.
            { p := ReaderReset p3 (Source.multi buf p3.conn), err := none, events := tr }

/-! ## Host and port splitting -/

/-- `bytealg.IndexByteString`: index of the first `c` in `s`, if any. -/
def indexByte : List Char → Char → Option Nat
  | [], _ => none
  | x :: xs, c => if x = c then some 0 else (indexByte xs c).map (· + 1)

/-- `bytealg.LastIndexByteString`: index of the last `c` in `s`, if any. -/
def lastIndexByte : List Char → Char → Option Nat
  | [], _ => none
  | x :: xs, c =>
    match lastIndexByte xs c with
    | some i => some (i + 1)
    | none => if x = c then some 0 else none

/-- `net.SplitHostPort` on the characters of the address: host and port, or the
reason of the `AddrError`. -/
def splitHostPort (hostport : List Char) : Except String (List Char × List Char) :=
  -- The port starts after the last colon.
  match lastIndexByte hostport ':' with
  | none => Except.error "missing port in address"
  | some i =>
    if hostport.head? = some '[' then
      -- Expect the first ']' just before the last ':'.
      match indexByte hostport ']' with
      | none => Except.error "missing ']' in address"
      | some e =>
        if e + 1 = hostport.length then Except.error "missing port in address"
        else if e + 1 = i then
          if (indexByte (hostport.drop 1) '[').isSome then
            Except.error "unexpected '[' in address"
          else if (indexByte (hostport.drop (e + 1)) ']').isSome then
            Except.error "unexpected ']' in address"
          else Except.ok ((hostport.take e).drop 1, hostport.drop (i + 1))
        else if hostport.get? (e + 1) = some ':' then
          Except.error "too many colons in address"
        else Except.error "missing port in address"
    else
      if (indexByte (hostport.take i) ':').isSome then
        Except.error "too many colons in address"
      else if (indexByte hostport '[').isSome then
        Except.error "unexpected '[' in address"
      else if (indexByte hostport ']').isSome then
        Except.error "unexpected ']' in address"
      else Except.ok (hostport.take i, hostport.drop (i + 1))

/-- `net.SplitHostPort` on strings. -/
def SplitHostPort (hostport : String) : Except String (String × String) :=
  match splitHostPort hostport.data with
  | Except.error e => Except.error e
  | Except.ok (h, p) => Except.ok (String.mk h, String.mk p)

/-! ## The MITM certificate engine -/

/-- `x509.KeyUsageDigitalSignature`. -/
def KeyUsageDigitalSignature : Nat := 1

/-- `x509.KeyUsageKeyEncipherment`. -/
def KeyUsageKeyEncipherment : Nat := 4

/-- `x509.KeyUsageCertSign`. -/
def KeyUsageCertSign : Nat := 32

/-- `x509.ExtKeyUsageServerAuth`. -/
def ExtKeyUsageServerAuth : Nat := 1

/-- `tls.VersionTLS12`. -/
def VersionTLS12 : Nat := 0x0303

/-- `time.Hour`, in nanoseconds. -/
def Hour : Int := 3600 * 1000000000

/-- `math.MinInt64`, the least `time.Duration`. -/
def MinInt64 : Int := -9223372036854775808

/-- `math.MaxInt64`, the greatest `time.Duration`. -/
def MaxInt64 : Int := 9223372036854775807

/-- The `int64` an arithmetic result is stored as: its value modulo 2^64, taken in the
signed range. -/
def wrapInt64 (x : Int) : Int :=
  (x + 9223372036854775808) % 18446744073709551616 - 9223372036854775808

/-- An instant cut down to whole seconds, as the X.509 encoding of a validity bound
keeps it. -/
def truncSecond (t : Int) : Int := t - t % 1000000000

/-- The fields of `x509.Certificate` the engine sets or reads. Instants are in
nanoseconds, an IP address is its bytes, a key identifier is its bytes. -/
structure Certificate where
  Raw : List Nat
  SerialNumber : Nat
  CommonName : String
  Organization : List String
  SubjectKeyId : List Nat
  KeyUsage : Nat
  ExtKeyUsage : List Nat
  BasicConstraintsValid : Bool
  NotBefore : Int
  NotAfter : Int
  IPAddresses : List (List Nat)
  DNSNames : List String
  deriving DecidableEq, Repr

/-- A `tls.Certificate`: the DER chain, the private key (by identity) and the parsed leaf. -/
structure TLSCertificate where
  Certificate : List (List Nat)
  PrivateKey : Nat
  Leaf : Forwarder.Certificate
  deriving DecidableEq, Repr

/-- Modelled from the spec: the certificate cache (`cache.go` is not among the
sources). A bounded mapping from host to forged leaf, most recently put first. -/
structure Cache where
  capacity : Nat
  entries : List (String × TLSCertificate)
  deriving DecidableEq, Repr

/-- Modelled from the spec: `get(host)` returns the leaf stored under the host, if any;
the cache performs no normalisation of the key. -/
def Cache.Get (c : Cache) (host : String) : Option TLSCertificate :=
  (c.entries.find? (fun e => e.1 == host)).map (·.2)

/-- Modelled from the spec: `put(host, leaf)` replaces on collision, makes the entry
the most recent one, and evicts the least recent entries beyond the capacity. -/
def Cache.Add (c : Cache) (host : String) (leaf : TLSCertificate) : Cache :=
  { c with entries := ((host, leaf) :: c.entries.filter (fun e => e.1 != host)).take c.capacity }

/-- The `h2.Config` field the engine reads. -/
structure H2Config where
  AllowedHostsFilter : Option (String → Bool)

/-- The `mitm.Config`. Keys are designated by identity; `validity` is a `time.Duration`,
an `int64` count of nanoseconds. -/
structure Config where
  ca : Certificate
  capriv : Nat
  priv : Nat
  keyID : List Nat
  validity : Int
  org : String
  h2Config : Option H2Config
  certs : Cache
  roots : List Certificate

/-- Library behaviour the engine takes from outside: the random source, the clock
(two successive readings per issuance), IP parsing, and X.509 signing, parsing and
verification. -/
structure CertEnv where
  /-- The value `rand.Int(rand.Reader, MaxSerialNumber)` yields; `none` when it fails. -/
  randInt : Option Nat
  /-- The reading `time.Now()` for `NotBefore`. -/
  now1 : Int
  /-- The reading `time.Now()` for `NotAfter`. -/
  now2 : Int
  /-- The parser `net.ParseIP`. -/
  ParseIP : String → Option (List Nat)
  /-- The public half `priv.Public()` of a key. -/
  Public : Nat → Nat
  /-- The signer `x509.CreateCertificate(rand, template, parent, pub, priv)`. -/
  CreateCertificate : Certificate → Certificate → Nat → Nat → Except Err (List Nat)
  /-- The parser `x509.ParseCertificate`. -/
  ParseCertificate : List Nat → Except Err Certificate
  /-- Whether `leaf.Verify(VerifyOptions{DNSName, Roots})` returns no error. -/
  Verify : Certificate → String → List Certificate → Bool
  /-- The generator `rsa.GenerateKey(rand.Reader, 2048)`. -/
  GenerateKey : Except Err Nat
  /-- The encoder `x509.MarshalPKIXPublicKey`. -/
  MarshalPKIXPublicKey : Nat → Except Err (List Nat)
  /-- The digest SHA-256. -/
  sha256 : List Nat → List Nat

/-- The law of the X.509 round trip the validity window depends on: a certificate
parsed from the bytes `x509.CreateCertificate` made of a template carries the
`NotBefore` and `NotAfter` of the template cut down to whole seconds. -/
def CertEnv.keepsSeconds (env : CertEnv) : Prop :=
  ∀ tmpl parent pub priv raw leaf,
    env.CreateCertificate tmpl parent pub priv = Except.ok raw →
    env.ParseCertificate raw = Except.ok leaf →
    leaf.NotBefore = truncSecond tmpl.NotBefore ∧ leaf.NotAfter = truncSecond tmpl.NotAfter

/-- Observable steps of `cert`, in order. -/
inductive CertEvent where
  | cacheGet (key : String)
  | verify (dnsName : String)
  | sign (tmpl : Certificate)
  | cacheAdd (key : String) (leaf : TLSCertificate)
  deriving DecidableEq, Repr

/-- What a call of `cert` leaves behind: the returned certificate or error, the
cache, and the steps taken. -/
structure CertResult where
  res : Except Err TLSCertificate
  certs : Cache
  events : List CertEvent

/-- `NewConfigWithCache`. -/
def NewConfigWithCache (env : CertEnv) (ca : Certificate) (privateKey : Nat) (certs : Cache) :
    Except Err Config :=
  let roots := [ca]
  match env.GenerateKey with
  | Except.error e => Except.error e
  | Except.ok priv =>
    let pub := env.Public priv
    match env.MarshalPKIXPublicKey pub with
    | Except.error e => Except.error e
    | Except.ok pkixpub =>
      let keyID := env.sha256 pkixpub
      Except.ok
        { ca := ca, capriv := privateKey, priv := priv, keyID := keyID, validity := Hour,
          org := "Martian Proxy", h2Config := none, certs := certs, roots := roots }

/-- `Config.SetValidity`. -/
def Config.SetValidity (c : Config) (validity : Int) : Config :=
  { c with validity := validity }

/-- `Config.SetOrganization`. -/
def Config.SetOrganization (c : Config) (org : String) : Config :=
  { c with org := org }

/-- `Config.SetH2Config`. -/
def Config.SetH2Config (c : Config) (h2Config : Option H2Config) : Config :=
  { c with h2Config := h2Config }

/-- `Config.h2AllowedHost`. -/
def Config.h2AllowedHost (c : Config) (host : String) : Bool :=
  match c.h2Config with
  | none => false
  | some h2 =>
    match h2.AllowedHostsFilter with
    | none => false
    | some f => f host

/-- The first lines of `cert`: remove the port if it exists. -/
def canonicalHost (hostname : String) : String :=
  match SplitHostPort hostname with
  | Except.ok (host, _) => host
  | Except.error _ => hostname

/-- The certificate template `cert` fills in for `hostname`. The negation `-c.validity`
is an `int64` negation, which wraps at `math.MinInt64`; `time.Time.Add` is exact, an
instant having a range far wider than a duration. -/
def leafTemplate (env : CertEnv) (c : Config) (hostname : String) (serial : Nat) :
    Certificate :=
  let tmpl : Certificate :=
    { Raw := []
      SerialNumber := serial
      CommonName := hostname
      Organization := [c.org]
      SubjectKeyId := c.keyID
      KeyUsage := KeyUsageKeyEncipherment ||| KeyUsageDigitalSignature
      ExtKeyUsage := [ExtKeyUsageServerAuth]
      BasicConstraintsValid := true
      NotBefore := env.now1 + wrapInt64 (-c.validity)
      NotAfter := env.now2 + c.validity
      IPAddresses := []
      DNSNames := [] }
  match env.ParseIP hostname with
  | some ip => { tmpl with IPAddresses := [ip] }
  | none => { tmpl with DNSNames := [hostname] }

/-- The issuing half of `cert`, from the cache miss on; `evs` are the steps taken so far. -/
def issue (env : CertEnv) (c : Config) (hostname : String) (evs : List CertEvent) :
    CertResult :=
  match env.randInt with
  | none => { res := Except.error (Err.other "rand"), certs := c.certs, events := evs }
  | some serial =>
    let tmpl := leafTemplate env c hostname serial
    match env.CreateCertificate tmpl c.ca (env.Public c.priv) c.capriv with
    | Except.error e =>
      { res := Except.error e, certs := c.certs, events := evs ++ [CertEvent.sign tmpl] }
    | Except.ok raw =>
      -- Parse certificate bytes so that we have a leaf certificate.
      match env.ParseCertificate raw with
      | Except.error e =>
        { res := Except.error e, certs := c.certs, events := evs ++ [CertEvent.sign tmpl] }
      | Except.ok x509c =>
        let tlsc : TLSCertificate :=
          { Certificate := [raw, c.ca.Raw], PrivateKey := c.priv, Leaf := x509c }
        { res := Except.ok tlsc
          certs := c.certs.Add hostname tlsc
          events := evs ++ [CertEvent.sign tmpl, CertEvent.cacheAdd hostname tlsc] }

/-- `Config.cert`. -/
def cert (env : CertEnv) (c : Config) (hostname0 : String) : CertResult :=
  -- Remove the port if it exists.
  let hostname := canonicalHost hostname0
  match c.certs.Get hostname with
  | some tlsc =>
    -- Check validity of the certificate for hostname match, expiry, etc.
    if env.Verify tlsc.Leaf hostname c.roots then
      { res := Except.ok tlsc, certs := c.certs,
        events := [CertEvent.cacheGet hostname, CertEvent.verify hostname] }
    else
      issue env c hostname [CertEvent.cacheGet hostname, CertEvent.verify hostname]
  | none => issue env c hostname [CertEvent.cacheGet hostname]

/-- The `tls.ClientHelloInfo` field the engine reads. -/
structure ClientHelloInfo where
  ServerName : String
  deriving DecidableEq, Repr

/-- The `tls.Config` fields the engine sets. `GetCertificate` runs against the
configuration as it is when the handshake takes place. -/
structure TLSConfig where
  MinVersion : Nat
  GetCertificate : Config → ClientHelloInfo → CertResult
  NextProtos : List String

/-- `Config.TLS`: certificates from the SNI extension only. -/
def Config.TLS (env : CertEnv) (_c : Config) : TLSConfig :=
  { MinVersion := VersionTLS12
    GetCertificate := fun c clientHello =>
      if clientHello.ServerName = "" then
        { res := Except.error (Err.other "mitm: SNI not provided, failed to build certificate"),
          certs := c.certs, events := [] }
      else cert env c clientHello.ServerName
    NextProtos := ["http/1.1"] }

/-- `Config.TLSForHost`: certificates from the SNI extension, or for `hostname`. -/
def Config.TLSForHost (env : CertEnv) (c0 : Config) (hostname : String) : TLSConfig :=
  let nextProtos := if c0.h2AllowedHost hostname then ["h2", "http/1.1"] else ["http/1.1"]
  { MinVersion := VersionTLS12
    GetCertificate := fun c clientHello =>
      let host := if clientHello.ServerName = "" then hostname else clientHello.ServerName
      cert env c host
    NextProtos := nextProtos }

/-! ## Concrete inputs

Small closed inputs on which the definitions above are evaluated. -/

/-- Header lines in list order: `key: value\r\n` for every value. -/
def headerLinesInOrder : Header → String
  | [] => ""
  | (k, vs) :: t =>
    String.join (vs.map (fun v => k ++ ": " ++ v ++ "\r\n")) ++ headerLinesInOrder t

/-- A writer environment: the usual status texts for 200 and 404, header lines in list
order, header-only replies for HEAD requests, a serialiser that writes status line,
header and blank line, and a flush that succeeds. -/
def sampleWriteEnv : WriteEnv where
  StatusText := fun c => if c = 200 then "OK" else if c = 404 then "Not Found" else ""
  headerLines := headerLinesInOrder
  mapsKeys := fun h => h.map (·.1)
  isHeaderOnlySpec := fun res => res.Request.Method == "HEAD"
  isTextEventStream := fun _ => false
  shouldChunk := fun _ => false
  resWrite := fun _ res w =>
    w.WriteString ("HTTP/1.1 " ++ Itoa res.StatusCode ++ "\r\n" ++
      headerLinesInOrder res.Header ++ "\r\n")
  flush := fun _ => none

/-- A writer that never fails and has written nothing yet. -/
def emptyWriter : Writer := { out := [], room := none }

/-- The request `CONNECT example.com:443 HTTP/1.1`. -/
def connectRequest : Request :=
  { Method := "CONNECT", Host := "example.com:443", ProtoMajor := 1, ProtoMinor := 1,
    Close := false }

/-- The request `GET / HTTP/1.1` with `Connection: close`. -/
def getCloseRequest : Request :=
  { Method := "GET", Host := "example.com", ProtoMajor := 1, ProtoMinor := 1, Close := true }

/-- The request `HEAD / HTTP/1.1`. -/
def headRequest : Request :=
  { Method := "HEAD", Host := "example.com", ProtoMajor := 1, ProtoMinor := 1, Close := false }

/-- The reply `200 OK` to `connectRequest`, as `newConnectResponse` builds it. -/
def connectOKResponse : Response := newConnectResponse sampleWriteEnv connectRequest

/-- A reply `404 Not Found` to `getCloseRequest`. -/
def notFoundResponse : Response :=
  { Status := "404 Not Found", StatusCode := 404, ProtoMajor := 1, ProtoMinor := 1,
    Header := [("Content-Length", ["0"])], Trailer := [], Close := false,
    Request := getCloseRequest }

/-- A reply `200 OK` to `headRequest` that declares the trailer `X-Checksum`. -/
def headTrailerResponse : Response :=
  { Status := "200 OK", StatusCode := 200, ProtoMajor := 1, ProtoMinor := 1,
    Header := [], Trailer := [("X-Checksum", [])], Close := false, Request := headRequest }

/-- The fields of a `proxyConn` that reading never touches. -/
def sameOutside (p q : ProxyConn) : Prop :=
  q.w = p.w ∧ q.conn = p.conn ∧ q.secure = p.secure ∧ q.cs = p.cs ∧ q.rdSize = p.rdSize

/-- The reader reads the accepted connection itself, directly or behind re-prepended
bytes, with no TLS layer in between. -/
def readsRaw (p : ProxyConn) : Prop :=
  p.rdSrc = Source.direct ConnKind.raw ∨ ∃ buf, p.rdSrc = Source.multi buf ConnKind.raw

/-- A handler environment: modifiers that change nothing, and a TLS layer that is
never reached (handshakes fail, decrypted reads fail). -/
def sampleHandlerEnv : HandlerEnv where
  wenv := sampleWriteEnv
  modifyResponse := fun res => (res, none)
  errorResponse := fun req _ =>
    { Status := "502 Bad Gateway", StatusCode := 502, ProtoMajor := 1, ProtoMinor := 1,
      Header := [], Trailer := [], Close := false, Request := req }
  tlsHandshake := fun _ _ _ net => HandshakeResult.fail (Err.other "tls: handshake failure") net
  tlsRead := fun _ net _ => (net, [], some (Err.other "tls: closed"))
  h2Proxy := fun _ => none

/-- A fresh connection on which the client has sent `GET ` and then `/`, as two
segments; the reader has the default buffer size and nothing buffered. -/
def plaintextConn : ProxyConn :=
  { net := { incoming := [[71, 69, 84, 32], [47]] }
    rdBuf := [], rdSrc := Source.direct ConnKind.raw, rdErr := none, rdSize := 4096
    w := emptyWriter, conn := ConnKind.raw, secure := false, cs := none }

/-- The state of `plaintextConn` once the reply to CONNECT is written and the first
segment is buffered by the peek. -/
def plaintextConnPeeked : ProxyConn :=
  { plaintextConn with
    net := { incoming := [[47]] }
    rdBuf := [71, 69, 84, 32]
    w := (writeResponse sampleWriteEnv false emptyWriter connectOKResponse).w }

/-- The host a step of `cert` works on: the cache key, the name verified, the common
name signed. -/
def CertEvent.host : CertEvent → String
  | CertEvent.cacheGet key => key
  | CertEvent.verify dnsName => dnsName
  | CertEvent.sign tmpl => tmpl.CommonName
  | CertEvent.cacheAdd key _ => key

/-- Whether a step signs or writes the cache. -/
def CertEvent.issues : CertEvent → Bool
  | CertEvent.cacheGet _ => false
  | CertEvent.verify _ => false
  | CertEvent.sign _ => true
  | CertEvent.cacheAdd _ _ => true

/-- The bytes of a string, as numbers. -/
def bytesOf (s : String) : List Nat := s.data.map Char.toNat

/-- A certificate environment whose signer encodes the serial number and the common
name, whose parser decodes them, and whose verifier accepts a leaf for exactly the DNS
name it was parsed with; `::1` is the one IP literal. -/
def sampleCertEnv : CertEnv where
  randInt := some 7
  now1 := 1000
  now2 := 1001
  ParseIP := fun s => if s = "::1" then some [0, 0, 0, 0, 0, 0, 0, 0, 0, 0, 0, 0, 0, 0, 0, 1] else none
  Public := fun k => k + 1
  CreateCertificate := fun tmpl _ _ _ => Except.ok (tmpl.SerialNumber :: bytesOf tmpl.CommonName)
  ParseCertificate := fun raw =>
    Except.ok
      { Raw := raw, SerialNumber := raw.headD 0
        CommonName := String.mk (raw.tail.map Char.ofNat), Organization := []
        SubjectKeyId := [], KeyUsage := 5, ExtKeyUsage := [1], BasicConstraintsValid := true
        NotBefore := 0, NotAfter := 0, IPAddresses := []
        DNSNames := [String.mk (raw.tail.map Char.ofNat)] }
  Verify := fun leaf dnsName _ => leaf.DNSNames.contains dnsName
  GenerateKey := Except.ok 11
  MarshalPKIXPublicKey := fun k => Except.ok [k]
  sha256 := fun b => b

/-- A root certificate. -/
def sampleCA : Certificate :=
  { Raw := [99], SerialNumber := 1, CommonName := "Root", Organization := ["Root"]
    SubjectKeyId := [9], KeyUsage := 37, ExtKeyUsage := [1], BasicConstraintsValid := true
    NotBefore := 0, NotAfter := 5000, IPAddresses := [], DNSNames := ["Root"] }

/-- A configuration with an empty cache of capacity 1024 and no HTTP/2 configuration. -/
def sampleConfig : Config :=
  { ca := sampleCA, capriv := 3, priv := 11, keyID := [12], validity := Hour
    org := "Martian Proxy", h2Config := none
    certs := { capacity := 1024, entries := [] }, roots := [sampleCA] }

/-- The configuration `sampleConfig` with HTTP/2 allowed for `example.com` only. -/
def sampleH2Config : Config :=
  sampleConfig.SetH2Config
    (some { AllowedHostsFilter := some (fun h => h == "example.com") })

/-- A leaf as `sampleCertEnv` issues it for the given name. -/
def sampleLeaf (name : String) : TLSCertificate :=
  { Certificate := [7 :: bytesOf name, [99]], PrivateKey := 11
    Leaf :=
      { Raw := 7 :: bytesOf name, SerialNumber := 7, CommonName := name, Organization := []
        SubjectKeyId := [], KeyUsage := 5, ExtKeyUsage := [1], BasicConstraintsValid := true
        NotBefore := 0, NotAfter := 0, IPAddresses := [], DNSNames := [name] } }

/-- The configuration `sampleConfig` whose cache holds, under `example.com`, a leaf
issued for `other.test`: a cached entry that fails verification. -/
def staleConfig : Config :=
  { sampleConfig with certs := { capacity := 1024, entries := [("example.com", sampleLeaf "other.test")] } }

/-- The configuration `sampleConfig` whose cache holds, under `example.com`, a leaf
issued for `example.com`. -/
def warmConfig : Config :=
  { sampleConfig with certs := { capacity := 1024, entries := [("example.com", sampleLeaf "example.com")] } }

/-- `NewConfig`, with `newCache` the outcome of `NewCache(DefaultCacheConfig())`. -/
def NewConfig (env : CertEnv) (newCache : Except Err Cache) (ca : Certificate)
    (privateKey : Nat) : Except Err Config :=
  match newCache with
  | Except.error e => Except.error e
  | Except.ok certs => NewConfigWithCache env ca privateKey certs

/-- The configuration `sampleConfig` after `SetValidity(-time.Hour)`. -/
def backwardsConfig : Config := sampleConfig.SetValidity (-Hour)

/-- The leaf `x509CertEnv` issues for `example.com` under `sampleConfig`: valid from
1699996400 to 1700003600 seconds. -/
def x509Leaf : TLSCertificate :=
  { Certificate :=
      [[7, 0, 1699996400000000000, 0, 1700003600000000000, 101, 120, 97, 109, 112, 108, 101,
        46, 99, 111, 109], [99]]
    PrivateKey := 11
    Leaf :=
      { Raw := [7, 0, 1699996400000000000, 0, 1700003600000000000, 101, 120, 97, 109, 112,
          108, 101, 46, 99, 111, 109]
        SerialNumber := 7, CommonName := "example.com", Organization := []
        SubjectKeyId := [], KeyUsage := 5, ExtKeyUsage := [1], BasicConstraintsValid := true
        NotBefore := 1699996400000000000, NotAfter := 1700003600000000000
        IPAddresses := [], DNSNames := ["example.com"] } }

/-- The configuration `sampleConfig` after `SetValidity(500 * time.Millisecond)`. -/
def halfSecondConfig : Config := sampleConfig.SetValidity 500000000

/-- An instant as two numbers: whether it is negative, and its magnitude. -/
def encodeInstant (t : Int) : List Nat := [if t < 0 then 1 else 0, t.natAbs]

/-- The instant two numbers stand for. -/
def decodeInstant (sign mag : Nat) : Int := if sign = 1 then -(mag : Int) else (mag : Int)

/-- The certificate environment `sampleCertEnv` with clock readings a quarter of a second
into a second (500 nanoseconds apart) and an X.509 round trip that carries the validity
bounds of the template, cut down to whole seconds. -/
def x509CertEnv : CertEnv :=
  { sampleCertEnv with
    now1 := 1700000000250000000
    now2 := 1700000000250000500
    CreateCertificate := fun tmpl _ _ _ =>
      Except.ok (tmpl.SerialNumber :: (encodeInstant (truncSecond tmpl.NotBefore) ++
        encodeInstant (truncSecond tmpl.NotAfter) ++ bytesOf tmpl.CommonName))
    ParseCertificate := fun raw =>
      Except.ok
        { Raw := raw, SerialNumber := raw.headD 0
          CommonName := String.mk ((raw.drop 5).map Char.ofNat), Organization := []
          SubjectKeyId := [], KeyUsage := 5, ExtKeyUsage := [1], BasicConstraintsValid := true
          NotBefore := decodeInstant (raw.getD 1 0) (raw.getD 2 0)
          NotAfter := decodeInstant (raw.getD 3 0) (raw.getD 4 0)
          IPAddresses := [], DNSNames := [String.mk ((raw.drop 5).map Char.ofNat)] } }

/-! ## PAC results (`pac/proxy.go`) -/

namespace pac

/-- `unicode.IsSpace`: the white space `strings.TrimSpace` removes. -/
def isSpace (c : Char) : Bool :=
  c = '\t' || c = '\n' || c = Char.ofNat 0x0B || c = Char.ofNat 0x0C || c = '\r' || c = ' ' ||
  c = Char.ofNat 0x85 || c = Char.ofNat 0xA0 || c = Char.ofNat 0x1680 ||
  (0x2000 ≤ c.toNat && c.toNat ≤ 0x200A) || c = Char.ofNat 0x2028 || c = Char.ofNat 0x2029 ||
  c = Char.ofNat 0x202F || c = Char.ofNat 0x205F || c = Char.ofNat 0x3000

/-- `strings.TrimSpace` on the characters of a string. -/
def TrimSpace (s : List Char) : List Char :=
  ((s.dropWhile isSpace).reverse.dropWhile isSpace).reverse

/-- `strings.Cut(s, sep)` for a separator of one character: the text before the first
separator, the text after it, and whether the separator was found. -/
def Cut : List Char → Char → List Char × List Char × Bool
  | [], _ => ([], [], false)
  | x :: xs, sep =>
    if x = sep then ([], xs, true)
    else
      match Cut xs sep with
      | (before, after, found) => (x :: before, after, found)

/-- `strings.Split(s, sep)` for a separator of one character. -/
def Split : List Char → Char → List (List Char)
  | [], _ => [[]]
  | x :: xs, sep =>
    if x = sep then [] :: Split xs sep
    else
      match Split xs sep with
      | [] => [[x]]
      | h :: t => (x :: h) :: t

/-- `Mode` is a proxy mode. -/
inductive Mode where
  | DIRECT
  | PROXY
  | SOCKS
  | HTTP
  | HTTPS
  | SOCKS4
  deriving DecidableEq, Repr

/-- `Proxy` specifies the proxy to be used as parsed from a `FindProxyForURL` result. -/
structure Proxy where
  Mode : pac.Mode
  Host : String
  Port : String
  deriving DecidableEq, Repr

/-- The value `noProxy`. -/
def noProxy : Proxy := { Mode := Mode.DIRECT, Host := "", Port := "" }

/-- The errors of `parseProxy`: `missing host:port`, and `split host:port: ` followed
by the reason `net.SplitHostPort` gives. -/
inductive ParseError where
  | missingHostPort
  | splitHostPort (why : String)
  deriving DecidableEq, Repr

/-- The error `invalid proxy string at pos %d %q: %w` of `First` and `All`. -/
structure PosError where
  pos : Nat
  spec : String
  cause : ParseError
  deriving DecidableEq, Repr

/-- `parseMode`. -/
def parseMode (s : String) : Mode :=
  if s = "DIRECT" then Mode.DIRECT
  else if s = "PROXY" then Mode.PROXY
  else if s = "SOCKS" then Mode.SOCKS
  else if s = "HTTP" then Mode.HTTP
  else if s = "HTTPS" then Mode.HTTPS
  else if s = "SOCKS4" then Mode.SOCKS4
  else Mode.DIRECT

/-- `parseProxy`. -/
def parseProxy (s0 : String) : Proxy × Option ParseError :=
  let s := TrimSpace s0.data
  if s = [] then (noProxy, none)
  else if s = "DIRECT".data then ({ Mode := Mode.DIRECT, Host := "", Port := "" }, none)
  else
    match Cut s ' ' with
    | (_, _, false) => (noProxy, some ParseError.missingHostPort)
    | (mode, hostport, true) =>
      match splitHostPort hostport with
      | Except.error why => (noProxy, some (ParseError.splitHostPort why))
      | Except.ok (host, port) =>
        ({ Mode := parseMode (String.mk mode), Host := String.mk host, Port := String.mk port },
          none)

/-- `Proxies.First`. -/
def First (s : String) : Proxy × Option PosError :=
  if s = "" then ({ Mode := Mode.DIRECT, Host := "", Port := "" }, none)
  else
    match Cut s.data ';' with
    | (spec, _, _) =>
      match parseProxy (String.mk spec) with
      | (_, some err) => (noProxy, some { pos := 0, spec := String.mk spec, cause := err })
      | (p, none) => (p, none)

/-- The loop of `Proxies.All` from index `i` on, with `res` the proxies parsed so far. -/
def allLoop (i : Nat) (res : List Proxy) : List (List Char) → List Proxy × Option PosError
  | [] => (res, none)
  | v :: vs =>
    match parseProxy (String.mk v) with
    | (_, some err) => ([], some { pos := i, spec := String.mk v, cause := err })
    | (p, none) => allLoop (i + 1) (res ++ [p]) vs

/-- `Proxies.All`; a nil slice is the empty list. -/
def All (s : String) : List Proxy × Option PosError :=
  if s = "" then ([], none)
  else allLoop 0 [] (Split s.data ';')

end pac

/-! ## The connect dispatcher (`proxy_connect.go`) and the request loop (`proxy_conn.go`) -/

/-- `http.Header.Get` for a key that is already in canonical form: the first value
stored under `key`, or the empty string. -/
def Header.Get (h : Header) (key : String) : String :=
  match h.Values key with
  | [] => ""
  | v :: _ => v

/-- `http.Header.Del` for a key that is already in canonical form. -/
def Header.Del (h : Header) (key : String) : Header :=
  h.filter (fun kv => kv.1 ≠ key)

/-- `http.Header.Set` for a key that is already in canonical form: the values stored
under `key` become the single `value`. -/
def Header.Set : Header → String → String → Header
  | [], key, value => [(key, [value])]
  | (k, vs) :: t, key, value =>
    if k = key then (k, [value]) :: t else (k, vs) :: Header.Set t key value

/-- `strconv.ParseBool`. -/
def ParseBool (str : String) : Bool × Option Err :=
  if str = "1" ∨ str = "t" ∨ str = "T" ∨ str = "TRUE" ∨ str = "true" ∨ str = "True" then
    (true, none)
  else if str = "0" ∨ str = "f" ∨ str = "F" ∨ str = "FALSE" ∨ str = "false" ∨
      str = "False" then
    (false, none)
  else (false, some (Err.other "strconv.ParseBool: invalid syntax"))

/-- The header name `terminateTLSHeader`. -/
def terminateTLSHeader : String := "X-Martian-Terminate-Tls"

/-- `shouldTerminateTLS`. -/
def shouldTerminateTLS (req : Request) : Bool :=
  let h := req.Header.Get terminateTLSHeader
  if h = "" then false
  else (ParseBool h).1

/-- `fixConnectReqContentLength`. -/
def fixConnectReqContentLength (req : Request) : Request :=
  if req.Method ≠ MethodConnect then req
  else { req with ContentLength := -1 }

/-- The sentinel `ErrConnectFallback`. -/
def ErrConnectFallback : Err := Err.other "martian: connect fallback"

/-- The `martian.Proxy` a connection belongs to, as far as the connect dispatcher and
the request loop read it, together with what they call outside these sources.

Fields of the Go struct: `ConnectFunc`, `ProxyURL`, `DialContext`, `ConnectTimeout`,
`ReadTimeout`, `WithoutWarning` (a hook that is `none` is nil). Methods and helpers of
the package whose code lies outside these sources, taken as given: `idleTimeout`,
`readHeaderTimeout`, `modifyRequest`, `shouldMITM`, `fixRequestScheme`, `roundTrip`,
`upgradeType`, `maybeConnectErrorResponse`, `drainBuffer`, `bicopy`. Library
behaviour: `errorsIs`, `errorText`, `dialHTTPProxy`, `dialSOCKS5`,
`tlsClientHandshake`, `Warning`, `ReadRequest`, `remoteAddr`, and the two clock
readings `now` and `t0` of `readRequest`. -/
structure Proxy where
  ConnectFunc : Option (Request → Option Response × Option ReadWriteCloser × Option Err)
  ProxyURL : Option (Request → Option URL × Option Err)
  /-- The dialer: network, address to connection and error. -/
  DialContext : String → String → Option Nat × Option Err
  ConnectTimeout : Int
  ReadTimeout : Int
  WithoutWarning : Bool
  idleTimeout : Int
  readHeaderTimeout : Int
  /-- The request-modifier chain; it mutates the request and may fail. -/
  modifyRequest : Request → Request × Option Err
  shouldMITM : Request → Bool
  fixRequestScheme : Request → Request
  roundTrip : Request → Option Response × Option Err
  upgradeType : Header → String
  maybeConnectErrorResponse : Err → Option Response
  /-- The drain of the bytes buffered in `p.brw.Reader` into the tunnel. -/
  drainBuffer : Option ReadWriteCloser → ProxyConn → ProxyConn × Option Err
  /-- The two-way copy between the tunnel and `p.conn`, until both directions end. -/
  bicopy : Option ReadWriteCloser → ProxyConn → ProxyConn
  /-- The test `errors.Is(err, target)`. -/
  errorsIs : Err → Err → Bool
  /-- The text `err.Error()`. -/
  errorText : Err → String
  /-- The call `DialContextR` of a `dialvia.HTTPProxyDialer` (for `https` built with
  `clientTLSConfig`), given whether the proxy is `https`, the proxy URL, the dialer's
  `Timeout` and `ProxyConnectHeader`, the network and the address. -/
  dialHTTPProxy : Bool → URL → Int → Header → String → String →
    Option Response × Option Nat × Option Err
  /-- The call `DialContext` of a `dialvia.SOCKS5ProxyDialer`, given the proxy URL, the
  dialer's `Timeout`, the network and the address. -/
  dialSOCKS5 : URL → Int → String → String → Option Nat × Option Err
  /-- The handshake of `tls.Client(cconn, p.clientTLSConfig())`. -/
  tlsClientHandshake : Nat → Option Err
  /-- The header `proxyutil.Warning` leaves behind. -/
  Warning : Header → Err → Header
  /-- The parse `http.ReadRequest(p.brw.Reader)`. -/
  ReadRequest : ProxyConn → ProxyConn × Except Err Request
  /-- The text `p.conn.RemoteAddr().String()`. -/
  remoteAddr : ConnKind → String
  /-- The clock reading behind the idle deadline. -/
  now : Int
  /-- The clock reading `t0`, taken once the first byte is there. -/
  t0 : Int

/-- What the default connect path returns: `(*http.Response, net.Conn, error)`, and
the steps taken. -/
structure DialResult where
  res : Option Response
  conn : Option Nat
  err : Option Err
  events : List Event
  deriving DecidableEq, Repr

/-- What `Proxy.Connect` returns: `(res, crw, cerr)`, and the steps taken. -/
structure ConnectResult where
  res : Option Response
  crw : Option ReadWriteCloser
  cerr : Option Err
  events : List Event
  deriving DecidableEq, Repr

/-- `Proxy.connectHTTP`. -/
def Proxy.connectHTTP (px : Proxy) (env : WriteEnv) (req : Request) (proxyURL : URL) :
    DialResult :=
  let https : Bool := proxyURL.Scheme = "https"
  let timeout := px.ConnectTimeout
  let proxyConnectHeader := req.Header
  let evs := [Event.dialHTTPProxy https proxyURL timeout proxyConnectHeader "tcp" req.URLHost]
  match px.dialHTTPProxy https proxyURL timeout proxyConnectHeader "tcp" req.URLHost with
  | (some res, conn, err) =>
    if Int.tdiv res.StatusCode 100 = 2 then
      { res := some (newConnectResponse env req), conn := conn, err := none,
        events := evs ++ [Event.bodyClose res.Body] }
    else
      -- If the proxy returns a non-2xx response, return it to the client.
      -- But first, replace the Request with the original request.
      { res := some { res with Request := req }, conn := conn, err := err, events := evs }
  | (none, conn, err) => { res := none, conn := conn, err := err, events := evs }

/-- `Proxy.connectSOCKS5`. -/
def Proxy.connectSOCKS5 (px : Proxy) (env : WriteEnv) (req : Request) (proxyURL : URL) :
    DialResult :=
  let evs := [Event.dialSOCKS5 proxyURL px.ConnectTimeout "tcp" req.URLHost]
  match px.dialSOCKS5 proxyURL px.ConnectTimeout "tcp" req.URLHost with
  | (_, some err) => { res := none, conn := none, err := some err, events := evs }
  | (conn, none) =>
    { res := some (newConnectResponse env req), conn := conn, err := none, events := evs }

/-- `Proxy.connect`. -/
def Proxy.connect (px : Proxy) (env : WriteEnv) (req : Request) : DialResult :=
  let hook : Option URL × Option Err × List Event :=
    match px.ProxyURL with
    | none => (none, none, [])
    | some f =>
      match f req with
      | (u, err) => (u, err, [Event.proxyURL req])
  match hook with
  | (_, some err, evs) => { res := none, conn := none, err := some err, events := evs }
  | (none, none, evs) =>
    match px.DialContext "tcp" req.URLHost with
    | (_, some err) =>
      { res := none, conn := none, err := some err,
        events := evs ++ [Event.dial "tcp" req.URLHost] }
    | (conn, none) =>
      { res := some (newConnectResponse env req), conn := conn, err := none,
        events := evs ++ [Event.dial "tcp" req.URLHost] }
  | (some proxyURL, none, evs) =>
    if proxyURL.Scheme = "http" ∨ proxyURL.Scheme = "https" then
      let r := px.connectHTTP env req proxyURL
      { r with events := evs ++ r.events }
    else if proxyURL.Scheme = "socks5" then
      let r := px.connectSOCKS5 env req proxyURL
      { r with events := evs ++ r.events }
    else
      { res := none, conn := none,
        err := some (Err.other ("unsupported proxy scheme: " ++ proxyURL.Scheme)),
        events := evs }

/-- The test `errors.Is(cerr, ErrConnectFallback)`; a nil error wraps nothing. -/
def Proxy.isConnectFallback (px : Proxy) (cerr : Option Err) : Bool :=
  match cerr with
  | none => false
  | some e => px.errorsIs e ErrConnectFallback

/-- `Proxy.Connect`. -/
def Proxy.Connect (px : Proxy) (env : WriteEnv) (req : Request) (terminateTLS : Bool) :
    ConnectResult :=
  let r0 : ConnectResult :=
    match px.ConnectFunc with
    | some f =>
      match f req with
      | (res, crw, cerr) =>
        { res := res, crw := crw, cerr := cerr, events := [Event.connectFunc req] }
    | none => { res := none, crw := none, cerr := none, events := [] }
  if px.ConnectFunc.isNone ∨ px.isConnectFallback r0.cerr = true then
    let d := px.connect env req
    match d.conn with
    | some cconn =>
      if terminateTLS then
        match px.tlsClientHandshake cconn with
        | none =>
          { res := d.res, crw := some (ReadWriteCloser.tlsClient cconn), cerr := d.err,
            events := r0.events ++ d.events ++ [Event.tlsClientHandshake cconn] }
        | some err =>
          { res := d.res, crw := some (ReadWriteCloser.conn cconn), cerr := some err,
            events := r0.events ++ d.events ++ [Event.tlsClientHandshake cconn] }
      else
        { res := d.res, crw := some (ReadWriteCloser.conn cconn), cerr := d.err,
          events := r0.events ++ d.events }
    | none => { res := d.res, crw := r0.crw, cerr := d.err, events := r0.events ++ d.events }
  else r0

/-- What `readRequest` returns: the request or the error, the connection state and
the steps taken. -/
structure ReadResult where
  p : ProxyConn
  out : Except Err Request
  events : List Event

/-- `proxyConn.readRequest`. A deadline is `none` for the zero `time.Time`. The
context attached by `WithContext` is not part of the request model. -/
def readRequest (env : HandlerEnv) (px : Proxy) (p : ProxyConn) : ReadResult :=
  let idleDeadline : Option Int :=
    if px.idleTimeout > 0 then some (px.now + px.idleTimeout) else none
  let evs1 := [Event.setReadDeadline idleDeadline, Event.peek 1]
  -- Wait for the connection to become readable before trying to read the next request.
  match Peek env p 1 with
  | (p1, _, some err) => { p := p1, out := Except.error err, events := evs1 }
  | (p1, _, none) =>
    let t0 := px.t0
    let hdrDeadline : Option Int :=
      if px.readHeaderTimeout > 0 then some (t0 + px.readHeaderTimeout) else none
    let wholeReqDeadline : Option Int :=
      if px.ReadTimeout > 0 then some (t0 + px.ReadTimeout) else none
    let evs2 := evs1 ++ [Event.setReadDeadline hdrDeadline, Event.readRequest]
    match px.ReadRequest p1 with
    | (p2, Except.error err) => { p := p2, out := Except.error err, events := evs2 }
    | (p2, Except.ok req) =>
      let req1 := fixConnectReqContentLength req
      let req2 : Request :=
        if p2.secure then { req1 with TLS := some (p2.cs.getD { NegotiatedProtocol := "" }) }
        else req1
      let req3 : Request := { req2 with RemoteAddr := px.remoteAddr p2.conn }
      let req4 : Request :=
        if req3.URLHost = "" then { req3 with URLHost := req3.Host } else req3
      -- Adjust the read deadline if necessary.
      let evs3 :=
        if hdrDeadline ≠ wholeReqDeadline then evs2 ++ [Event.setReadDeadline wholeReqDeadline]
        else evs2
      { p := p2, out := Except.ok req4, events := evs3 }

/-- `proxyConn.writeErrorResponse`. -/
def writeErrorResponse (env : HandlerEnv) (px : Proxy) (closing : Bool) (p : ProxyConn)
    (req : Request) (err : Err) : HandleResult :=
  let res : Response :=
    match px.maybeConnectErrorResponse err with
    | some r => r
    | none => env.errorResponse req err
  let res1 : Response :=
    match env.modifyResponse res with
    | (r, some e) =>
      if !px.WithoutWarning then { r with Header := px.Warning r.Header e } else r
    | (r, none) => r
  let r := writeResponse env.wenv closing p.w res1
  { p := { p with w := r.w }, err := r.err,
    events := [Event.writeResponse r.res] ++ traceEvents r }

/-- `proxyConn.tunnel`; `crw` is `none` for a nil `io.ReadWriteCloser`. -/
def tunnel (env : HandlerEnv) (px : Proxy) (closing : Bool) (p : ProxyConn)
    (name : String) (res : Response) (crw : Option ReadWriteCloser) : HandleResult :=
  let r := writeResponse env.wenv closing p.w res
  let p1 := { p with w := r.w }
  let evs := [Event.writeResponse r.res] ++ traceEvents r
  match r.err with
  | some e => { p := p1, err := some e, events := evs }
  | none =>
    match px.drainBuffer crw p1 with
    | (p2, some e) =>
      { p := p2,
        err := some (Err.other ("got error while draining read buffer: " ++ px.errorText e)),
        events := evs ++ [Event.drainBuffer crw, Event.traceWroteResponse] }
    | (p2, none) =>
      { p := px.bicopy crw p2, err := none,
        events := evs ++ [Event.drainBuffer crw, Event.bicopy name crw,
          Event.traceWroteResponse] }

/-- The calls deferred by `handleConnectRequest` after `Connect`, in the order they
run at return: `crw.Close()`, then `res.Body.Close()`. -/
def connectDeferred (c : ConnectResult) : List Event :=
  (match c.crw with
    | some crw => [Event.close crw]
    | none => []) ++
  (match c.res with
    | some res => [Event.bodyClose res.Body]
    | none => [])

/-- `proxyConn.handleConnectRequest`. The result is `none` when `Connect` returned
neither a response nor an error: the nil response is handed to the modifier chain and
dereferenced. Response modifiers are taken to leave the request they reach through
`res.Request` as it is. -/
def handleConnectRequest (env : HandlerEnv) (px : Proxy) (closing : Bool) (p : ProxyConn)
    (req0 : Request) : Option HandleResult :=
  let terminateTLS := shouldTerminateTLS req0
  let req1 : Request := { req0 with Header := req0.Header.Del terminateTLSHeader }
  let evs1 := [Event.modifyRequest req1]
  match px.modifyRequest req1 with
  | (req, some err) =>
    let r := writeErrorResponse env px closing p req err
    some { r with events := evs1 ++ r.events }
  | (req, none) =>
    if px.shouldMITM req then
      let r := handleMITM env closing p req
      some { r with events := evs1 ++ r.events }
    else
      let c := px.Connect env.wenv req terminateTLS
      let evs2 := evs1 ++ [Event.connect req terminateTLS] ++ c.events
      match c.cerr with
      | some cerr =>
        let r := writeErrorResponse env px closing p req cerr
        some { r with events := evs2 ++ r.events ++ connectDeferred c }
      | none =>
        match c.res with
        | none => none
        | some res0 =>
          match env.modifyResponse res0 with
          | (_, some err) =>
            let r := writeErrorResponse env px closing p req err
            some { r with events := evs2 ++ r.events ++ connectDeferred c }
          | (res, none) =>
            if Int.tdiv res.StatusCode 100 ≠ 2 then
              let r := writeResponse env.wenv closing p.w res
              some { p := { p with w := r.w }, err := r.err,
                     events := evs2 ++ [Event.writeResponse r.res] ++ traceEvents r ++
                       connectDeferred c }
            else
              let r := tunnel env px closing p "CONNECT" res c.crw
              some { p := r.p, err := some Err.errClose,
                     events := evs2 ++ r.events ++ connectDeferred c }

/-- `proxyConn.handleUpgradeResponse`. -/
def handleUpgradeResponse (env : HandlerEnv) (px : Proxy) (closing : Bool) (p : ProxyConn)
    (res : Response) : HandleResult :=
  let resUpType := px.upgradeType res.Header
  match res.Body with
  | Body.readWriter id =>
    let res1 : Response := { res with Body := Body.panicBody }
    let r := tunnel env px closing p resUpType res1 (some (ReadWriteCloser.body id))
    { p := r.p, err := some Err.errClose, events := r.events }
  | _ =>
    -- switching protocols response with non-writable body
    { p := p, err := some Err.errClose, events := [Event.traceWroteResponse] }

/-- `proxyConn.handle`, with `closingFirst` the value `p.closing()` reads right after
the request is read and `closing` the value it reads while a response is written. The
result is `none` when the round trip returned neither a response nor an error, and
where `handleConnectRequest` gives `none`. -/
def handle (env : HandlerEnv) (px : Proxy) (closingFirst closing : Bool) (p : ProxyConn) :
    Option HandleResult :=
  let rr := readRequest env px p
  let evs0 := rr.events ++ [Event.traceReadRequest]
  match rr.out with
  | Except.error _ => some { p := rr.p, err := some Err.errClose, events := evs0 }
  | Except.ok req0 =>
    if closingFirst then
      some { p := rr.p, err := some Err.errClose, events := evs0 ++ [Event.requestBodyClose] }
    else if req0.Method = MethodConnect then
      match handleConnectRequest env px closing rr.p req0 with
      | none => none
      | some r => some { r with events := evs0 ++ r.events ++ [Event.requestBodyClose] }
    else
      let req1 := px.fixRequestScheme req0
      let reqUpType := px.upgradeType req1.Header
      let evs1 := evs0 ++ [Event.modifyRequest req1]
      match px.modifyRequest req1 with
      | (req2, some err) =>
        let r := writeErrorResponse env px closing rr.p req2 err
        some { r with events := evs1 ++ r.events ++ [Event.requestBodyClose] }
      | (req2, none) =>
        -- after stripping all the hop-by-hop connection headers above, add back any
        -- necessary for protocol upgrades, such as for websockets.
        let req : Request :=
          if reqUpType ≠ "" then
            { req2 with
              Header := (req2.Header.Set "Connection" "Upgrade").Set "Upgrade" reqUpType }
          else req2
        -- perform the HTTP roundtrip
        let evs2 := evs1 ++ [Event.roundTrip req]
        match px.roundTrip req with
        | (_, some err) =>
          let r := writeErrorResponse env px closing rr.p req err
          some { r with events := evs2 ++ r.events ++ [Event.requestBodyClose] }
        | (none, none) => none
        | (some res0, none) =>
          let deferred := [Event.bodyClose res0.Body, Event.requestBodyClose]
          -- set request to original request manually
          let res1 : Response := { res0 with Request := req }
          let resUpType := px.upgradeType res1.Header
          match env.modifyResponse res1 with
          | (_, some err) =>
            let r := writeErrorResponse env px closing rr.p req err
            some { r with events := evs2 ++ r.events ++ deferred }
          | (res2, none) =>
            let res : Response :=
              if resUpType ≠ "" then
                { res2 with
                  Header := (res2.Header.Set "Connection" "Upgrade").Set "Upgrade" resUpType }
              else res2
            -- deal with 101 Switching Protocols responses: (WebSocket, h2c, etc)
            if res.StatusCode = 101 then
              let r := handleUpgradeResponse env px closing rr.p res
              some { r with events := evs2 ++ r.events ++ deferred }
            else
              let r := writeResponse env.wenv closing rr.p.w res
              some { p := { rr.p with w := r.w }, err := r.err,
                     events := evs2 ++ [Event.writeResponse r.res] ++ traceEvents r ++
                       deferred }

/-- The deadline a step sets on the connection, if it sets one. -/
def Event.deadline : Event → Option (Option Int)
  | Event.setReadDeadline t => some t
  | _ => none

/-- Whether a step dials, directly or through an upstream proxy. -/
def Event.dials : Event → Bool
  | Event.dial _ _ => true
  | Event.dialHTTPProxy _ _ _ _ _ _ => true
  | Event.dialSOCKS5 _ _ _ _ => true
  | _ => false

/-- Whether a step is a client-side TLS handshake on an upstream connection. -/
def Event.handshakes : Event → Bool
  | Event.tlsClientHandshake _ => true
  | _ => false

/-- One second, as a `time.Duration`. -/
def Second : Int := 1000000000

/-- An upgrade-type reader for the concrete inputs: the `Upgrade` value of a header
whose `Connection` values name `Upgrade`. -/
def sampleUpgradeType (h : Header) : String :=
  if "Upgrade" ∈ h.Values "Connection" then h.Get "Upgrade" else ""

/-- The request `GET /chat HTTP/1.1` asking to switch to `websocket`. -/
def upgradeRequest : Request :=
  { Method := "GET", Host := "example.com", ProtoMajor := 1, ProtoMinor := 1, Close := false,
    Header := [("Connection", ["Upgrade"]), ("Upgrade", ["websocket"])],
    URLHost := "example.com" }

/-- A proxy with no hooks: it dials `example.com:443` with success (connection 1) and
fails to dial anything else, its modifiers change nothing, it never intercepts, its
transport answers every request with `101 Switching Protocols` for `websocket` over a
writable body, and it parses `upgradeRequest` from every connection. Idle, header and
read timeouts are 30, 2 and 5 seconds. -/
def sampleProxy : Proxy where
  ConnectFunc := none
  ProxyURL := none
  DialContext := fun _ addr =>
    if addr = "example.com:443" then (some 1, none)
    else (none, some (Err.other "dial tcp: connection refused"))
  ConnectTimeout := 60 * Second
  ReadTimeout := 5 * Second
  WithoutWarning := false
  idleTimeout := 30 * Second
  readHeaderTimeout := 2 * Second
  modifyRequest := fun req => (req, none)
  shouldMITM := fun _ => false
  fixRequestScheme := fun req => req
  roundTrip := fun req =>
    (some { Status := "101 Switching Protocols", StatusCode := 101, ProtoMajor := 1,
            ProtoMinor := 1,
            Header := [("Connection", ["Upgrade"]), ("Upgrade", ["websocket"])],
            Trailer := [], Close := false, Request := req, Body := Body.readWriter 7 },
      none)
  upgradeType := sampleUpgradeType
  maybeConnectErrorResponse := fun _ => none
  drainBuffer := fun _ p => (p, none)
  bicopy := fun _ p => p
  errorsIs := fun e target => e = target
  errorText := fun e =>
    match e with
    | Err.errClose => "closing connection"
    | Err.other msg => msg
  dialHTTPProxy := fun _ _ _ _ _ _ => (none, none, some (Err.other "proxy unreachable"))
  dialSOCKS5 := fun _ _ _ _ => (none, some (Err.other "proxy unreachable"))
  tlsClientHandshake := fun _ => none
  Warning := fun h e =>
    h.Add "Warning" (match e with
      | Err.errClose => "closing connection"
      | Err.other msg => msg)
  ReadRequest := fun p => ({ p with rdBuf := [] }, Except.ok upgradeRequest)
  remoteAddr := fun _ => "192.0.2.1:50000"
  now := 1000
  t0 := 1001

/-- The sample proxy with the header timeout equal to the read timeout. -/
def equalTimeoutsProxy : Proxy := { sampleProxy with readHeaderTimeout := 5 * Second }


/-- An upstream proxy URL `http://proxy.example:3128`. -/
def upstreamHTTP : URL := { Scheme := "http", Host := "proxy.example:3128" }

/-- The CONNECT request of `connectRequest` with its target in `URL.Host` and a
`User-Agent` header. -/
def connectVia : Request :=
  { connectRequest with
    URLHost := "example.com:443", Header := [("User-Agent", ["curl/8.0"])] }

/-- The sample proxy behind the upstream `upstreamHTTP`, which answers CONNECT with
`200 Connection established` over connection 2, an error pending all the same. -/
def upstreamOKProxy : Proxy :=
  { sampleProxy with
    ProxyURL := some (fun _ => (some upstreamHTTP, none))
    dialHTTPProxy := fun _ _ _ _ _ _ =>
      (some { Status := "200 Connection established", StatusCode := 200, ProtoMajor := 1,
              ProtoMinor := 0, Header := [("Via", ["1.1 upstream"])], Trailer := [],
              Close := false, Request := headRequest, Body := Body.reader 3 },
        some 2, some (Err.other "late error")) }

/-- The sample proxy behind the upstream `upstreamHTTP`, which rejects CONNECT with
`407 Proxy Authentication Required` over connection 2. -/
def upstreamDeniedProxy : Proxy :=
  { sampleProxy with
    ProxyURL := some (fun _ => (some upstreamHTTP, none))
    dialHTTPProxy := fun _ _ _ _ _ _ =>
      (some { Status := "407 Proxy Authentication Required", StatusCode := 407,
              ProtoMajor := 1, ProtoMinor := 1, Header := [], Trailer := [], Close := false,
              Request := headRequest, Body := Body.reader 3 },
        some 2, some (Err.other "proxy rejected CONNECT")) }

/-- The sample proxy behind an upstream with the scheme `ftp`. -/
def upstreamFTPProxy : Proxy :=
  { sampleProxy with
    ProxyURL := some (fun _ => (some { Scheme := "ftp", Host := "proxy.example:21" }, none)) }

/-- The sample proxy with a `ProxyURL` hook that fails. -/
def proxyURLFailsProxy : Proxy :=
  { sampleProxy with
    ProxyURL := some (fun _ => (none, some (Err.other "no route"))) }


/-- The sample proxy with a `ConnectFunc` hook that returns its own response and
connection 5, and no error. -/
def hookProxy : Proxy :=
  { sampleProxy with
    ConnectFunc := some (fun req =>
      (some { Status := "200 OK", StatusCode := 200, ProtoMajor := 1, ProtoMinor := 1,
              Header := [("X-Hook", ["1"])], Trailer := [], Close := false, Request := req },
        some (ReadWriteCloser.conn 5), none)) }

/-- The sample proxy with a `ConnectFunc` hook that asks for the fallback and returns,
with the fallback error, a response and connection 9. -/
def hookFallbackProxy : Proxy :=
  { sampleProxy with
    ConnectFunc := some (fun req =>
      (some { Status := "200 OK", StatusCode := 200, ProtoMajor := 1, ProtoMinor := 1,
              Header := [("X-Hook", ["1"])], Trailer := [], Close := false, Request := req },
        some (ReadWriteCloser.conn 9), some ErrConnectFallback)) }

/-- The request `CONNECT unreachable.example:443`, which the sample dialer cannot reach. -/
def connectUnreachable : Request :=
  { connectRequest with Host := "unreachable.example:443", URLHost := "unreachable.example:443" }

/-- The sample proxy with a client-side TLS handshake that fails. -/
def handshakeFailsProxy : Proxy :=
  { sampleProxy with
    tlsClientHandshake := fun _ => some (Err.other "tls: handshake failure") }


/-- The request `connectVia` carrying `X-Martian-Terminate-Tls: true`. -/
def connectTerminate : Request :=
  { connectVia with
    Header := [("X-Martian-Terminate-Tls", ["true"]), ("User-Agent", ["curl/8.0"])] }

/-- The sample proxy behind the upstream of `upstreamDeniedProxy`, answering without an
error: CONNECT is rejected with `407`. -/
def rejectingProxy : Proxy :=
  { sampleProxy with
    ProxyURL := some (fun _ => (some upstreamHTTP, none))
    dialHTTPProxy := fun _ _ _ _ _ _ =>
      (some { Status := "407 Proxy Authentication Required", StatusCode := 407,
              ProtoMajor := 1, ProtoMinor := 1, Header := [], Trailer := [], Close := false,
              Request := headRequest, Body := Body.reader 3 },
        some 2, none) }

/-- Whether a step belongs to a running tunnel. -/
def Event.tunnels : Event → Bool
  | Event.drainBuffer _ => true
  | Event.bicopy _ _ => true
  | _ => false


/-- The response a step hands to the client, if it writes one. -/
def Event.written : Event → Option Response
  | Event.writeResponse res => some res
  | _ => none

/-- The sample proxy in front of an upstream that answers the `websocket` request with
`101 Switching Protocols` for `h2c`. -/
def mismatchProxy : Proxy :=
  { sampleProxy with
    roundTrip := fun req =>
      (some { Status := "101 Switching Protocols", StatusCode := 101, ProtoMajor := 1,
              ProtoMinor := 1,
              Header := [("Connection", ["Upgrade"]), ("Upgrade", ["h2c"])],
              Trailer := [], Close := false, Request := req, Body := Body.readWriter 7 },
        none) }

/-- The sample proxy with a transport whose `101 Switching Protocols` reply has a body
that can only be read. -/
def readOnlyBodyProxy : Proxy :=
  { sampleProxy with
    roundTrip := fun req =>
      (some { Status := "101 Switching Protocols", StatusCode := 101, ProtoMajor := 1,
              ProtoMinor := 1,
              Header := [("Connection", ["Upgrade"]), ("Upgrade", ["websocket"])],
              Trailer := [], Close := false, Request := req, Body := Body.reader 7 },
        none) }


/-- The segments `parseProxy` rejects: the trimmed text is not empty, is not `DIRECT`,
and either holds no space or has after its first space a text that
`net.SplitHostPort` refuses. -/
def pac.malformed (v : List Char) : Bool :=
  pac.TrimSpace v ≠ [] && pac.TrimSpace v ≠ "DIRECT".data &&
    !(' ' ∈ pac.TrimSpace v &&
      (match splitHostPort (pac.Cut (pac.TrimSpace v) ' ').2.1 with
        | Except.ok _ => true
        | Except.error _ => false))

/-! # Properties -/

/-! ## Response writer -/

theorem tdiv_hundred_eq_two_iff (c : Int) :
    Int.tdiv c 100 = 2 ↔ (200 ≤ c ∧ c ≤ 299) := by
  rcases Int.le_total 0 c with h | h
  · rw [Int.tdiv_eq_ediv h (by decide)]; omega
  · have e : Int.tdiv c 100 = -((-c) / 100) := by
      have := Int.neg_tdiv (-c) 100
      rw [neg_neg] at this
      rw [this, Int.tdiv_eq_ediv (by omega) (by decide)]
    rw [e]; omega

theorem isConnectOK_iff (res : Response) :
    isConnectOK res = true ↔
      (res.Request.Method = MethodConnect ∧ 200 ≤ res.StatusCode ∧ res.StatusCode ≤ 299) := by
  simp [isConnectOK, tdiv_hundred_eq_two_iff]

theorem Header.Values_Add (h : Header) (key value : String) :
    (h.Add key value).Values key = h.Values key ++ [value] := by
  induction h with
  | nil => simp [Header.Add, Header.Values]
  | cons e t ih =>
    obtain ⟨k, vs⟩ := e
    by_cases hk : k = key
    · simp [Header.Add, Header.Values, hk]
    · simp [Header.Add, Header.Values, hk, ih]

theorem writeResponse_res (env : WriteEnv) (closing : Bool) (w : Writer) (res : Response) :
    (writeResponse env closing w res).res = markClose closing res := by
  simp only [writeResponse]
  generalize writeBody env w (markClose closing res) = b
  obtain ⟨w1, werr⟩ := b
  cases werr with
  | some e => rfl
  | none =>
    simp only []
    cases env.flush w1 with
    | some e => rfl
    | none => simp only []; split <;> rfl

theorem writeResponse_err (env : WriteEnv) (closing : Bool) (w : Writer) (res : Response) :
    (writeResponse env closing w res).err =
      if (writeBody env w (markClose closing res)).2 = none ∧
          env.flush (writeBody env w (markClose closing res)).1 = none ∧
          (markClose closing res).Close = false
      then none else some Err.errClose := by
  simp only [writeResponse]
  generalize writeBody env w (markClose closing res) = b
  obtain ⟨w1, werr⟩ := b
  cases werr with
  | some e => simp
  | none =>
    simp only []
    cases hf : env.flush w1 with
    | some e => simp
    | none => cases hc : (markClose closing res).Close <;> simp

theorem markClose_connectOK (res : Response)
    (hm : res.Request.Method = MethodConnect)
    (hlo : 200 ≤ res.StatusCode) (hhi : res.StatusCode ≤ 299) :
    markClose false res = { res with Close := false } := by
  have h2 : Int.tdiv res.StatusCode 100 = 2 := (tdiv_hundred_eq_two_iff _).2 ⟨hlo, hhi⟩
  cases hc : res.Request.Close <;> simp [markClose, hm, h2, hc]


/-- C1 (as stated, refuted): while the proxy is closing, the reply `200 OK` to a CONNECT
request is written without error and flushed, and yet `writeResponse` sets `res.Close`,
adds `Connection: close` to the response header and returns `errClose`. -/
theorem writeResponse_connectOK_while_closing :
    connectOKResponse.Request.Method = MethodConnect ∧
    200 ≤ connectOKResponse.StatusCode ∧ connectOKResponse.StatusCode ≤ 299 ∧
    (writeConnectOKResponse emptyWriter).2 = none ∧
    sampleWriteEnv.flush (writeConnectOKResponse emptyWriter).1 = none ∧
    (writeResponse sampleWriteEnv true emptyWriter connectOKResponse).res.Close = true ∧
    (writeResponse sampleWriteEnv true emptyWriter connectOKResponse).res.Header.Values
      "Connection" = ["close"] ∧
    (writeResponse sampleWriteEnv true emptyWriter connectOKResponse).err =
      some Err.errClose := by
  decide

/-- C1 (amended): for a CONNECT request and a 2xx response, when the proxy is not
closing, whatever `req.Close` and `res.Close` were, `writeResponse` leaves `res.Close`
false and the header untouched (the response is the incoming one with `Close` cleared),
and returns nil when the write and the flush succeed. -/
theorem writeResponse_connectOK_not_closing (env : WriteEnv) (w : Writer) (res : Response)
    (hm : res.Request.Method = MethodConnect)
    (hlo : 200 ≤ res.StatusCode) (hhi : res.StatusCode ≤ 299) :
    (writeResponse env false w res).res = { res with Close := false } ∧
    (writeResponse env false w res).res.Close = false ∧
    (writeResponse env false w res).res.Header = res.Header ∧
    ((writeConnectOKResponse w).2 = none →
      env.flush (writeConnectOKResponse w).1 = none →
      (writeResponse env false w res).err = none) := by
  have hmk := markClose_connectOK res hm hlo hhi
  have hok : isConnectOK { res with Close := false } = true := by
    rw [isConnectOK_iff]; exact ⟨hm, hlo, hhi⟩
  have hbody : writeBody env w { res with Close := false } = writeConnectOKResponse w := by
    simp [writeBody, hok]
  refine ⟨?_, ?_, ?_, ?_⟩
  · rw [writeResponse_res, hmk]
  · rw [writeResponse_res, hmk]
  · rw [writeResponse_res, hmk]
  · intro hw hf
    rw [writeResponse_err, hmk, hbody, hw, hf]
    simp

/-- C1 (amended), at the reply `200 OK` to `CONNECT example.com:443`. -/
theorem writeResponse_connectOK_not_closing_witness :
    (writeResponse sampleWriteEnv false emptyWriter connectOKResponse).res =
      { connectOKResponse with Close := false } ∧
    (writeResponse sampleWriteEnv false emptyWriter connectOKResponse).res.Close = false ∧
    (writeResponse sampleWriteEnv false emptyWriter connectOKResponse).res.Header =
      connectOKResponse.Header ∧
    ((writeConnectOKResponse emptyWriter).2 = none →
      sampleWriteEnv.flush (writeConnectOKResponse emptyWriter).1 = none →
      (writeResponse sampleWriteEnv false emptyWriter connectOKResponse).err = none) :=
  writeResponse_connectOK_not_closing sampleWriteEnv emptyWriter connectOKResponse
    (by decide) (by decide) (by decide)

theorem markClose_of_close (closing : Bool) (res : Response)
    (h : ¬ (res.Request.Method = MethodConnect ∧ 200 ≤ res.StatusCode ∧ res.StatusCode ≤ 299))
    (hc : closing = true ∨ res.Request.Close = true) :
    markClose closing res =
      { res with Close := true, Header := res.Header.Add "Connection" "close" } := by
  have hno : (res.Request.Method == MethodConnect && Int.tdiv res.StatusCode 100 == 2) = false := by
    have := (isConnectOK_iff res).not.2 h
    simpa [isConnectOK] using this
  cases closing with
  | true => simp [markClose]
  | false =>
    have hr : res.Request.Close = true := by simpa using hc
    simp only [markClose, hr, if_true]
    simp [hno]

theorem markClose_of_open (res : Response)
    (h : ¬ (res.Request.Method = MethodConnect ∧ 200 ≤ res.StatusCode ∧ res.StatusCode ≤ 299))
    (hreq : res.Request.Close = false) (hres : res.Close = false) :
    markClose false res = res := by
  have hno : (res.Request.Method == MethodConnect && Int.tdiv res.StatusCode 100 == 2) = false := by
    have := (isConnectOK_iff res).not.2 h
    simpa [isConnectOK] using this
  simp only [markClose, hreq]
  simp [hno, hres]

/-- C2: for a response that is not a 2xx reply to a CONNECT request: if the proxy is
closing or the request has `Close` set, `writeResponse` sets `res.Close`, appends
`close` to the values of the `Connection` header and returns `errClose`; if the proxy
is not closing and neither `req.Close` nor `res.Close` was set, it leaves the response
as it was and returns nil when the write and the flush succeed. -/
theorem writeResponse_close_discipline (env : WriteEnv) (closing : Bool) (w : Writer)
    (res : Response)
    (h : ¬ (res.Request.Method = MethodConnect ∧ 200 ≤ res.StatusCode ∧
      res.StatusCode ≤ 299)) :
    ((closing = true ∨ res.Request.Close = true) →
      (writeResponse env closing w res).res.Close = true ∧
      (writeResponse env closing w res).res.Header = res.Header.Add "Connection" "close" ∧
      (writeResponse env closing w res).res.Header.Values "Connection" =
        res.Header.Values "Connection" ++ ["close"] ∧
      (writeResponse env closing w res).err = some Err.errClose) ∧
    (closing = false → res.Request.Close = false → res.Close = false →
      (writeResponse env closing w res).res.Close = false ∧
      (writeResponse env closing w res).res.Header = res.Header ∧
      (writeResponse env closing w res).res = res ∧
      ((writeBody env w res).2 = none → env.flush (writeBody env w res).1 = none →
        (writeResponse env closing w res).err = none)) := by
  constructor
  · intro hc
    have hmk := markClose_of_close closing res h hc
    refine ⟨?_, ?_, ?_, ?_⟩
    · rw [writeResponse_res, hmk]
    · rw [writeResponse_res, hmk]
    · rw [writeResponse_res, hmk]; exact Header.Values_Add _ _ _
    · rw [writeResponse_err, hmk]; simp
  · intro hcl hreq hres
    subst hcl
    have hmk := markClose_of_open res h hreq hres
    refine ⟨?_, ?_, ?_, ?_⟩
    · rw [writeResponse_res, hmk]; exact hres
    · rw [writeResponse_res, hmk]
    · rw [writeResponse_res, hmk]
    · intro hw hf
      rw [writeResponse_err, hmk, hw, hf]
      simp [hres]

/-- C2, at a `404` reply to a request with `Connection: close` (first half) and at a
`404` reply to a `HEAD` request without it (second half). -/
theorem writeResponse_close_discipline_witness :
    ((writeResponse sampleWriteEnv false emptyWriter notFoundResponse).res.Close = true ∧
      (writeResponse sampleWriteEnv false emptyWriter notFoundResponse).res.Header =
        notFoundResponse.Header.Add "Connection" "close" ∧
      (writeResponse sampleWriteEnv false emptyWriter notFoundResponse).res.Header.Values
        "Connection" = notFoundResponse.Header.Values "Connection" ++ ["close"] ∧
      (writeResponse sampleWriteEnv false emptyWriter notFoundResponse).err =
        some Err.errClose) ∧
    ((writeResponse sampleWriteEnv false emptyWriter
        { notFoundResponse with Request := headRequest }).res.Close = false ∧
      (writeResponse sampleWriteEnv false emptyWriter
        { notFoundResponse with Request := headRequest }).res.Header =
          notFoundResponse.Header ∧
      (writeResponse sampleWriteEnv false emptyWriter
        { notFoundResponse with Request := headRequest }).res =
          { notFoundResponse with Request := headRequest } ∧
      (writeResponse sampleWriteEnv false emptyWriter
        { notFoundResponse with Request := headRequest }).err = none) :=
  ⟨(writeResponse_close_discipline sampleWriteEnv false emptyWriter notFoundResponse
      (by decide)).1 (Or.inr rfl),
   let t := (writeResponse_close_discipline sampleWriteEnv false emptyWriter
      { notFoundResponse with Request := headRequest } (by decide)).2 rfl rfl rfl
   ⟨t.1, t.2.1, t.2.2.1, t.2.2.2 (by decide) (by decide)⟩⟩

theorem WriteString_unbounded (w : Writer) (s : String) (hw : w.room = none) :
    w.WriteString s = ({ out := w.out ++ s.data, room := none }, none) := by
  obtain ⟨out, room⟩ := w
  simp only at hw
  subst hw
  rfl

theorem writeTrailerKeys_unbounded (keys : List String) (w : Writer) (i : Nat)
    (hw : w.room = none) (hi : 0 < i) :
    writeTrailerKeys w i keys =
      ({ out := w.out ++ (keys.map (fun k => ", ".data ++ k.data)).flatten, room := none },
        none) := by
  induction keys generalizing w i with
  | nil =>
    obtain ⟨out, room⟩ := w
    simp only at hw
    subst hw
    simp [writeTrailerKeys]
  | cons k ks ih =>
    simp only [writeTrailerKeys, hi, if_true, WriteString_unbounded w _ hw]
    rw [WriteString_unbounded _ _ rfl]
    simp only []
    rw [ih _ (i + 1) rfl (Nat.succ_pos i)]
    simp [List.append_assoc]

/-- The bytes of the `Trailer` declaration as `writeHeaderOnlyResponse` writes them:
`Trailer: ` and the keys separated by `, `, with no line terminator. -/
theorem writeTrailerKeys_from_zero (keys : List String) (w : Writer) (hw : w.room = none) :
    writeTrailerKeys w 0 keys =
      ({ out := w.out ++ List.intercalate ", ".data (keys.map String.data), room := none },
        none) := by
  cases keys with
  | nil =>
    obtain ⟨out, room⟩ := w
    simp only at hw
    subst hw
    simp [writeTrailerKeys, List.intercalate]
  | cons k ks =>
    simp only [writeTrailerKeys, Nat.lt_irrefl, if_false]
    rw [WriteString_unbounded w _ hw]
    simp only []
    rw [writeTrailerKeys_unbounded ks _ 1 rfl Nat.one_pos]
    have hx : ∀ (a : List Char) (l : List String),
        a ++ (l.map (fun k => ", ".data ++ k.data)).flatten =
          List.intercalate ", ".data (a :: l.map String.data) := by
      intro a l
      induction l generalizing a with
      | nil => simp [List.intercalate]
      | cons b t iht =>
        have := iht b.data
        simp only [List.intercalate, List.map_cons, List.intersperse, List.flatten_cons] at this ⊢
        rw [← this]
        simp [List.append_assoc]
    simp only [List.map_cons, ← hx, List.append_assoc]

/-- The output of `writeHeaderOnlyResponse` on a writer that never fails: the status
line, the header lines, then, when trailers are declared, `Trailer: k1, k2, ...`
without its own line terminator, then one CRLF. -/
theorem writeHeaderOnlyResponse_unbounded (env : WriteEnv) (w : Writer) (res : Response)
    (hw : w.room = none) :
    writeHeaderOnlyResponse env w res =
      ({ out := w.out ++ (statusLine env res).data ++ (env.headerLines res.Header).data ++
            (if res.Trailer.length > 0 then
              "Trailer: ".data ++
                List.intercalate ", ".data ((env.mapsKeys res.Trailer).map String.data)
             else []) ++ "\r\n".data,
         room := none }, none) := by
  simp only [writeHeaderOnlyResponse]
  rw [WriteString_unbounded w _ hw]
  simp only []
  rw [WriteString_unbounded _ _ rfl]
  simp only []
  by_cases ht : res.Trailer.length > 0
  · simp only [ht, if_true]
    rw [WriteString_unbounded _ _ rfl]
    simp only []
    rw [writeTrailerKeys_from_zero _ _ rfl]
    simp only []
    rw [WriteString_unbounded _ _ rfl]
    simp [List.append_assoc]
  · simp only [ht, if_false]
    rw [WriteString_unbounded _ _ rfl]
    simp [List.append_assoc]

/-- C3 (the code at the failing input): for the reply `200 OK` to a `HEAD` request
that declares the trailer `X-Checksum`, on a writer that never fails,
`writeHeaderOnlyResponse` returns nil and has written
`HTTP/1.1 200 OK\r\nTrailer: X-Checksum\r\n`: the single CRLF after the keys ends the
`Trailer` line, and the empty line that terminates the header block is missing. -/
theorem writeHeaderOnlyResponse_trailer_unterminated :
    writeHeaderOnlyResponse sampleWriteEnv emptyWriter headTrailerResponse =
      ({ out := "HTTP/1.1 200 OK\r\nTrailer: X-Checksum\r\n".data, room := none }, none) ∧
    ¬ ("\r\n\r\n".data <:+
        (writeHeaderOnlyResponse sampleWriteEnv emptyWriter headTrailerResponse).1.out) := by
  decide

/-! ## The plaintext branch of the MITM path -/

theorem sameOutside_refl (p : ProxyConn) : sameOutside p p := ⟨rfl, rfl, rfl, rfl, rfl⟩

theorem sameOutside_trans {p q r : ProxyConn} (h1 : sameOutside p q) (h2 : sameOutside q r) :
    sameOutside p r := by
  obtain ⟨a1, a2, a3, a4, a5⟩ := h1
  obtain ⟨b1, b2, b3, b4, b5⟩ := h2
  exact ⟨b1.trans a1, b2.trans a2, b3.trans a3, b4.trans a4, b5.trans a5⟩

theorem fillLoop_sameOutside (env : HandlerEnv) (i : Nat) (p : ProxyConn) :
    sameOutside p (fillLoop env i p) := by
  induction i generalizing p with
  | zero => exact ⟨rfl, rfl, rfl, rfl, rfl⟩
  | succ i ih =>
    simp only [fillLoop]
    rcases readSource env p.rdSrc p.net (p.rdSize - p.rdBuf.length) with ⟨src1, net1, bs, _ | e⟩
    · simp only []
      split
      · exact ⟨rfl, rfl, rfl, rfl, rfl⟩
      · exact sameOutside_trans ⟨rfl, rfl, rfl, rfl, rfl⟩ (ih _)
    · exact ⟨rfl, rfl, rfl, rfl, rfl⟩

theorem peekLoop_sameOutside (env : HandlerEnv) (n fuel : Nat) (p : ProxyConn) :
    sameOutside p (peekLoop env n fuel p) := by
  induction fuel generalizing p with
  | zero => exact sameOutside_refl p
  | succ f ih =>
    simp only [peekLoop]
    split
    · exact sameOutside_trans (fillLoop_sameOutside env 100 p) (ih _)
    · exact sameOutside_refl p

/-- A `Peek` that returns no error returns the first `n` buffered bytes, of which there
are at least `n`, and leaves the reader as the peek loop left it. -/
theorem Peek_ok (env : HandlerEnv) (p p2 : ProxyConn) (n : Nat) (b : List Nat)
    (h : Peek env p n = (p2, b, none)) :
    p2 = peekLoop env n n p ∧ n ≤ p2.rdBuf.length ∧ b = p2.rdBuf.take n := by
  simp only [Peek] at h
  split at h
  · simp at h
  · split at h
    · split at h <;> simp at h
    · rename_i h1 h2
      simp only [Prod.mk.injEq, and_true] at h
      obtain ⟨hp, hb⟩ := h
      subst hp
      exact ⟨rfl, Nat.le_of_not_lt h2, hb.symm⟩

/-- Draining a non-empty buffer: `Read` into a slice as long as the buffer copies the
whole buffer, empties it and returns no error. -/
theorem Read_drain (env : HandlerEnv) (p : ProxyConn) (h : 0 < p.rdBuf.length) :
    Read env p (Buffered p) = ({ p with rdBuf := [] }, p.rdBuf, none) := by
  have h0 : p.rdBuf.length ≠ 0 := Nat.pos_iff_ne_zero.mp h
  simp [Read, Buffered, h0]

theorem NetConn_Read_flatten (c c1 : NetConn) (n : Nat) (bs : List Nat) (e : Option Err)
    (h : c.Read n = (c1, bs, e)) : bs ++ c1.incoming.flatten = c.incoming.flatten := by
  obtain ⟨inc⟩ := c
  cases inc with
  | nil =>
    simp only [NetConn.Read, Prod.mk.injEq] at h
    obtain ⟨h1, h2, _⟩ := h
    subst h1; subst h2; rfl
  | cons seg rest =>
    simp only [NetConn.Read] at h
    split at h
    · simp only [Prod.mk.injEq] at h
      obtain ⟨h1, h2, _⟩ := h
      subst h1; subst h2; simp
    · simp only [Prod.mk.injEq] at h
      obtain ⟨h1, h2, _⟩ := h
      subst h1; subst h2
      simp [← List.append_assoc, List.take_append_drop]

theorem readSource_pending (env : HandlerEnv) (p : ProxyConn) (n : Nat) (src1 : Source)
    (net1 : NetConn) (bs : List Nat) (e : Option Err) (hr : readsRaw p)
    (h : readSource env p.rdSrc p.net n = (src1, net1, bs, e)) (q : ProxyConn)
    (hq1 : q.rdSrc = src1) (hq2 : q.net = net1) (hq3 : q.rdBuf = p.rdBuf ++ bs) :
    readsRaw q ∧ pendingBytes q = pendingBytes p := by
  rcases hr with hd | ⟨buf, hm⟩
  · rw [hd] at h
    simp only [readSource, readConn] at h
    rcases hrd : p.net.Read n with ⟨n1, b1, e1⟩
    rw [hrd] at h
    simp only [Prod.mk.injEq] at h
    obtain ⟨h1, h2, h3, _⟩ := h
    have := NetConn_Read_flatten _ _ _ _ _ hrd
    refine ⟨Or.inl (by rw [hq1, ← h1]), ?_⟩
    simp only [pendingBytes, hq1, ← h1, hd, hq2, ← h2, hq3, ← h3, List.append_assoc, this]
  · rw [hm] at h
    simp only [readSource, readConn] at h
    split at h
    · rename_i hb
      rcases hrd : p.net.Read n with ⟨n1, b1, e1⟩
      rw [hrd] at h
      simp only [Prod.mk.injEq] at h
      obtain ⟨h1, h2, h3, _⟩ := h
      have := NetConn_Read_flatten _ _ _ _ _ hrd
      have hnil : buf = [] := List.length_eq_zero.mp hb
      refine ⟨Or.inr ⟨[], by rw [hq1, ← h1]⟩, ?_⟩
      simp only [pendingBytes, hq1, ← h1, hm, hq2, ← h2, hq3, ← h3, hnil, List.append_assoc,
        List.nil_append, this]
    · simp only [Prod.mk.injEq] at h
      obtain ⟨h1, h2, h3, _⟩ := h
      refine ⟨Or.inr ⟨buf.drop n, by rw [hq1, ← h1]⟩, ?_⟩
      simp only [pendingBytes, hq1, ← h1, hm, hq2, ← h2, hq3, ← h3, List.append_assoc]
      rw [← List.append_assoc (List.take n buf), List.take_append_drop]

theorem fillLoop_pending (env : HandlerEnv) (i : Nat) (p : ProxyConn) (hr : readsRaw p) :
    readsRaw (fillLoop env i p) ∧ pendingBytes (fillLoop env i p) = pendingBytes p := by
  induction i generalizing p with
  | zero =>
    simp only [fillLoop]
    exact ⟨hr, by simp only [pendingBytes]⟩
  | succ i ih =>
    simp only [fillLoop]
    rcases hrs : readSource env p.rdSrc p.net (p.rdSize - p.rdBuf.length)
      with ⟨src1, net1, bs, _ | e⟩
    · simp only []
      split
      · exact readSource_pending env p _ _ _ _ _ hr hrs _ rfl rfl rfl
      · rename_i hb
        have hnil : bs = [] := by
          cases bs with
          | nil => rfl
          | cons a t => simp at hb
        have hstep := readSource_pending env p _ _ _ _ _ hr hrs
          { p with rdSrc := src1, net := net1 } rfl rfl (by simp [hnil])
        have := ih _ hstep.1
        exact ⟨this.1, this.2.trans hstep.2⟩
    · exact readSource_pending env p _ _ _ _ _ hr hrs _ rfl rfl rfl

theorem peekLoop_pending (env : HandlerEnv) (n fuel : Nat) (p : ProxyConn) (hr : readsRaw p) :
    readsRaw (peekLoop env n fuel p) ∧
      pendingBytes (peekLoop env n fuel p) = pendingBytes p := by
  induction fuel generalizing p with
  | zero => exact ⟨hr, rfl⟩
  | succ f ih =>
    simp only [peekLoop]
    split
    · have h1 := fillLoop_pending env 100 p hr
      have h2 := ih (fill env p) h1.1
      exact ⟨h2.1, h2.2.trans h1.2⟩
    · exact ⟨hr, rfl⟩

theorem fillLoop_direct (env : HandlerEnv) (i : Nat) (p : ProxyConn) (k : ConnKind)
    (h : p.rdSrc = Source.direct k) : (fillLoop env i p).rdSrc = Source.direct k := by
  induction i generalizing p with
  | zero => exact h
  | succ i ih =>
    simp only [fillLoop, h, readSource]
    rcases readConn env k p.net (p.rdSize - p.rdBuf.length) with ⟨net1, bs, _ | e⟩
    · simp only []
      split
      · rfl
      · exact ih _ rfl
    · rfl

theorem peekLoop_direct (env : HandlerEnv) (n fuel : Nat) (p : ProxyConn) (k : ConnKind)
    (h : p.rdSrc = Source.direct k) : (peekLoop env n fuel p).rdSrc = Source.direct k := by
  induction fuel generalizing p with
  | zero => exact h
  | succ f ih =>
    simp only [peekLoop]
    split
    · exact ih _ (fillLoop_direct env 100 p k h)
    · exact h

/-- C4: when the reply to CONNECT has been written and the peek yields a first byte
other than 22 (0x16), `handleMITM` returns nil, performs no TLS handshake, leaves
`secure`, `conn` and `cs` as they were (so `secure` stays false when it was false),
and resets the reader onto the bytes buffered at the peek, the peeked byte first,
followed by the connection: over the accepted connection the bytes to be read are
exactly those buffered bytes and then what the connection still holds, which is what
was to be read before the peek. -/
theorem handleMITM_plaintext (env : HandlerEnv) (closing : Bool) (p : ProxyConn)
    (req : Request) (res1 : Response) (p2 : ProxyConn) (b : List Nat)
    (hmod : env.modifyResponse (newConnectResponse env.wenv req) = (res1, none))
    (hwr : (writeResponse env.wenv closing p.w res1).err = none)
    (hpeek : Peek env { p with w := (writeResponse env.wenv closing p.w res1).w } 1 =
      (p2, b, none))
    (hb : b.head? ≠ some 22) :
    (handleMITM env closing p req).err = none ∧
    (∀ h, Event.tlsHandshake h ∉ (handleMITM env closing p req).events) ∧
    (handleMITM env closing p req).p.secure = p.secure ∧
    (p.secure = false → (handleMITM env closing p req).p.secure = false) ∧
    (handleMITM env closing p req).p.conn = p.conn ∧
    (handleMITM env closing p req).p.cs = p.cs ∧
    0 < p2.rdBuf.length ∧ b = p2.rdBuf.take 1 ∧
    (handleMITM env closing p req).p = ReaderReset p2 (Source.multi p2.rdBuf p.conn) ∧
    (p.conn = ConnKind.raw →
      pendingBytes (handleMITM env closing p req).p = p2.rdBuf ++ p2.net.incoming.flatten) ∧
    (p.conn = ConnKind.raw → p.rdSrc = Source.direct ConnKind.raw →
      pendingBytes (handleMITM env closing p req).p = pendingBytes p) := by
  obtain ⟨hp2, hlen, hbb⟩ := Peek_ok env _ p2 1 b hpeek
  have hout : sameOutside { p with w := (writeResponse env.wenv closing p.w res1).w } p2 := by
    rw [hp2]; exact peekLoop_sameOutside env 1 1 _
  obtain ⟨_, hconn, hsec, hcs, _⟩ := hout
  simp only at hconn hsec hcs
  have hpos : 0 < p2.rdBuf.length := hlen
  have hdrain := Read_drain env p2 hpos
  have hnot : ¬ (b.length > 0 ∧ b.head? = some 22) := fun h => hb h.2
  have hres : handleMITM env closing p req =
      { p := ReaderReset p2 (Source.multi p2.rdBuf p.conn), err := none,
        events := traceEvents (writeResponse env.wenv closing p.w res1) ++
          [Event.traceWroteResponse] } := by
    simp only [handleMITM, hmod, hwr, hpeek, hdrain, hnot, if_false]
    rw [← hconn]
    rfl
  rw [hres]
  refine ⟨rfl, ?_, hsec, fun h => hsec.trans h, hconn, hcs, hpos, hbb, rfl, ?_, ?_⟩
  · intro h hmem
    simp only [traceEvents, List.mem_append, List.mem_singleton] at hmem
    rcases hmem with hmem | hmem
    · split at hmem <;> simp at hmem
    · cases hmem
  · intro hraw
    simp [pendingBytes, ReaderReset, hraw]
  · intro hraw hd
    have hpend := peekLoop_pending env 1 1
      { p with w := (writeResponse env.wenv closing p.w res1).w } (Or.inl hd)
    have hdir := peekLoop_direct env 1 1
      { p with w := (writeResponse env.wenv closing p.w res1).w } ConnKind.raw hd
    rw [← hp2] at hpend hdir
    have h1 : pendingBytes (ReaderReset p2 (Source.multi p2.rdBuf p.conn)) =
        p2.rdBuf ++ p2.net.incoming.flatten := by
      simp [pendingBytes, ReaderReset, hraw]
    have h2 : pendingBytes p2 = p2.rdBuf ++ p2.net.incoming.flatten := by
      simp [pendingBytes, hdir]
    rw [h1, ← h2, hpend.2]
    simp [pendingBytes, hd]

/-- C4, on a fresh connection where the client sends `GET ` and `/` after the reply
to `CONNECT example.com:443`: the peeked byte is 71. -/
theorem handleMITM_plaintext_witness :
    (handleMITM sampleHandlerEnv false plaintextConn connectRequest).err = none ∧
    (∀ h, Event.tlsHandshake h ∉
      (handleMITM sampleHandlerEnv false plaintextConn connectRequest).events) ∧
    (handleMITM sampleHandlerEnv false plaintextConn connectRequest).p.secure = false ∧
    (handleMITM sampleHandlerEnv false plaintextConn connectRequest).p.conn = ConnKind.raw ∧
    (handleMITM sampleHandlerEnv false plaintextConn connectRequest).p =
      ReaderReset plaintextConnPeeked (Source.multi [71, 69, 84, 32] ConnKind.raw) ∧
    pendingBytes (handleMITM sampleHandlerEnv false plaintextConn connectRequest).p =
      [71, 69, 84, 32, 47] ∧
    pendingBytes plaintextConn = [71, 69, 84, 32, 47] :=
  let t := handleMITM_plaintext sampleHandlerEnv false plaintextConn connectRequest
    connectOKResponse plaintextConnPeeked [71] (by decide) (by decide) (by decide) (by decide)
  ⟨t.1, t.2.1, t.2.2.1, t.2.2.2.2.1, t.2.2.2.2.2.2.2.2.1,
    t.2.2.2.2.2.2.2.2.2.1 rfl, (t.2.2.2.2.2.2.2.2.2.2 rfl rfl).symm.trans
      (t.2.2.2.2.2.2.2.2.2.1 rfl)⟩

theorem pendingBytes_append (p : ProxyConn) (a b : List Nat) :
    pendingBytes { p with rdBuf := a ++ b } = a ++ pendingBytes { p with rdBuf := b } := by
  simp only [pendingBytes]
  split <;> simp [List.append_assoc]

/-- One `Read` on a reader over the accepted connection delivers bytes from the front
of `pendingBytes` and leaves the rest to be read. -/
theorem Read_pendingBytes (env : HandlerEnv) (p q : ProxyConn) (n : Nat) (bs : List Nat)
    (e : Option Err) (hr : readsRaw p) (h : Read env p n = (q, bs, e)) :
    pendingBytes p = bs ++ pendingBytes q := by
  simp only [Read] at h
  split at h
  · split at h
    · simp only [Prod.mk.injEq] at h
      obtain ⟨h1, h2, _⟩ := h
      subst h1; subst h2; rfl
    · simp only [Prod.mk.injEq] at h
      obtain ⟨h1, h2, _⟩ := h
      subst h1; subst h2
      simp only [pendingBytes, List.nil_append]
  · split at h
    · rename_i hz
      have hnil : p.rdBuf = [] := List.length_eq_zero.mp hz
      split at h
      · simp only [Prod.mk.injEq] at h
        obtain ⟨h1, h2, _⟩ := h
        subst h1; subst h2
        simp only [pendingBytes, List.nil_append]
      · split at h
        · rcases hrs : readSource env p.rdSrc p.net n with ⟨src1, net1, bs1, e1⟩
          rw [hrs] at h
          simp only [Prod.mk.injEq] at h
          obtain ⟨h1, h2, _⟩ := h
          subst h1; subst h2
          have hstep := readSource_pending env p _ _ _ _ _ hr hrs
            { p with rdSrc := src1, net := net1, rdErr := none, rdBuf := p.rdBuf ++ bs1 }
            rfl rfl rfl
          rw [← hstep.2, hnil]
          have := pendingBytes_append
            { p with rdSrc := src1, net := net1, rdErr := none } bs1 []
          simp only [List.append_nil] at this
          rw [List.nil_append, this, ← hnil]
        · rcases hrs : readSource env p.rdSrc p.net p.rdSize with ⟨src1, net1, bs1, e1⟩
          rw [hrs] at h
          simp only [] at h
          split at h
          · rename_i hb
            have hb1 : bs1 = [] := List.length_eq_zero.mp hb
            simp only [Prod.mk.injEq] at h
            obtain ⟨h1, h2, _⟩ := h
            subst h1; subst h2
            have hstep := readSource_pending env p _ _ _ _ _ hr hrs
              { p with rdSrc := src1, net := net1, rdErr := none } rfl rfl (by simp [hb1])
            rw [← hstep.2, List.nil_append]
          · simp only [Prod.mk.injEq] at h
            obtain ⟨h1, h2, _⟩ := h
            subst h1; subst h2
            have hstep := readSource_pending env p _ _ _ _ _ hr hrs
              { p with rdSrc := src1, net := net1, rdErr := e1, rdBuf := p.rdBuf ++ bs1 }
              rfl rfl rfl
            rw [← hstep.2, hnil, List.nil_append]
            have := pendingBytes_append
              { p with rdSrc := src1, net := net1, rdErr := e1 } (bs1.take n) (bs1.drop n)
            rw [List.take_append_drop] at this
            exact this
    · simp only [Prod.mk.injEq] at h
      obtain ⟨h1, h2, _⟩ := h
      subst h1; subst h2
      have := pendingBytes_append p (p.rdBuf.take n) (p.rdBuf.drop n)
      rw [List.take_append_drop] at this
      exact this

/-! ## Host and port splitting -/

theorem indexByte_eq_none_iff (s : List Char) (c : Char) : indexByte s c = none ↔ c ∉ s := by
  induction s with
  | nil => simp [indexByte]
  | cons x xs ih =>
    by_cases h : x = c
    · simp [indexByte, h]
    · have hne : ¬ c = x := fun e => h e.symm
      simp [indexByte, h, ih, hne]

theorem indexByte_isSome_iff (s : List Char) (c : Char) :
    (indexByte s c).isSome = true ↔ c ∈ s := by
  rw [← not_iff_not, ← indexByte_eq_none_iff]
  cases indexByte s c <;> simp

theorem indexByte_append (a b : List Char) (c : Char) (ha : c ∉ a) :
    indexByte (a ++ c :: b) c = some a.length := by
  induction a with
  | nil => simp [indexByte]
  | cons x xs ih =>
    have hx : ¬ x = c := fun e => ha (by simp [e])
    have hxs : c ∉ xs := fun e => ha (by simp [e])
    simp [indexByte, hx, ih hxs]

theorem lastIndexByte_eq_none_iff (s : List Char) (c : Char) :
    lastIndexByte s c = none ↔ c ∉ s := by
  induction s with
  | nil => simp [lastIndexByte]
  | cons x xs ih =>
    simp only [lastIndexByte]
    cases hl : lastIndexByte xs c with
    | some i =>
      have : c ∈ xs := by
        by_contra hc
        rw [ih.2 hc] at hl
        cases hl
      simp [this]
    | none =>
      have hxs : c ∉ xs := ih.1 hl
      by_cases h : x = c
      · simp [h]
      · have hne : ¬ c = x := fun e => h e.symm
        simp [h, hxs, hne]

theorem lastIndexByte_append (a b : List Char) (c : Char) (hb : c ∉ b) :
    lastIndexByte (a ++ c :: b) c = some a.length := by
  induction a with
  | nil =>
    simp [lastIndexByte, (lastIndexByte_eq_none_iff b c).2 hb]
  | cons x xs ih =>
    simp [lastIndexByte, ih]

/-- A host and a port free of `:`, `[` and `]`, joined by a colon, split into the two. -/
theorem splitHostPort_plain (h p : List Char)
    (hh : ':' ∉ h ∧ '[' ∉ h ∧ ']' ∉ h) (hp : ':' ∉ p ∧ '[' ∉ p ∧ ']' ∉ p) :
    splitHostPort (h ++ ':' :: p) = Except.ok (h, p) := by
  obtain ⟨h1, h2, h3⟩ := hh
  obtain ⟨p1, p2, p3⟩ := hp
  have hhead : (h ++ ':' :: p).head? ≠ some '[' := by
    cases h with
    | nil => simp
    | cons x xs =>
      simp only [List.cons_append, List.head?_cons, ne_eq, Option.some.injEq]
      intro e
      exact h2 (by simp [e])
  have hc1 : (indexByte (List.take h.length (h ++ ':' :: p)) ':').isSome = false := by
    simp [indexByte_eq_none_iff, h1]
  have hc2 : (indexByte (h ++ ':' :: p) '[').isSome = false := by
    have : '[' ∉ h ++ ':' :: p := by simp [h2, p2]
    simp [(indexByte_eq_none_iff _ _).2 this]
  have hc3 : (indexByte (h ++ ':' :: p) ']').isSome = false := by
    have : ']' ∉ h ++ ':' :: p := by simp [h3, p3]
    simp [(indexByte_eq_none_iff _ _).2 this]
  simp only [splitHostPort, lastIndexByte_append h p ':' p1, hhead, if_false, hc1, hc2, hc3]
  simp

/-- A bracketed host free of brackets followed by `:port` splits into the host without
its brackets and the port. -/
theorem splitHostPort_bracketed (h p : List Char)
    (hh : '[' ∉ h ∧ ']' ∉ h) (hp : ':' ∉ p ∧ '[' ∉ p ∧ ']' ∉ p) :
    splitHostPort ('[' :: (h ++ ']' :: ':' :: p)) = Except.ok (h, p) := by
  obtain ⟨h2, h3⟩ := hh
  obtain ⟨p1, p2, p3⟩ := hp
  have hlast : lastIndexByte ('[' :: (h ++ ']' :: ':' :: p)) ':' = some (h.length + 2) := by
    have := lastIndexByte_append ('[' :: (h ++ [']'])) p ':' p1
    simpa using this
  have hidx : indexByte ('[' :: (h ++ ']' :: ':' :: p)) ']' = some (h.length + 1) := by
    have := indexByte_append ('[' :: h) (':' :: p) ']' (by simp [h3])
    simpa using this
  have hc1 : (indexByte (List.drop 1 ('[' :: (h ++ ']' :: ':' :: p))) '[').isSome = false := by
    have : '[' ∉ h ++ ']' :: ':' :: p := by simp [h2, p2]
    simp [(indexByte_eq_none_iff _ _).2 this]
  have hc2 : (indexByte (List.drop (h.length + 1 + 1) ('[' :: (h ++ ']' :: ':' :: p))) ']').isSome
      = false := by
    have : List.drop (h.length + 1 + 1) ('[' :: (h ++ ']' :: ':' :: p)) = ':' :: p := by
      simp [List.drop_append]
    rw [this]
    have : ']' ∉ ':' :: p := by simp [p3]
    simp [(indexByte_eq_none_iff _ _).2 this]
  simp only [splitHostPort, hlast, hidx, List.head?_cons, if_true, hc1, hc2]
  simp [List.take_append, List.drop_append]

/-! ## The certificate engine -/

theorem issue_events_prefix (env : CertEnv) (c : Config) (k : String) (evs : List CertEvent) :
    ∃ rest, (issue env c k evs).events = evs ++ rest ∧
      ∀ ev ∈ rest, ev.host = k := by
  simp only [issue]
  cases env.randInt with
  | none => exact ⟨[], by simp, by simp⟩
  | some serial =>
    simp only []
    have hcn : (leafTemplate env c k serial).CommonName = k := by
      simp only [leafTemplate]; split <;> rfl
    cases env.CreateCertificate (leafTemplate env c k serial) c.ca (env.Public c.priv) c.capriv with
    | error e => exact ⟨[CertEvent.sign _], rfl, by simp [CertEvent.host, hcn]⟩
    | ok raw =>
      simp only []
      cases env.ParseCertificate raw with
      | error e => exact ⟨[CertEvent.sign _], rfl, by simp [CertEvent.host, hcn]⟩
      | ok x509c =>
        exact ⟨[CertEvent.sign _, CertEvent.cacheAdd k _], rfl, by simp [CertEvent.host, hcn]⟩

/-- What a successful issuance is made of. -/
theorem issue_ok (env : CertEnv) (c : Config) (k : String) (evs : List CertEvent)
    (leaf : TLSCertificate) (h : (issue env c k evs).res = Except.ok leaf) :
    ∃ serial raw x509c, env.randInt = some serial ∧
      env.CreateCertificate (leafTemplate env c k serial) c.ca (env.Public c.priv) c.capriv =
        Except.ok raw ∧
      env.ParseCertificate raw = Except.ok x509c ∧
      leaf = { Certificate := [raw, c.ca.Raw], PrivateKey := c.priv, Leaf := x509c } ∧
      (issue env c k evs).certs = c.certs.Add k leaf ∧
      (issue env c k evs).events =
        evs ++ [CertEvent.sign (leafTemplate env c k serial), CertEvent.cacheAdd k leaf] := by
  simp only [issue] at h ⊢
  cases hr : env.randInt with
  | none => rw [hr] at h; simp at h
  | some serial =>
    rw [hr] at h
    simp only [] at h ⊢
    cases hc : env.CreateCertificate (leafTemplate env c k serial) c.ca (env.Public c.priv)
        c.capriv with
    | error e => rw [hc] at h; simp at h
    | ok raw =>
      rw [hc] at h
      simp only [] at h ⊢
      cases hp : env.ParseCertificate raw with
      | error e => rw [hp] at h; simp at h
      | ok x509c =>
        rw [hp] at h
        simp only [Except.ok.injEq] at h
        subst h
        exact ⟨serial, raw, x509c, rfl, hc, hp, rfl, rfl, rfl⟩

/-- Where the signing and cache-writing steps of an issuance come from. -/
theorem issue_steps (env : CertEnv) (c : Config) (k : String) (evs : List CertEvent) :
    (∀ tmpl, CertEvent.sign tmpl ∈ (issue env c k evs).events → CertEvent.sign tmpl ∈ evs ∨
      ∃ serial, env.randInt = some serial ∧ tmpl = leafTemplate env c k serial) ∧
    (∀ key leaf, CertEvent.cacheAdd key leaf ∈ (issue env c k evs).events →
      CertEvent.cacheAdd key leaf ∈ evs ∨
        (key = k ∧ (issue env c k evs).res = Except.ok leaf)) := by
  simp only [issue]
  cases hr : env.randInt with
  | none => simp
  | some serial =>
    simp only []
    cases hc : env.CreateCertificate (leafTemplate env c k serial) c.ca (env.Public c.priv)
        c.capriv with
    | error e =>
      simp only [List.mem_append, List.mem_singleton]
      refine ⟨?_, ?_⟩
      · rintro tmpl (h | h)
        · exact Or.inl h
        · injection h with h; exact Or.inr ⟨serial, rfl, h⟩
      · rintro key leaf (h | h)
        · exact Or.inl h
        · cases h
    | ok raw =>
      simp only []
      cases hp : env.ParseCertificate raw with
      | error e =>
        simp only [List.mem_append, List.mem_singleton]
        refine ⟨?_, ?_⟩
        · rintro tmpl (h | h)
          · exact Or.inl h
          · injection h with h; exact Or.inr ⟨serial, rfl, h⟩
        · rintro key leaf (h | h)
          · exact Or.inl h
          · cases h
      | ok x509c =>
        simp only [List.mem_append, List.mem_cons, List.mem_singleton, List.not_mem_nil,
          or_false]
        refine ⟨?_, ?_⟩
        · rintro tmpl (h | h | h)
          · exact Or.inl h
          · injection h with h; exact Or.inr ⟨serial, rfl, h⟩
          · cases h
        · rintro key leaf (h | h | h)
          · exact Or.inl h
          · cases h
          · injection h with h1 h2
            exact Or.inr ⟨h1, by rw [h2]⟩

theorem Cache.Get_Add (c : Cache) (k : String) (v : TLSCertificate) (h : 0 < c.capacity) :
    (c.Add k v).Get k = some v := by
  obtain ⟨cap, entries⟩ := c
  cases cap with
  | zero => simp at h
  | succ n => simp [Cache.Add, Cache.Get]

theorem cert_unfold (env : CertEnv) (c : Config) (hostname : String) :
    cert env c hostname =
      match c.certs.Get (canonicalHost hostname) with
      | some tlsc =>
        if env.Verify tlsc.Leaf (canonicalHost hostname) c.roots then
          { res := Except.ok tlsc, certs := c.certs,
            events := [CertEvent.cacheGet (canonicalHost hostname),
              CertEvent.verify (canonicalHost hostname)] }
        else
          issue env c (canonicalHost hostname)
            [CertEvent.cacheGet (canonicalHost hostname),
              CertEvent.verify (canonicalHost hostname)]
      | none => issue env c (canonicalHost hostname)
          [CertEvent.cacheGet (canonicalHost hostname)] := rfl

theorem cert_events_head (env : CertEnv) (c : Config) (hostname : String) :
    (cert env c hostname).events.head? =
      some (CertEvent.cacheGet (canonicalHost hostname)) := by
  rw [cert_unfold]
  split
  · split
    · rfl
    · obtain ⟨rest, hr, _⟩ := issue_events_prefix env c (canonicalHost hostname)
        [CertEvent.cacheGet (canonicalHost hostname), CertEvent.verify (canonicalHost hostname)]
      rw [hr]; rfl
  · obtain ⟨rest, hr, _⟩ := issue_events_prefix env c (canonicalHost hostname)
      [CertEvent.cacheGet (canonicalHost hostname)]
    rw [hr]; rfl

theorem cert_events_host (env : CertEnv) (c : Config) (hostname : String) :
    ∀ ev ∈ (cert env c hostname).events, ev.host = canonicalHost hostname := by
  rw [cert_unfold]
  split
  · split
    · simp [CertEvent.host]
    · obtain ⟨rest, hr, hh⟩ := issue_events_prefix env c (canonicalHost hostname)
        [CertEvent.cacheGet (canonicalHost hostname), CertEvent.verify (canonicalHost hostname)]
      rw [hr]
      intro ev hev
      simp only [List.mem_append, List.mem_cons, List.mem_singleton, List.not_mem_nil,
        or_false] at hev
      rcases hev with (h | h) | h
      · rw [h]; rfl
      · rw [h]; rfl
      · exact hh ev h
  · obtain ⟨rest, hr, hh⟩ := issue_events_prefix env c (canonicalHost hostname)
      [CertEvent.cacheGet (canonicalHost hostname)]
    rw [hr]
    intro ev hev
    simp only [List.mem_append, List.mem_singleton] at hev
    rcases hev with h | h
    · rw [h]; rfl
    · exact hh ev h

/-- C5 (as stated, refuted): with an empty server name and an empty fallback hostname,
`GetCertificate` of `TLSForHost` does not fail: it consults the cache under the empty
key, signs a leaf for the empty name, stores it and returns it. -/
theorem TLSForHost_empty_sni_empty_fallback :
    ((sampleConfig.TLSForHost sampleCertEnv "").GetCertificate sampleConfig
        { ServerName := "" }).res = Except.ok (sampleLeaf "") ∧
    ((sampleConfig.TLSForHost sampleCertEnv "").GetCertificate sampleConfig
        { ServerName := "" }).events =
      [CertEvent.cacheGet "", CertEvent.sign (leafTemplate sampleCertEnv sampleConfig "" 7),
        CertEvent.cacheAdd "" (sampleLeaf "")] ∧
    ((sampleConfig.TLSForHost sampleCertEnv "").GetCertificate sampleConfig
        { ServerName := "" }).certs.Get "" = some (sampleLeaf "") := by
  decide

/-- C5 (amended): `GetCertificate` of `TLSForHost(hostname)` is `cert` for the server
name of the ClientHello when that is non-empty and for the fallback hostname otherwise,
whatever the fallback is; its first step is always the cache lookup under the
canonical form of that host, so no SNI-required check precedes it. With an empty
server name and the fallback `x` the certificate is issued for `x`. -/
theorem TLSForHost_GetCertificate (env : CertEnv) (c0 c : Config) (hostname : String)
    (clientHello : ClientHelloInfo) :
    (c0.TLSForHost env hostname).GetCertificate c clientHello =
      cert env c (if clientHello.ServerName = "" then hostname else clientHello.ServerName) ∧
    ((c0.TLSForHost env hostname).GetCertificate c clientHello).events.head? =
      some (CertEvent.cacheGet (canonicalHost
        (if clientHello.ServerName = "" then hostname else clientHello.ServerName))) ∧
    ((sampleConfig.TLSForHost sampleCertEnv "x").GetCertificate sampleConfig
        { ServerName := "" }).res = Except.ok (sampleLeaf "x") ∧
    ((sampleConfig.TLSForHost sampleCertEnv "x").GetCertificate sampleConfig
        { ServerName := "example.com" }).res = Except.ok (sampleLeaf "example.com") := by
  refine ⟨rfl, ?_, by decide, by decide⟩
  exact cert_events_head env c _

/-- C6: `GetCertificate` of the SNI-only configuration fails with the SNI error for an
empty server name, taking no step at all (no cache lookup, no signature, no cache
write) and leaving the cache as it is; for a non-empty server name it is `cert` for
that name. -/
theorem TLS_GetCertificate (env : CertEnv) (c0 c : Config) (clientHello : ClientHelloInfo) :
    (clientHello.ServerName = "" →
      ((c0.TLS env).GetCertificate c clientHello).res =
        Except.error (Err.other "mitm: SNI not provided, failed to build certificate") ∧
      ((c0.TLS env).GetCertificate c clientHello).events = [] ∧
      ((c0.TLS env).GetCertificate c clientHello).certs = c.certs) ∧
    (clientHello.ServerName ≠ "" →
      (c0.TLS env).GetCertificate c clientHello = cert env c clientHello.ServerName) := by
  constructor
  · intro h
    simp [Config.TLS, h]
  · intro h
    simp [Config.TLS, h]

/-- C6, at an empty server name and at the server name `example.com`. -/
theorem TLS_GetCertificate_witness :
    (((sampleConfig.TLS sampleCertEnv).GetCertificate warmConfig { ServerName := "" }).res =
        Except.error (Err.other "mitm: SNI not provided, failed to build certificate") ∧
      ((sampleConfig.TLS sampleCertEnv).GetCertificate warmConfig
        { ServerName := "" }).events = [] ∧
      ((sampleConfig.TLS sampleCertEnv).GetCertificate warmConfig
        { ServerName := "" }).certs = warmConfig.certs) ∧
    (sampleConfig.TLS sampleCertEnv).GetCertificate warmConfig { ServerName := "example.com" } =
      cert sampleCertEnv warmConfig "example.com" :=
  ⟨(TLS_GetCertificate sampleCertEnv sampleConfig warmConfig { ServerName := "" }).1 rfl,
   (TLS_GetCertificate sampleCertEnv sampleConfig warmConfig
      { ServerName := "example.com" }).2 (by decide)⟩

/-- C7: `TLSForHost(h)` offers `h2` and `http/1.1` when an H2 configuration is set, its
`AllowedHostsFilter` is set and the filter accepts `h`, and `http/1.1` alone
otherwise; the SNI-only configuration offers `http/1.1` alone; both have minimum
version TLS 1.2 (0x0303). -/
theorem NextProtos_offer (env : CertEnv) (c : Config) (h : String) :
    ((∃ h2 f, c.h2Config = some h2 ∧ h2.AllowedHostsFilter = some f ∧ f h = true) →
      (c.TLSForHost env h).NextProtos = ["h2", "http/1.1"]) ∧
    ((¬ ∃ h2 f, c.h2Config = some h2 ∧ h2.AllowedHostsFilter = some f ∧ f h = true) →
      (c.TLSForHost env h).NextProtos = ["http/1.1"]) ∧
    (c.TLS env).NextProtos = ["http/1.1"] ∧
    (c.TLSForHost env h).MinVersion = VersionTLS12 ∧
    (c.TLS env).MinVersion = VersionTLS12 ∧
    VersionTLS12 = 0x0303 := by
  refine ⟨?_, ?_, rfl, rfl, rfl, rfl⟩
  · rintro ⟨h2, f, hc, hf, hfh⟩
    simp [Config.TLSForHost, Config.h2AllowedHost, hc, hf, hfh]
  · intro hno
    have : c.h2AllowedHost h = false := by
      simp only [Config.h2AllowedHost]
      cases hc : c.h2Config with
      | none => rfl
      | some h2 =>
        simp only []
        cases hf : h2.AllowedHostsFilter with
        | none => rfl
        | some f =>
          simp only []
          cases hfh : f h with
          | false => rfl
          | true => exact absurd ⟨h2, f, hc, hf, hfh⟩ hno
    simp [Config.TLSForHost, this]

/-- C7, with HTTP/2 allowed for `example.com` only: offered for `example.com`, not for
`other.test`, and not without an H2 configuration. -/
theorem NextProtos_offer_witness :
    (sampleH2Config.TLSForHost sampleCertEnv "example.com").NextProtos = ["h2", "http/1.1"] ∧
    (sampleH2Config.TLSForHost sampleCertEnv "other.test").NextProtos = ["http/1.1"] ∧
    (sampleConfig.TLSForHost sampleCertEnv "example.com").NextProtos = ["http/1.1"] :=
  ⟨(NextProtos_offer sampleCertEnv sampleH2Config "example.com").1
      ⟨{ AllowedHostsFilter := some (fun h => h == "example.com") },
        fun h => h == "example.com", rfl, rfl, by decide⟩,
   (NextProtos_offer sampleCertEnv sampleH2Config "other.test").2.1 (by
      rintro ⟨h2, f, hc, hf, hfh⟩
      have e1 : h2 = { AllowedHostsFilter := some (fun h => h == "example.com") } := by
        injection hc with hc'; exact hc'.symm
      rw [e1] at hf
      injection hf with hf'
      rw [← hf'] at hfh
      revert hfh
      decide),
   (NextProtos_offer sampleCertEnv sampleConfig "example.com").2.1 (by
      rintro ⟨h2, f, hc, _, _⟩
      cases hc)⟩

/-- C8: a successful `cert(host)` returns either the entry cached under the canonical
host, and then that entry's leaf verified against the roots for that name, nothing was
signed and the cache is as it was; or a freshly issued leaf, which has been put in the
cache under the same canonical host (and is what the cache holds there afterwards, in
place of any entry that failed verification). When the cached leaf fails verification
the result is that of an issuance, never the cached leaf handed back. -/
theorem cert_returns_verified_or_fresh (env : CertEnv) (c : Config) (host : String)
    (leaf : TLSCertificate) (h : (cert env c host).res = Except.ok leaf) :
    ((c.certs.Get (canonicalHost host) = some leaf ∧
        env.Verify leaf.Leaf (canonicalHost host) c.roots = true ∧
        (cert env c host).certs = c.certs ∧
        (cert env c host).events =
          [CertEvent.cacheGet (canonicalHost host), CertEvent.verify (canonicalHost host)] ∧
        ∀ ev ∈ (cert env c host).events, ev.issues = false) ∨
      ((∀ old, c.certs.Get (canonicalHost host) = some old →
          env.Verify old.Leaf (canonicalHost host) c.roots = false) ∧
        (∃ serial raw x509c, env.randInt = some serial ∧
          env.CreateCertificate (leafTemplate env c (canonicalHost host) serial) c.ca
            (env.Public c.priv) c.capriv = Except.ok raw ∧
          env.ParseCertificate raw = Except.ok x509c ∧
          leaf = { Certificate := [raw, c.ca.Raw], PrivateKey := c.priv, Leaf := x509c } ∧
          CertEvent.sign (leafTemplate env c (canonicalHost host) serial) ∈
            (cert env c host).events) ∧
        CertEvent.cacheAdd (canonicalHost host) leaf ∈ (cert env c host).events ∧
        (cert env c host).certs = c.certs.Add (canonicalHost host) leaf ∧
        (0 < c.certs.capacity →
          (cert env c host).certs.Get (canonicalHost host) = some leaf))) ∧
    (∀ old, c.certs.Get (canonicalHost host) = some old →
      env.Verify old.Leaf (canonicalHost host) c.roots = false →
      cert env c host = issue env c (canonicalHost host)
        [CertEvent.cacheGet (canonicalHost host), CertEvent.verify (canonicalHost host)]) := by
  have fresh : ∀ evs, (issue env c (canonicalHost host) evs).res = Except.ok leaf →
      (∃ serial raw x509c, env.randInt = some serial ∧
          env.CreateCertificate (leafTemplate env c (canonicalHost host) serial) c.ca
            (env.Public c.priv) c.capriv = Except.ok raw ∧
          env.ParseCertificate raw = Except.ok x509c ∧
          leaf = { Certificate := [raw, c.ca.Raw], PrivateKey := c.priv, Leaf := x509c } ∧
          CertEvent.sign (leafTemplate env c (canonicalHost host) serial) ∈
            (issue env c (canonicalHost host) evs).events) ∧
        CertEvent.cacheAdd (canonicalHost host) leaf ∈
          (issue env c (canonicalHost host) evs).events ∧
        (issue env c (canonicalHost host) evs).certs = c.certs.Add (canonicalHost host) leaf ∧
        (0 < c.certs.capacity →
          (issue env c (canonicalHost host) evs).certs.Get (canonicalHost host) = some leaf) := by
    intro evs hi
    obtain ⟨serial, raw, x509c, h1, h2, h3, h4, h5, h6⟩ := issue_ok env c _ evs leaf hi
    refine ⟨⟨serial, raw, x509c, h1, h2, h3, h4, ?_⟩, ?_, h5, ?_⟩
    · rw [h6]; simp
    · rw [h6]; simp
    · intro hcap
      rw [h5]
      exact Cache.Get_Add _ _ _ hcap
  constructor
  · have hun := cert_unfold env c host
    cases hg : c.certs.Get (canonicalHost host) with
    | none =>
      rw [hg] at hun
      simp only [] at hun
      rw [hun] at h ⊢
      exact Or.inr ⟨fun old ho => Option.noConfusion ho, fresh _ h⟩
    | some tlsc =>
      rw [hg] at hun
      simp only [] at hun
      cases hv : env.Verify tlsc.Leaf (canonicalHost host) c.roots with
      | true =>
        rw [hv] at hun
        simp only [if_true] at hun
        rw [hun] at h ⊢
        simp only [Except.ok.injEq] at h
        subst h
        left
        refine ⟨rfl, hv, rfl, rfl, ?_⟩
        simp [CertEvent.issues]
      | false =>
        rw [hv] at hun
        simp only [Bool.false_eq_true, if_false] at hun
        rw [hun] at h ⊢
        right
        refine ⟨?_, fresh _ h⟩
        intro old ho
        injection ho with ho
        rw [← ho]; exact hv
  · intro old ho hv
    rw [cert_unfold, ho]
    simp [hv]

/-- C8, on a cache hit that verifies (the cached leaf comes back, nothing is signed)
and on a cached leaf for another name (a fresh leaf is issued and replaces it). -/
theorem cert_returns_verified_or_fresh_witness :
    (cert sampleCertEnv warmConfig "example.com:443").res =
      Except.ok (sampleLeaf "example.com") ∧
    (cert sampleCertEnv warmConfig "example.com:443").events =
      [CertEvent.cacheGet "example.com", CertEvent.verify "example.com"] ∧
    (cert sampleCertEnv staleConfig "example.com:443").res =
      Except.ok (sampleLeaf "example.com") ∧
    staleConfig.certs.Get "example.com" = some (sampleLeaf "other.test") ∧
    (cert sampleCertEnv staleConfig "example.com:443").certs.entries =
      [("example.com", sampleLeaf "example.com")] ∧
    (((warmConfig.certs.Get (canonicalHost "example.com:443") = some (sampleLeaf "example.com") ∧
        sampleCertEnv.Verify (sampleLeaf "example.com").Leaf (canonicalHost "example.com:443")
          warmConfig.roots = true ∧
        (cert sampleCertEnv warmConfig "example.com:443").certs = warmConfig.certs ∧
        (cert sampleCertEnv warmConfig "example.com:443").events =
          [CertEvent.cacheGet (canonicalHost "example.com:443"),
            CertEvent.verify (canonicalHost "example.com:443")] ∧
        ∀ ev ∈ (cert sampleCertEnv warmConfig "example.com:443").events, ev.issues = false) ∨
      ((∀ old, warmConfig.certs.Get (canonicalHost "example.com:443") = some old →
          sampleCertEnv.Verify old.Leaf (canonicalHost "example.com:443") warmConfig.roots
            = false) ∧
        (∃ serial raw x509c, sampleCertEnv.randInt = some serial ∧
          sampleCertEnv.CreateCertificate
            (leafTemplate sampleCertEnv warmConfig (canonicalHost "example.com:443") serial)
            warmConfig.ca (sampleCertEnv.Public warmConfig.priv) warmConfig.capriv
              = Except.ok raw ∧
          sampleCertEnv.ParseCertificate raw = Except.ok x509c ∧
          sampleLeaf "example.com" =
            { Certificate := [raw, warmConfig.ca.Raw], PrivateKey := warmConfig.priv,
              Leaf := x509c } ∧
          CertEvent.sign
            (leafTemplate sampleCertEnv warmConfig (canonicalHost "example.com:443") serial) ∈
            (cert sampleCertEnv warmConfig "example.com:443").events) ∧
        CertEvent.cacheAdd (canonicalHost "example.com:443") (sampleLeaf "example.com") ∈
          (cert sampleCertEnv warmConfig "example.com:443").events ∧
        (cert sampleCertEnv warmConfig "example.com:443").certs =
          warmConfig.certs.Add (canonicalHost "example.com:443") (sampleLeaf "example.com") ∧
        (0 < warmConfig.certs.capacity →
          (cert sampleCertEnv warmConfig "example.com:443").certs.Get
            (canonicalHost "example.com:443") = some (sampleLeaf "example.com")))) ∧
    (∀ old, warmConfig.certs.Get (canonicalHost "example.com:443") = some old →
      sampleCertEnv.Verify old.Leaf (canonicalHost "example.com:443") warmConfig.roots = false →
      cert sampleCertEnv warmConfig "example.com:443" =
        issue sampleCertEnv warmConfig (canonicalHost "example.com:443")
          [CertEvent.cacheGet (canonicalHost "example.com:443"),
            CertEvent.verify (canonicalHost "example.com:443")])) :=
  ⟨by decide, by decide, by decide, by decide, by decide,
    cert_returns_verified_or_fresh sampleCertEnv warmConfig "example.com:443"
      (sampleLeaf "example.com") (by decide)⟩

/-- The signing and cache-writing steps of `cert`: every template signed is the leaf
template for the canonical host, and a leaf written to the cache is written under the
canonical host and is the leaf returned. -/
theorem cert_steps (env : CertEnv) (c : Config) (hostname : String) :
    (∀ tmpl, CertEvent.sign tmpl ∈ (cert env c hostname).events →
      ∃ serial, env.randInt = some serial ∧
        tmpl = leafTemplate env c (canonicalHost hostname) serial) ∧
    (∀ key leaf, CertEvent.cacheAdd key leaf ∈ (cert env c hostname).events →
      key = canonicalHost hostname ∧ (cert env c hostname).res = Except.ok leaf ∧
      ∃ serial raw, env.randInt = some serial ∧
        env.CreateCertificate (leafTemplate env c (canonicalHost hostname) serial) c.ca
          (env.Public c.priv) c.capriv = Except.ok raw ∧
        env.ParseCertificate raw = Except.ok leaf.Leaf ∧
        leaf.Certificate = [raw, c.ca.Raw] ∧ leaf.PrivateKey = c.priv) := by
  have made : ∀ evs leaf, (issue env c (canonicalHost hostname) evs).res = Except.ok leaf →
      ∃ serial raw, env.randInt = some serial ∧
        env.CreateCertificate (leafTemplate env c (canonicalHost hostname) serial) c.ca
          (env.Public c.priv) c.capriv = Except.ok raw ∧
        env.ParseCertificate raw = Except.ok leaf.Leaf ∧
        leaf.Certificate = [raw, c.ca.Raw] ∧ leaf.PrivateKey = c.priv := by
    intro evs leaf hi
    obtain ⟨serial, raw, x509c, h1, h2, h3, h4, _, _⟩ := issue_ok env c _ evs leaf hi
    subst h4
    exact ⟨serial, raw, h1, h2, h3, rfl, rfl⟩
  have hun := cert_unfold env c hostname
  cases hg : c.certs.Get (canonicalHost hostname) with
  | none =>
    rw [hg] at hun
    simp only [] at hun
    rw [hun]
    obtain ⟨h1, h2⟩ := issue_steps env c (canonicalHost hostname)
      [CertEvent.cacheGet (canonicalHost hostname)]
    refine ⟨fun tmpl ht => ?_, fun key leaf hk => ?_⟩
    · rcases h1 tmpl ht with h | h
      · simp at h
      · exact h
    · rcases h2 key leaf hk with h | h
      · simp at h
      · exact ⟨h.1, h.2, made _ leaf h.2⟩
  | some tlsc =>
    rw [hg] at hun
    simp only [] at hun
    cases hv : env.Verify tlsc.Leaf (canonicalHost hostname) c.roots with
    | true =>
      rw [hv] at hun
      simp only [if_true] at hun
      rw [hun]
      simp
    | false =>
      rw [hv] at hun
      simp only [Bool.false_eq_true, if_false] at hun
      rw [hun]
      obtain ⟨h1, h2⟩ := issue_steps env c (canonicalHost hostname)
        [CertEvent.cacheGet (canonicalHost hostname), CertEvent.verify (canonicalHost hostname)]
      refine ⟨fun tmpl ht => ?_, fun key leaf hk => ?_⟩
      · rcases h1 tmpl ht with h | h
        · simp at h
        · exact h
      · rcases h2 key leaf hk with h | h
        · simp at h
        · exact ⟨h.1, h.2, made _ leaf h.2⟩

theorem keyUsage_leaf :
    KeyUsageKeyEncipherment ||| KeyUsageDigitalSignature =
      KeyUsageDigitalSignature ||| KeyUsageKeyEncipherment := by decide

theorem keyUsage_noCertSign :
    (KeyUsageKeyEncipherment ||| KeyUsageDigitalSignature) &&& KeyUsageCertSign = 0 := by
  decide

/-- The fields of the leaf template. -/
theorem leafTemplate_shape (env : CertEnv) (c : Config) (H : String) (serial : Nat) :
    (leafTemplate env c H serial).SerialNumber = serial ∧
    (leafTemplate env c H serial).CommonName = H ∧
    (leafTemplate env c H serial).Organization = [c.org] ∧
    (leafTemplate env c H serial).SubjectKeyId = c.keyID ∧
    (leafTemplate env c H serial).KeyUsage =
      KeyUsageDigitalSignature ||| KeyUsageKeyEncipherment ∧
    (leafTemplate env c H serial).KeyUsage &&& KeyUsageCertSign = 0 ∧
    (leafTemplate env c H serial).ExtKeyUsage = [ExtKeyUsageServerAuth] ∧
    (∀ ip, env.ParseIP H = some ip →
      (leafTemplate env c H serial).IPAddresses = [ip] ∧
      (leafTemplate env c H serial).DNSNames = []) ∧
    (env.ParseIP H = none →
      (leafTemplate env c H serial).DNSNames = [H] ∧
      (leafTemplate env c H serial).IPAddresses = []) := by
  simp only [leafTemplate]
  cases hip : env.ParseIP H with
  | none =>
    refine ⟨rfl, rfl, rfl, rfl, keyUsage_leaf, keyUsage_noCertSign, rfl, ?_,
      fun _ => ⟨rfl, rfl⟩⟩
    intro ip h; cases h
  | some ip0 =>
    refine ⟨rfl, rfl, rfl, rfl, keyUsage_leaf, keyUsage_noCertSign, rfl, ?_,
      fun h => by cases h⟩
    intro ip h
    injection h with h
    subst h
    exact ⟨rfl, rfl⟩

/-- C9: `cert` works on the canonical host, which is the host part when the hostname
splits as host:port (brackets removed) and the hostname itself when it does not: the
first step is the cache lookup under it, and the cache lookup, the verification, the
common name and single subject alternative name of the template, and the cache write
all use it. A host and port free of `:`, `[`, `]` joined by a colon give the host; a
bracketed host followed by `:port` gives the host without brackets; `[::1]:443` gives
`::1`. -/
theorem cert_uses_canonical_host (env : CertEnv) (c : Config) (hostname : String) :
    (∀ h p, SplitHostPort hostname = Except.ok (h, p) → canonicalHost hostname = h) ∧
    (∀ e, SplitHostPort hostname = Except.error e → canonicalHost hostname = hostname) ∧
    (cert env c hostname).events.head? =
      some (CertEvent.cacheGet (canonicalHost hostname)) ∧
    (∀ ev ∈ (cert env c hostname).events, ev.host = canonicalHost hostname) ∧
    (∀ tmpl, CertEvent.sign tmpl ∈ (cert env c hostname).events →
      tmpl.CommonName = canonicalHost hostname ∧
      ((tmpl.DNSNames = [canonicalHost hostname] ∧ tmpl.IPAddresses = []) ∨
        (∃ ip, env.ParseIP (canonicalHost hostname) = some ip ∧
          tmpl.IPAddresses = [ip] ∧ tmpl.DNSNames = []))) ∧
    (∀ h p : List Char, (':' ∉ h ∧ '[' ∉ h ∧ ']' ∉ h) → (':' ∉ p ∧ '[' ∉ p ∧ ']' ∉ p) →
      canonicalHost (String.mk (h ++ ':' :: p)) = String.mk h) ∧
    (∀ h p : List Char, ('[' ∉ h ∧ ']' ∉ h) → (':' ∉ p ∧ '[' ∉ p ∧ ']' ∉ p) →
      canonicalHost (String.mk ('[' :: (h ++ ']' :: ':' :: p))) = String.mk h) ∧
    canonicalHost "[::1]:443" = "::1" := by
  refine ⟨?_, ?_, cert_events_head env c hostname, cert_events_host env c hostname, ?_, ?_, ?_,
    by decide⟩
  · intro h p hs
    simp [canonicalHost, hs]
  · intro e hs
    simp [canonicalHost, hs]
  · intro tmpl ht
    obtain ⟨serial, _, hte⟩ := (cert_steps env c hostname).1 tmpl ht
    obtain ⟨_, h2, _, _, _, _, _, h8, h9⟩ :=
      leafTemplate_shape env c (canonicalHost hostname) serial
    rw [hte]
    refine ⟨h2, ?_⟩
    cases hip : env.ParseIP (canonicalHost hostname) with
    | none => exact Or.inl (h9 hip)
    | some ip => exact Or.inr ⟨ip, rfl, h8 ip hip⟩
  · intro h p hh hp
    simp [canonicalHost, SplitHostPort, splitHostPort_plain h p hh hp]
  · intro h p hh hp
    simp [canonicalHost, SplitHostPort, splitHostPort_bracketed h p hh hp]

/-- C9, at `[::1]:443` (split, brackets removed, IP alternative name) and at
`example.com` (no port, used unchanged). -/
theorem cert_uses_canonical_host_witness :
    canonicalHost "[::1]:443" = "::1" ∧
    canonicalHost "example.com" = "example.com" ∧
    (cert sampleCertEnv sampleConfig "[::1]:443").events =
      [CertEvent.cacheGet "::1", CertEvent.sign (leafTemplate sampleCertEnv sampleConfig "::1" 7),
        CertEvent.cacheAdd "::1" (sampleLeaf "::1")] ∧
    ((leafTemplate sampleCertEnv sampleConfig "::1" 7).CommonName =
        canonicalHost "[::1]:443" ∧
      (((leafTemplate sampleCertEnv sampleConfig "::1" 7).DNSNames =
          [canonicalHost "[::1]:443"] ∧
          (leafTemplate sampleCertEnv sampleConfig "::1" 7).IPAddresses = []) ∨
        (∃ ip, sampleCertEnv.ParseIP (canonicalHost "[::1]:443") = some ip ∧
          (leafTemplate sampleCertEnv sampleConfig "::1" 7).IPAddresses = [ip] ∧
          (leafTemplate sampleCertEnv sampleConfig "::1" 7).DNSNames = []))) ∧
    canonicalHost (String.mk ("example.com".data ++ ':' :: "443".data)) =
      String.mk "example.com".data ∧
    canonicalHost (String.mk ('[' :: ("fe80::1".data ++ ']' :: ':' :: "8443".data))) =
      String.mk "fe80::1".data :=
  let t := cert_uses_canonical_host sampleCertEnv sampleConfig "[::1]:443"
  let u := cert_uses_canonical_host sampleCertEnv sampleConfig "example.com"
  ⟨t.1 "::1" "443" (by decide), u.2.1 "missing port in address" (by decide), by decide,
    t.2.2.2.2.1 (leafTemplate sampleCertEnv sampleConfig "::1" 7) (by decide),
    t.2.2.2.2.2.1 "example.com".data "443".data (by decide) (by decide),
    t.2.2.2.2.2.2.1 "fe80::1".data "8443".data (by decide) (by decide)⟩

/-- C10: the template signed for a host `H` (the canonical host `cert` works on) has
common name `H`, the configured organisation, the shared leaf key identifier, key usage
digitalSignature and keyEncipherment without certSign, extended key usage serverAuth
alone, and one subject alternative name: the parsed IP address when `H` parses as an IP
literal, else the DNS name `H`. A leaf that `cert` stores is the leaf it returns; its
chain is the signed DER followed by the DER of the root, and its key is the shared leaf
key. -/
theorem issued_leaf_shape (env : CertEnv) (c : Config) (host : String) :
    (∀ tmpl, CertEvent.sign tmpl ∈ (cert env c host).events →
      tmpl.CommonName = canonicalHost host ∧
      tmpl.Organization = [c.org] ∧
      tmpl.SubjectKeyId = c.keyID ∧
      tmpl.KeyUsage = KeyUsageDigitalSignature ||| KeyUsageKeyEncipherment ∧
      tmpl.KeyUsage &&& KeyUsageCertSign = 0 ∧
      tmpl.ExtKeyUsage = [ExtKeyUsageServerAuth] ∧
      (∀ ip, env.ParseIP (canonicalHost host) = some ip →
        tmpl.IPAddresses = [ip] ∧ tmpl.DNSNames = []) ∧
      (env.ParseIP (canonicalHost host) = none →
        tmpl.DNSNames = [canonicalHost host] ∧ tmpl.IPAddresses = [])) ∧
    (∀ key leaf, CertEvent.cacheAdd key leaf ∈ (cert env c host).events →
      (cert env c host).res = Except.ok leaf ∧
      ∃ serial raw, env.randInt = some serial ∧
        env.CreateCertificate (leafTemplate env c (canonicalHost host) serial) c.ca
          (env.Public c.priv) c.capriv = Except.ok raw ∧
        env.ParseCertificate raw = Except.ok leaf.Leaf ∧
        leaf.Certificate = [raw, c.ca.Raw] ∧
        leaf.Certificate[0]? = some raw ∧
        leaf.Certificate[1]? = some c.ca.Raw ∧
        leaf.PrivateKey = c.priv) := by
  constructor
  · intro tmpl ht
    obtain ⟨serial, _, hte⟩ := (cert_steps env c host).1 tmpl ht
    obtain ⟨_, h2, h3, h4, h5, h6, h7, h8, h9⟩ :=
      leafTemplate_shape env c (canonicalHost host) serial
    rw [hte]
    exact ⟨h2, h3, h4, h5, h6, h7, h8, h9⟩
  · intro key leaf hk
    obtain ⟨_, hres, serial, raw, h1, h2, h3, h4, h5⟩ := (cert_steps env c host).2 key leaf hk
    refine ⟨hres, serial, raw, h1, h2, h3, h4, ?_, ?_, h5⟩
    · rw [h4]; rfl
    · rw [h4]; rfl

/-- C10, at the issuance for `[::1]:443` (an IP literal) on an empty cache. -/
theorem issued_leaf_shape_witness :
    (leafTemplate sampleCertEnv sampleConfig "::1" 7).CommonName = "::1" ∧
    (leafTemplate sampleCertEnv sampleConfig "::1" 7).IPAddresses =
      [[0, 0, 0, 0, 0, 0, 0, 0, 0, 0, 0, 0, 0, 0, 0, 1]] ∧
    (leafTemplate sampleCertEnv sampleConfig "::1" 7).DNSNames = [] ∧
    (leafTemplate sampleCertEnv sampleConfig "example.com" 7).DNSNames = ["example.com"] ∧
    (leafTemplate sampleCertEnv sampleConfig "example.com" 7).IPAddresses = [] ∧
    (cert sampleCertEnv sampleConfig "[::1]:443").res = Except.ok (sampleLeaf "::1") ∧
    (sampleLeaf "::1").Certificate = [7 :: bytesOf "::1", sampleCA.Raw] ∧
    (sampleLeaf "::1").PrivateKey = sampleConfig.priv :=
  let t := issued_leaf_shape sampleCertEnv sampleConfig "[::1]:443"
  let a := t.1 (leafTemplate sampleCertEnv sampleConfig "::1" 7) (by decide)
  let b := t.2 "::1" (sampleLeaf "::1") (by decide)
  ⟨a.1, (a.2.2.2.2.2.2.1 [0, 0, 0, 0, 0, 0, 0, 0, 0, 0, 0, 0, 0, 0, 0, 1] (by decide)).1,
    (a.2.2.2.2.2.2.1 [0, 0, 0, 0, 0, 0, 0, 0, 0, 0, 0, 0, 0, 0, 0, 1] (by decide)).2,
    by decide, by decide, b.1, by decide, by decide⟩

/-! ## Validity window -/

theorem wrapInt64_neg (v : Int) (hlo : MinInt64 < v) (hhi : v ≤ MaxInt64) :
    wrapInt64 (-v) = -v := by
  simp only [MinInt64, MaxInt64] at hlo hhi
  simp only [wrapInt64]
  omega

theorem truncSecond_le (t : Int) : truncSecond t ≤ t ∧ t < truncSecond t + 1000000000 := by
  simp only [truncSecond]
  omega

theorem leafTemplate_validity (env : CertEnv) (c : Config) (H : String) (serial : Nat) :
    (leafTemplate env c H serial).NotBefore = env.now1 + wrapInt64 (-c.validity) ∧
    (leafTemplate env c H serial).NotAfter = env.now2 + c.validity := by
  simp only [leafTemplate]
  cases env.ParseIP H with
  | none => exact ⟨rfl, rfl⟩
  | some ip => exact ⟨rfl, rfl⟩

theorem decodeInstant_encodeInstant (t : Int) :
    decodeInstant ((encodeInstant t).getD 0 0) ((encodeInstant t).getD 1 0) = t := by
  by_cases h : t < 0
  · simp [encodeInstant, decodeInstant, h, abs_of_neg h]
  · simp [encodeInstant, decodeInstant, h, abs_of_nonneg (not_lt.mp h)]

/-- The X.509 round trip of `x509CertEnv` keeps the validity bounds, in whole seconds. -/
theorem x509CertEnv_keepsSeconds : x509CertEnv.keepsSeconds := by
  intro tmpl parent pub priv raw leaf hraw hleaf
  simp only [x509CertEnv, Except.ok.injEq] at hraw hleaf
  subst hraw
  subst hleaf
  exact ⟨decodeInstant_encodeInstant _, decodeInstant_encodeInstant _⟩


/-- C11 (as stated, refuted): with an X.509 round trip that keeps whole seconds and
clock readings a quarter of a second into a second: after `SetValidity(-time.Hour)` the
issued leaf starts one hour after both readings and ends one hour before them; after
`SetValidity(500 * time.Millisecond)`, a validity that is not negative, the issued leaf
has already ended at the first reading; and at the default validity of one hour the
bounds of the issued leaf are not the readings minus and plus the validity. -/
theorem issued_leaf_outside_window :
    x509CertEnv.now1 = 1700000000250000000 ∧ x509CertEnv.now2 = 1700000000250000500 ∧
    (∃ leaf, (cert x509CertEnv backwardsConfig "example.com").res = Except.ok leaf ∧
      CertEvent.cacheAdd "example.com" leaf ∈
        (cert x509CertEnv backwardsConfig "example.com").events ∧
      leaf.Leaf.NotBefore = 1700003600000000000 ∧
      leaf.Leaf.NotAfter = 1699996400000000000 ∧
      x509CertEnv.now2 < leaf.Leaf.NotBefore ∧ leaf.Leaf.NotAfter < x509CertEnv.now1) ∧
    (0 ≤ halfSecondConfig.validity ∧
      ∃ leaf, (cert x509CertEnv halfSecondConfig "example.com").res = Except.ok leaf ∧
        CertEvent.cacheAdd "example.com" leaf ∈
          (cert x509CertEnv halfSecondConfig "example.com").events ∧
        leaf.Leaf.NotAfter = 1700000000000000000 ∧
        leaf.Leaf.NotAfter < x509CertEnv.now1) ∧
    (sampleConfig.validity = Hour ∧
      ∃ leaf, (cert x509CertEnv sampleConfig "example.com").res = Except.ok leaf ∧
        leaf.Leaf.NotBefore ≠ x509CertEnv.now1 - Hour ∧
        leaf.Leaf.NotAfter ≠ x509CertEnv.now2 + Hour) :=
  ⟨by decide, by decide, ⟨_, rfl, by decide, by decide, by decide, by decide, by decide⟩,
    ⟨by decide, ⟨_, rfl, by decide, by decide, by decide⟩⟩,
    ⟨by decide, ⟨_, rfl, by decide, by decide⟩⟩⟩

/-- C11 (amended): a configuration built by `NewConfig` or `NewConfigWithCache` holds a
validity of one hour; `SetValidity(v)` stores `v` and changes no other field; every
template `cert` signs has `NotAfter` = second clock reading + validity and `NotBefore` =
first clock reading + the `int64` negation of the validity, which is the first reading −
validity for every validity but `math.MinInt64`; with an X.509 round trip that keeps
whole seconds, every leaf `cert` issues is the leaf it returns and carries these two
bounds cut down to whole seconds; and when the validity is at least one second and the
second reading is not earlier than the first, every instant between the two readings
lies between `NotBefore` and `NotAfter` of the issued leaf. -/
theorem validity_window (env : CertEnv) (c : Config) (host : String) (v : Int) :
    (∀ ca pk certs c1, NewConfigWithCache env ca pk certs = Except.ok c1 →
      c1.validity = Hour) ∧
    (∀ nc ca pk c1, NewConfig env nc ca pk = Except.ok c1 → c1.validity = Hour) ∧
    Hour = 3600 * 1000000000 ∧
    ((c.SetValidity v).validity = v ∧ (c.SetValidity v).ca = c.ca ∧
      (c.SetValidity v).capriv = c.capriv ∧ (c.SetValidity v).priv = c.priv ∧
      (c.SetValidity v).keyID = c.keyID ∧ (c.SetValidity v).org = c.org ∧
      (c.SetValidity v).h2Config = c.h2Config ∧ (c.SetValidity v).certs = c.certs ∧
      (c.SetValidity v).roots = c.roots) ∧
    (∀ tmpl, CertEvent.sign tmpl ∈ (cert env c host).events →
      tmpl.NotBefore = env.now1 + wrapInt64 (-c.validity) ∧
      tmpl.NotAfter = env.now2 + c.validity ∧
      (MinInt64 < c.validity → c.validity ≤ MaxInt64 →
        tmpl.NotBefore = env.now1 - c.validity)) ∧
    (env.keepsSeconds →
      ∀ key leaf, CertEvent.cacheAdd key leaf ∈ (cert env c host).events →
        (cert env c host).res = Except.ok leaf ∧
        leaf.Leaf.NotBefore = truncSecond (env.now1 + wrapInt64 (-c.validity)) ∧
        leaf.Leaf.NotAfter = truncSecond (env.now2 + c.validity) ∧
        (MinInt64 < c.validity → c.validity ≤ MaxInt64 →
          leaf.Leaf.NotBefore = truncSecond (env.now1 - c.validity)) ∧
        (Second ≤ c.validity → c.validity ≤ MaxInt64 → env.now1 ≤ env.now2 →
          ∀ now, env.now1 ≤ now → now ≤ env.now2 →
            leaf.Leaf.NotBefore ≤ now ∧ now ≤ leaf.Leaf.NotAfter)) := by
  have hwc : ∀ ca pk certs c1, NewConfigWithCache env ca pk certs = Except.ok c1 →
      c1.validity = Hour := by
    intro ca pk certs c1 h
    simp only [NewConfigWithCache] at h
    cases hg : env.GenerateKey with
    | error e => rw [hg] at h; cases h
    | ok priv =>
      rw [hg] at h
      simp only [] at h
      cases hm : env.MarshalPKIXPublicKey (env.Public priv) with
      | error e => rw [hm] at h; cases h
      | ok pkixpub =>
        rw [hm] at h
        simp only [Except.ok.injEq] at h
        rw [← h]
  refine ⟨hwc, ?_, rfl, ⟨rfl, rfl, rfl, rfl, rfl, rfl, rfl, rfl, rfl⟩, ?_, ?_⟩
  · intro nc ca pk c1 h
    cases nc with
    | error e => cases h
    | ok certs => exact hwc ca pk certs c1 h
  · intro tmpl ht
    obtain ⟨serial, _, hte⟩ := (cert_steps env c host).1 tmpl ht
    obtain ⟨h1, h2⟩ := leafTemplate_validity env c (canonicalHost host) serial
    rw [hte]
    refine ⟨h1, h2, ?_⟩
    intro hlo hhi
    rw [h1, wrapInt64_neg _ hlo hhi]
    omega
  · intro hx key leaf hk
    obtain ⟨_, hres, serial, raw, _, hcreate, hparse, _, _⟩ :=
      (cert_steps env c host).2 key leaf hk
    obtain ⟨hb, ha⟩ := hx _ _ _ _ _ _ hcreate hparse
    obtain ⟨h1, h2⟩ := leafTemplate_validity env c (canonicalHost host) serial
    rw [h1] at hb
    rw [h2] at ha
    refine ⟨hres, hb, ha, ?_, ?_⟩
    · intro hlo hhi
      rw [hb, wrapInt64_neg _ hlo hhi]
      rfl
    · intro hsec hhi hmono now hnlo hnhi
      have hlo : MinInt64 < c.validity := by
        simp only [MinInt64]
        simp only [Second] at hsec
        omega
      rw [hb, ha, wrapInt64_neg _ hlo hhi]
      have t1 := truncSecond_le (env.now1 + -c.validity)
      have t2 := truncSecond_le (env.now2 + c.validity)
      simp only [Second] at hsec
      constructor <;> omega

/-- C11 (amended), at the default configuration issuing for `example.com` with clock
readings a quarter of a second into the second 1700000000. -/
theorem validity_window_witness :
    x509CertEnv.keepsSeconds ∧
    CertEvent.cacheAdd "example.com" x509Leaf ∈
      (cert x509CertEnv sampleConfig "example.com").events ∧
    (cert x509CertEnv sampleConfig "example.com").res = Except.ok x509Leaf ∧
    x509Leaf.Leaf.NotBefore = truncSecond (x509CertEnv.now1 - sampleConfig.validity) ∧
    x509Leaf.Leaf.NotAfter = truncSecond (x509CertEnv.now2 + sampleConfig.validity) ∧
    x509Leaf.Leaf.NotBefore ≤ x509CertEnv.now1 ∧ x509CertEnv.now1 ≤ x509Leaf.Leaf.NotAfter :=
  let a := (validity_window x509CertEnv sampleConfig "example.com" 0).2.2.2.2.2
    x509CertEnv_keepsSeconds "example.com" x509Leaf (by decide)
  ⟨x509CertEnv_keepsSeconds, by decide, a.1, a.2.2.2.1 (by decide) (by decide), a.2.2.1,
    (a.2.2.2.2 (by decide) (by decide) (by decide) x509CertEnv.now1 (by decide)
      (by decide)).1,
    (a.2.2.2.2 (by decide) (by decide) (by decide) x509CertEnv.now1 (by decide)
      (by decide)).2⟩

/-! ## PAC results -/

theorem pac.Split_ne_nil (s : List Char) (sep : Char) : pac.Split s sep ≠ [] := by
  induction s with
  | nil => simp [pac.Split]
  | cons x xs ih =>
    simp only [pac.Split]
    split
    · simp
    · cases h : pac.Split xs sep with
      | nil => simp
      | cons a t => simp

theorem pac.Split_length (s : List Char) (sep : Char) :
    (pac.Split s sep).length = s.count sep + 1 := by
  induction s with
  | nil => simp [pac.Split]
  | cons x xs ih =>
    simp only [pac.Split]
    by_cases hx : x = sep
    · simp [hx, ih]
    · have hne : (x == sep) = false := by simpa using hx
      cases h : pac.Split xs sep with
      | nil => exact absurd h (pac.Split_ne_nil xs sep)
      | cons a t =>
        simp only [hx, if_false]
        rw [h] at ih
        simp only [List.length_cons] at ih ⊢
        rw [List.count_cons, hne]
        simpa using ih

theorem pac.Split_no_sep (s : List Char) (sep : Char) :
    ∀ v ∈ pac.Split s sep, sep ∉ v := by
  induction s with
  | nil => simp [pac.Split]
  | cons x xs ih =>
    simp only [pac.Split]
    by_cases hx : x = sep
    · simp only [hx, if_true, List.mem_cons]
      rintro v (hv | hv)
      · simp [hv]
      · exact ih v hv
    · simp only [hx, if_false]
      cases h : pac.Split xs sep with
      | nil => exact absurd h (pac.Split_ne_nil xs sep)
      | cons a t =>
        rw [h] at ih
        simp only [List.mem_cons]
        rintro v (hv | hv)
        · rw [hv]
          have ha := ih a (by simp)
          simp only [List.mem_cons, not_or]
          exact ⟨fun e => hx e.symm, ha⟩
        · exact ih v (by simp [hv])

theorem pac.Split_intercalate (s : List Char) (sep : Char) :
    List.intercalate [sep] (pac.Split s sep) = s := by
  induction s with
  | nil => simp [pac.Split, List.intercalate]
  | cons x xs ih =>
    simp only [pac.Split]
    by_cases hx : x = sep
    · simp only [hx, if_true]
      cases h : pac.Split xs sep with
      | nil => exact absurd h (pac.Split_ne_nil xs sep)
      | cons a t =>
        rw [h] at ih
        simp only [List.intercalate, List.intersperse, List.flatten_cons, List.nil_append,
          List.singleton_append] at ih ⊢
        rw [ih]
    · simp only [hx, if_false]
      cases h : pac.Split xs sep with
      | nil => exact absurd h (pac.Split_ne_nil xs sep)
      | cons a t =>
        rw [h] at ih
        cases t with
        | nil =>
          simp only [List.intercalate, List.intersperse, List.flatten_cons, List.flatten_nil,
            List.append_nil] at ih ⊢
          rw [ih]
        | cons b u =>
          simp only [List.intercalate, List.intersperse, List.flatten_cons,
            List.cons_append] at ih ⊢
          rw [ih]

/-- The loop of `All` succeeds exactly with the parse of every segment, in order. -/
theorem pac.allLoop_ok (segs : List (List Char)) (i : Nat) (res l : List pac.Proxy)
    (h : pac.allLoop i res segs = (l, none)) :
    l = res ++ segs.map (fun v => (pac.parseProxy (String.mk v)).1) ∧
    ∀ v ∈ segs, (pac.parseProxy (String.mk v)).2 = none := by
  induction segs generalizing i res with
  | nil =>
    simp only [pac.allLoop, Prod.mk.injEq, and_true] at h
    simp [h]
  | cons v vs ih =>
    simp only [pac.allLoop] at h
    rcases hp : pac.parseProxy (String.mk v) with ⟨p, _ | e⟩
    · rw [hp] at h
      simp only [] at h
      obtain ⟨h1, h2⟩ := ih _ _ h
      refine ⟨?_, ?_⟩
      · rw [h1]; simp [hp]
      · intro w hw
        rcases List.mem_cons.mp hw with hw | hw
        · rw [hw, hp]
        · exact h2 w hw
    · rw [hp] at h
      simp at h

/-- When every segment parses, the loop of `All` returns the parsed proxies. -/
theorem pac.allLoop_total (segs : List (List Char)) (i : Nat) (res : List pac.Proxy)
    (h : ∀ v ∈ segs, (pac.parseProxy (String.mk v)).2 = none) :
    pac.allLoop i res segs =
      (res ++ segs.map (fun v => (pac.parseProxy (String.mk v)).1), none) := by
  induction segs generalizing i res with
  | nil => simp [pac.allLoop]
  | cons v vs ih =>
    simp only [pac.allLoop]
    rcases hp : pac.parseProxy (String.mk v) with ⟨p, _ | e⟩
    · simp only []
      rw [ih _ _ (fun w hw => h w (List.mem_cons_of_mem _ hw))]
      simp [hp]
    · have := h v (List.mem_cons_self _ _)
      rw [hp] at this
      cases this

theorem pac.parseProxy_blank (seg : String)
    (h : pac.TrimSpace seg.data = [] ∨ pac.TrimSpace seg.data = "DIRECT".data) :
    pac.parseProxy seg = ({ Mode := pac.Mode.DIRECT, Host := "", Port := "" }, none) := by
  rcases h with h | h
  · simp [pac.parseProxy, h, pac.noProxy]
  · have hne : "DIRECT".data ≠ [] := by decide
    simp [pac.parseProxy, h, hne]

theorem pac.parseProxy_typed (seg T : String) (m : pac.Mode) (hp host port : List Char)
    (hT : (T, m) ∈ [("PROXY", pac.Mode.PROXY), ("SOCKS", pac.Mode.SOCKS),
      ("HTTP", pac.Mode.HTTP), ("HTTPS", pac.Mode.HTTPS), ("SOCKS4", pac.Mode.SOCKS4)])
    (hs : pac.TrimSpace seg.data = T.data ++ ' ' :: hp)
    (hsp : splitHostPort hp = Except.ok (host, port)) :
    pac.parseProxy seg =
      ({ Mode := m, Host := String.mk host, Port := String.mk port }, none) := by
  simp only [List.mem_cons, Prod.mk.injEq, List.mem_singleton, List.not_mem_nil,
    or_false] at hT
  rcases hT with ⟨h1, h2⟩ | ⟨h1, h2⟩ | ⟨h1, h2⟩ | ⟨h1, h2⟩ | ⟨h1, h2⟩ <;>
    (subst h1; subst h2
     simp only [pac.parseProxy, hs]
     simp [pac.Cut, hsp, pac.parseMode])

/-- C20: for a non-empty Proxies string on which `All` succeeds, the result has one
entry per semicolon-separated segment, in order (the number of ';' plus one); a
segment that trims to nothing or to DIRECT gives the DIRECT proxy, and a segment
`TYPE host:port` with TYPE one of PROXY, SOCKS, HTTP, HTTPS, SOCKS4 gives that mode
with the host and port of the pair; the three listed strings parse as stated. -/
theorem pac_All_segments (s : String) (l : List pac.Proxy)
    (hne : s ≠ "") (hok : pac.All s = (l, none)) :
    l.length = s.data.count ';' + 1 ∧
    List.intercalate [';'] (pac.Split s.data ';') = s.data ∧
    (∀ v ∈ pac.Split s.data ';', ';' ∉ v) ∧
    l = (pac.Split s.data ';').map (fun v => (pac.parseProxy (String.mk v)).1) ∧
    (∀ v ∈ pac.Split s.data ';', (pac.parseProxy (String.mk v)).2 = none) ∧
    (∀ seg : String,
      pac.TrimSpace seg.data = [] ∨ pac.TrimSpace seg.data = "DIRECT".data →
      pac.parseProxy seg = ({ Mode := pac.Mode.DIRECT, Host := "", Port := "" }, none)) ∧
    (∀ (seg T : String) (m : pac.Mode) (hp host port : List Char),
      (T, m) ∈ [("PROXY", pac.Mode.PROXY), ("SOCKS", pac.Mode.SOCKS),
        ("HTTP", pac.Mode.HTTP), ("HTTPS", pac.Mode.HTTPS), ("SOCKS4", pac.Mode.SOCKS4)] →
      pac.TrimSpace seg.data = T.data ++ ' ' :: hp →
      splitHostPort hp = Except.ok (host, port) →
      pac.parseProxy seg =
        ({ Mode := m, Host := String.mk host, Port := String.mk port }, none)) ∧
    pac.All "DIRECT" = ([{ Mode := pac.Mode.DIRECT, Host := "", Port := "" }], none) ∧
    pac.All "PROXY 1.2.3.4:8080" =
      ([{ Mode := pac.Mode.PROXY, Host := "1.2.3.4", Port := "8080" }], none) ∧
    pac.All "HTTPS h:2;DIRECT" =
      ([{ Mode := pac.Mode.HTTPS, Host := "h", Port := "2" },
        { Mode := pac.Mode.DIRECT, Host := "", Port := "" }], none) := by
  have hloop : pac.allLoop 0 [] (pac.Split s.data ';') = (l, none) := by
    simpa [pac.All, hne] using hok
  obtain ⟨hl, hall⟩ := pac.allLoop_ok _ _ _ _ hloop
  simp only [List.nil_append] at hl
  refine ⟨?_, pac.Split_intercalate _ _, pac.Split_no_sep _ _, hl, hall,
    pac.parseProxy_blank, pac.parseProxy_typed, by decide, by decide, by decide⟩
  rw [hl, List.length_map, pac.Split_length]

theorem pac_All_segments_witness :
    (" PROXY h:1 ; ;DIRECT;SOCKS4 [::1]:9" : String) ≠ "" ∧
    pac.All " PROXY h:1 ; ;DIRECT;SOCKS4 [::1]:9" =
      ([{ Mode := pac.Mode.PROXY, Host := "h", Port := "1" },
        { Mode := pac.Mode.DIRECT, Host := "", Port := "" },
        { Mode := pac.Mode.DIRECT, Host := "", Port := "" },
        { Mode := pac.Mode.SOCKS4, Host := "::1", Port := "9" }], none) ∧
    ([{ Mode := pac.Mode.PROXY, Host := "h", Port := "1" },
        { Mode := pac.Mode.DIRECT, Host := "", Port := "" },
        { Mode := pac.Mode.DIRECT, Host := "", Port := "" },
        { Mode := pac.Mode.SOCKS4, Host := "::1", Port := "9" }] : List pac.Proxy).length =
      (" PROXY h:1 ; ;DIRECT;SOCKS4 [::1]:9" : String).data.count ';' + 1 :=
  ⟨by decide, by decide,
    (pac_All_segments " PROXY h:1 ; ;DIRECT;SOCKS4 [::1]:9" _ (by decide) (by decide)).1⟩

/-! ## Read deadlines -/

/-- C18: when `readRequest` parses a request, the read deadline is set to the idle
deadline (zero when the idle timeout is not positive), then, after the one-byte peek,
to `t0` plus the header timeout (zero when not positive), and then, exactly when the
header deadline differs from the whole-request deadline, to `t0` plus `ReadTimeout`
(zero when not positive); with equal timeouts there is no third setting. -/
theorem readRequest_deadlines (env : HandlerEnv) (px : Proxy) (p : ProxyConn) (req : Request)
    (h : (readRequest env px p).out = Except.ok req) :
    let idle : Option Int :=
      if px.idleTimeout > 0 then some (px.now + px.idleTimeout) else none
    let hdr : Option Int :=
      if px.readHeaderTimeout > 0 then some (px.t0 + px.readHeaderTimeout) else none
    let whole : Option Int :=
      if px.ReadTimeout > 0 then some (px.t0 + px.ReadTimeout) else none
    (readRequest env px p).events =
      [Event.setReadDeadline idle, Event.peek 1, Event.setReadDeadline hdr,
        Event.readRequest] ++
      (if hdr ≠ whole then [Event.setReadDeadline whole] else []) ∧
    (readRequest env px p).events.filterMap Event.deadline =
      [idle, hdr] ++ (if hdr ≠ whole then [whole] else []) ∧
    (((readRequest env px p).events.filterMap Event.deadline).length = 3 ↔ hdr ≠ whole) ∧
    (px.readHeaderTimeout = px.ReadTimeout →
      (readRequest env px p).events.filterMap Event.deadline = [idle, hdr]) := by
  intro idle hdr whole
  have hev : (readRequest env px p).events =
      [Event.setReadDeadline idle, Event.peek 1, Event.setReadDeadline hdr,
        Event.readRequest] ++
      (if hdr ≠ whole then [Event.setReadDeadline whole] else []) := by
    simp only [readRequest] at h ⊢
    rcases hp : Peek env p 1 with ⟨p1, b, _ | e⟩
    · rw [hp] at h
      simp only [] at h ⊢
      rcases hr : px.ReadRequest p1 with ⟨p2, e | r⟩
      · rw [hr] at h
        simp at h
      · simp only []
        by_cases hd : hdr = whole
        · have hd2 := hd
          simp only [hdr, whole] at hd2
          simp [hd, hd2, idle, hdr]
        · have hd2 := hd
          simp only [hdr, whole] at hd2
          simp [hd, hd2, idle, hdr, whole]
    · rw [hp] at h
      simp at h
  have hdl : (readRequest env px p).events.filterMap Event.deadline =
      [idle, hdr] ++ (if hdr ≠ whole then [whole] else []) := by
    rw [hev]
    by_cases hd : hdr = whole <;> simp [hd, Event.deadline, List.filterMap]
  refine ⟨hev, hdl, ?_, ?_⟩
  · rw [hdl]
    by_cases hd : hdr = whole <;> simp [hd]
  · intro heq
    rw [hdl]
    have : hdr = whole := by simp [hdr, whole, heq]
    simp [this]

theorem readRequest_deadlines_witness :
    (readRequest sampleHandlerEnv sampleProxy plaintextConn).out =
      Except.ok { upgradeRequest with RemoteAddr := "192.0.2.1:50000" } ∧
    (readRequest sampleHandlerEnv sampleProxy plaintextConn).events.filterMap Event.deadline =
      [some 30000001000, some 2000001001, some 5000001001] ∧
    (readRequest sampleHandlerEnv equalTimeoutsProxy plaintextConn).events.filterMap
      Event.deadline = [some 30000001000, some 5000001001] :=
  ⟨by decide,
    (readRequest_deadlines sampleHandlerEnv sampleProxy plaintextConn
      { upgradeRequest with RemoteAddr := "192.0.2.1:50000" } (by decide)).2.1.trans
      (by decide),
    ((readRequest_deadlines sampleHandlerEnv equalTimeoutsProxy plaintextConn
      { upgradeRequest with RemoteAddr := "192.0.2.1:50000" } (by decide)).2.2.2
      (by decide)).trans (by decide)⟩

/-! ## The default connect path -/

theorem newConnectResponse_eq (env : WriteEnv) (req : Request)
    (hst : env.StatusText 200 = "OK") :
    newConnectResponse env req =
      { Status := "200 OK", StatusCode := 200, ProtoMajor := req.ProtoMajor,
        ProtoMinor := req.ProtoMinor, Header := [], Trailer := [], Close := false,
        Request := req, Body := Body.noBody, ContentLength := -1 } := by
  have h : Itoa 200 ++ " " ++ "OK" = "200 OK" := by decide
  simp only [newConnectResponse, hst, h]

/-- C14: `connectHTTP` dials through the upstream with the dialer's timeout set to
`ConnectTimeout` and its `ProxyConnectHeader` a copy of the request header; on a 2xx
reply it closes the reply's body and returns a fresh `200 OK` response (the request's
protocol version, empty header, no body, content length -1, bound to the request) with
the connection and a nil error; on another reply it returns that reply bound to the
request, with the connection and the error as dialed; with no reply it returns the
connection and the error as dialed. -/
theorem connectHTTP_cases (px : Proxy) (env : WriteEnv) (req : Request) (proxyURL : URL)
    (hst : env.StatusText 200 = "OK") :
    let dialed := px.dialHTTPProxy (decide (proxyURL.Scheme = "https")) proxyURL
      px.ConnectTimeout req.Header "tcp" req.URLHost
    let dialStep := Event.dialHTTPProxy (decide (proxyURL.Scheme = "https")) proxyURL
      px.ConnectTimeout req.Header "tcp" req.URLHost
    let r := px.connectHTTP env req proxyURL
    (∀ res, dialed.1 = some res → 200 ≤ res.StatusCode → res.StatusCode ≤ 299 →
      r.res = some { Status := "200 OK", StatusCode := 200, ProtoMajor := req.ProtoMajor,
                     ProtoMinor := req.ProtoMinor, Header := [], Trailer := [],
                     Close := false, Request := req, Body := Body.noBody,
                     ContentLength := -1 } ∧
      r.conn = dialed.2.1 ∧ r.err = none ∧
      r.events = [dialStep, Event.bodyClose res.Body]) ∧
    (∀ res, dialed.1 = some res → ¬ (200 ≤ res.StatusCode ∧ res.StatusCode ≤ 299) →
      r.res = some { res with Request := req } ∧
      r.conn = dialed.2.1 ∧ r.err = dialed.2.2 ∧ r.events = [dialStep]) ∧
    (dialed.1 = none →
      r.res = none ∧ r.conn = dialed.2.1 ∧ r.err = dialed.2.2 ∧ r.events = [dialStep]) := by
  intro dialed dialStep r
  rcases hd : dialed with ⟨res0, conn, err⟩
  have hd2 : px.dialHTTPProxy (decide (proxyURL.Scheme = "https")) proxyURL
      px.ConnectTimeout req.Header "tcp" req.URLHost = (res0, conn, err) := hd
  refine ⟨?_, ?_, ?_⟩
  · intro res hres hlo hhi
    simp only at hres
    subst hres
    have h2 : Int.tdiv res.StatusCode 100 = 2 := (tdiv_hundred_eq_two_iff _).2 ⟨hlo, hhi⟩
    simp only [r, Proxy.connectHTTP, hd2, h2, if_true, newConnectResponse_eq env req hst,
      dialStep]
    simp
  · intro res hres hno
    simp only at hres
    subst hres
    have h2 : ¬ Int.tdiv res.StatusCode 100 = 2 := fun h => hno ((tdiv_hundred_eq_two_iff _).1 h)
    simp only [r, Proxy.connectHTTP, hd2, h2, if_false, dialStep]
    simp
  · intro hres
    simp only at hres
    subst hres
    simp only [r, Proxy.connectHTTP, hd2, dialStep]
    simp

theorem connectHTTP_cases_witness :
    (upstreamOKProxy.connectHTTP sampleWriteEnv connectVia upstreamHTTP).res =
      some { Status := "200 OK", StatusCode := 200, ProtoMajor := 1, ProtoMinor := 1,
             Header := [], Trailer := [], Close := false, Request := connectVia,
             Body := Body.noBody, ContentLength := -1 } ∧
    (upstreamOKProxy.connectHTTP sampleWriteEnv connectVia upstreamHTTP).conn = some 2 ∧
    (upstreamOKProxy.connectHTTP sampleWriteEnv connectVia upstreamHTTP).err = none ∧
    (upstreamOKProxy.connectHTTP sampleWriteEnv connectVia upstreamHTTP).events =
      [Event.dialHTTPProxy false upstreamHTTP (60 * Second) [("User-Agent", ["curl/8.0"])]
        "tcp" "example.com:443", Event.bodyClose (Body.reader 3)] :=
  (connectHTTP_cases upstreamOKProxy sampleWriteEnv connectVia upstreamHTTP (by decide)).1
    { Status := "200 Connection established", StatusCode := 200, ProtoMajor := 1,
      ProtoMinor := 0, Header := [("Via", ["1.1 upstream"])], Trailer := [],
      Close := false, Request := headRequest, Body := Body.reader 3 }
    (by decide) (by decide) (by decide)

theorem connectHTTP_events_dial (px : Proxy) (env : WriteEnv) (req : Request) (u : URL) :
    ∀ e ∈ (px.connectHTTP env req u).events, e.handshakes = false := by
  simp only [Proxy.connectHTTP]
  rcases px.dialHTTPProxy (decide (u.Scheme = "https")) u px.ConnectTimeout req.Header "tcp"
    req.URLHost with ⟨_ | res, conn, err⟩
  · simp [Event.handshakes]
  · simp only []
    split <;> simp [Event.handshakes]

theorem connectSOCKS5_events_dial (px : Proxy) (env : WriteEnv) (req : Request) (u : URL) :
    ∀ e ∈ (px.connectSOCKS5 env req u).events, e.handshakes = false := by
  simp only [Proxy.connectSOCKS5]
  rcases px.dialSOCKS5 u px.ConnectTimeout "tcp" req.URLHost with ⟨conn, _ | err⟩ <;>
    simp [Event.handshakes]

/-- The default connect path performs no client-side TLS handshake of its own. -/
theorem connect_no_handshake (px : Proxy) (env : WriteEnv) (req : Request) :
    ∀ e ∈ (px.connect env req).events, e.handshakes = false := by
  intro e he
  simp only [Proxy.connect] at he
  cases hp : px.ProxyURL with
  | none =>
    rw [hp] at he
    simp only [] at he
    rcases hd : px.DialContext "tcp" req.URLHost with ⟨conn, _ | derr⟩ <;>
      rw [hd] at he <;> simp at he <;> subst he <;> rfl
  | some f =>
    rw [hp] at he
    rcases hfr : f req with ⟨u, err⟩
    simp only [hfr] at he
    cases err with
    | some err =>
      simp at he
      subst he
      rfl
    | none =>
      cases u with
      | none =>
        simp only [] at he
        rcases hd : px.DialContext "tcp" req.URLHost with ⟨conn, _ | derr⟩ <;>
          rw [hd] at he <;> simp at he <;> rcases he with he | he <;> subst he <;> rfl
      | some u =>
        simp only [] at he
        split at he
        · simp only [List.mem_append, List.mem_singleton] at he
          rcases he with he | he
          · subst he; rfl
          · exact connectHTTP_events_dial px env req u e he
        · split at he
          · simp only [List.mem_append, List.mem_singleton] at he
            rcases he with he | he
            · subst he; rfl
            · exact connectSOCKS5_events_dial px env req u e he
          · simp at he
            subst he
            rfl

/-- C13: on the default connect path, a failing `ProxyURL` hook gives its error with no
response, no connection and no dial; with no hook or no URL the target `req.URL.Host` is
dialed over `tcp`, and a successful dial gives a fresh `200 OK` response with the dialed
connection; an `http` or `https` URL takes `connectHTTP`, a `socks5` URL takes
`connectSOCKS5`; any other scheme gives the unsupported-scheme error with no response,
no connection and no dial. -/
theorem connect_cases (px : Proxy) (env : WriteEnv) (req : Request)
    (hst : env.StatusText 200 = "OK") :
    (∀ f u err, px.ProxyURL = some f → f req = (u, some err) →
      px.connect env req =
        { res := none, conn := none, err := some err, events := [Event.proxyURL req] } ∧
      ∀ e ∈ (px.connect env req).events, e.dials = false) ∧
    ((px.ProxyURL = none ∨ ∃ f, px.ProxyURL = some f ∧ f req = (none, none)) →
      (∃ evs, (px.connect env req).events = evs ++ [Event.dial "tcp" req.URLHost] ∧
        ∀ e ∈ evs, e.dials = false) ∧
      (∀ conn, px.DialContext "tcp" req.URLHost = (conn, none) →
        (px.connect env req).res = some (newConnectResponse env req) ∧
        (newConnectResponse env req).StatusCode = 200 ∧
        (newConnectResponse env req).Status = "200 OK" ∧
        (px.connect env req).conn = conn ∧ (px.connect env req).err = none) ∧
      (∀ conn err, px.DialContext "tcp" req.URLHost = (conn, some err) →
        (px.connect env req).res = none ∧ (px.connect env req).conn = none ∧
        (px.connect env req).err = some err)) ∧
    (∀ f u, px.ProxyURL = some f → f req = (some u, none) →
      (u.Scheme = "http" ∨ u.Scheme = "https" →
        px.connect env req =
          { px.connectHTTP env req u with
            events := [Event.proxyURL req] ++ (px.connectHTTP env req u).events }) ∧
      (u.Scheme = "socks5" →
        px.connect env req =
          { px.connectSOCKS5 env req u with
            events := [Event.proxyURL req] ++ (px.connectSOCKS5 env req u).events }) ∧
      (u.Scheme ≠ "http" → u.Scheme ≠ "https" → u.Scheme ≠ "socks5" →
        px.connect env req =
          { res := none, conn := none,
            err := some (Err.other ("unsupported proxy scheme: " ++ u.Scheme)),
            events := [Event.proxyURL req] } ∧
        ∀ e ∈ (px.connect env req).events, e.dials = false)) := by
  refine ⟨?_, ?_, ?_⟩
  · intro f u err hf hfr
    have h : px.connect env req =
        { res := none, conn := none, err := some err, events := [Event.proxyURL req] } := by
      simp [Proxy.connect, hf, hfr]
    refine ⟨h, ?_⟩
    rw [h]
    simp [Event.dials]
  · intro hno
    have hhook : ∃ evs : List Event, (∀ e ∈ evs, e.dials = false) ∧
        px.connect env req =
          (match px.DialContext "tcp" req.URLHost with
          | (_, some err) =>
            { res := none, conn := none, err := some err,
              events := evs ++ [Event.dial "tcp" req.URLHost] }
          | (conn, none) =>
            { res := some (newConnectResponse env req), conn := conn, err := none,
              events := evs ++ [Event.dial "tcp" req.URLHost] }) := by
      rcases hno with hno | ⟨f, hf, hfr⟩
      · exact ⟨[], by simp, by simp [Proxy.connect, hno]⟩
      · exact ⟨[Event.proxyURL req], by simp [Event.dials], by simp [Proxy.connect, hf, hfr]⟩
    obtain ⟨evs, hevs, hc⟩ := hhook
    refine ⟨⟨evs, ?_, hevs⟩, ?_, ?_⟩
    · rw [hc]
      rcases px.DialContext "tcp" req.URLHost with ⟨conn, _ | derr⟩ <;> rfl
    · intro conn hdial
      rw [hc, hdial]
      simp [newConnectResponse_eq env req hst]
    · intro conn err hdial
      rw [hc, hdial]
      simp
  · intro f u hf hfr
    refine ⟨?_, ?_, ?_⟩
    · intro hs
      simp [Proxy.connect, hf, hfr, hs]
    · intro hs
      simp [Proxy.connect, hf, hfr, hs]
    · intro h1 h2 h3
      have h : px.connect env req =
          { res := none, conn := none,
            err := some (Err.other ("unsupported proxy scheme: " ++ u.Scheme)),
            events := [Event.proxyURL req] } := by
        simp [Proxy.connect, hf, hfr, h1, h2, h3]
      refine ⟨h, ?_⟩
      rw [h]
      simp [Event.dials]

theorem connect_cases_witness :
    sampleProxy.connect sampleWriteEnv connectVia =
      { res := some (newConnectResponse sampleWriteEnv connectVia), conn := some 1,
        err := none, events := [Event.dial "tcp" "example.com:443"] } ∧
    proxyURLFailsProxy.connect sampleWriteEnv connectVia =
      { res := none, conn := none, err := some (Err.other "no route"),
        events := [Event.proxyURL connectVia] } ∧
    upstreamFTPProxy.connect sampleWriteEnv connectVia =
      { res := none, conn := none, err := some (Err.other "unsupported proxy scheme: ftp"),
        events := [Event.proxyURL connectVia] } ∧
    ((sampleProxy.connect sampleWriteEnv connectVia).res =
        some (newConnectResponse sampleWriteEnv connectVia) ∧
      (newConnectResponse sampleWriteEnv connectVia).StatusCode = 200 ∧
      (newConnectResponse sampleWriteEnv connectVia).Status = "200 OK" ∧
      (sampleProxy.connect sampleWriteEnv connectVia).conn = some 1 ∧
      (sampleProxy.connect sampleWriteEnv connectVia).err = none) :=
  ⟨by decide, by decide, by decide,
    ((connect_cases sampleProxy sampleWriteEnv connectVia (by decide)).2.1
      (Or.inl rfl)).2.1 (some 1) (by decide)⟩

/-! ## The connect dispatcher -/

/-- What `Connect` returns when the hook does not ask for the fallback. -/
theorem Connect_hook_result (px : Proxy) (env : WriteEnv) (req : Request) (terminateTLS : Bool)
    (f : Request → Option Response × Option ReadWriteCloser × Option Err)
    (hf : px.ConnectFunc = some f) (hno : px.isConnectFallback (f req).2.2 = false) :
    px.Connect env req terminateTLS =
      { res := (f req).1, crw := (f req).2.1, cerr := (f req).2.2,
        events := [Event.connectFunc req] } := by
  rcases hfr : f req with ⟨res, crw, cerr⟩
  rw [hfr] at hno
  simp only [] at hno
  simp [Proxy.Connect, hf, hfr, hno]

/-- What `Connect` returns past the hook, in terms of the default connect path. -/
theorem Connect_default_eq (px : Proxy) (env : WriteEnv) (req : Request)
    (terminateTLS : Bool)
    (h : px.ConnectFunc = none ∨
      ∃ f, px.ConnectFunc = some f ∧ px.isConnectFallback (f req).2.2 = true) :
    px.Connect env req terminateTLS =
      (match (px.connect env req).conn with
        | some cconn =>
          if terminateTLS = true then
            match px.tlsClientHandshake cconn with
            | none =>
              ({ res := (px.connect env req).res,
                 crw := some (ReadWriteCloser.tlsClient cconn),
                 cerr := (px.connect env req).err,
                 events := (match px.ConnectFunc with
                     | some _ => [Event.connectFunc req]
                     | none => []) ++ (px.connect env req).events ++
                   [Event.tlsClientHandshake cconn] } : ConnectResult)
            | some err =>
              { res := (px.connect env req).res, crw := some (ReadWriteCloser.conn cconn),
                cerr := some err,
                events := (match px.ConnectFunc with
                    | some _ => [Event.connectFunc req]
                    | none => []) ++ (px.connect env req).events ++
                  [Event.tlsClientHandshake cconn] }
          else
            { res := (px.connect env req).res, crw := some (ReadWriteCloser.conn cconn),
              cerr := (px.connect env req).err,
              events := (match px.ConnectFunc with
                  | some _ => [Event.connectFunc req]
                  | none => []) ++ (px.connect env req).events }
        | none =>
          { res := (px.connect env req).res,
            crw := (match px.ConnectFunc with
              | some f => (f req).2.1
              | none => none),
            cerr := (px.connect env req).err,
            events := (match px.ConnectFunc with
                | some _ => [Event.connectFunc req]
                | none => []) ++ (px.connect env req).events }) := by
  rcases h with h | ⟨f, hf, hfb⟩
  · simp only [Proxy.Connect, h]
    exact if_pos (Or.inl rfl)
  · rcases hfr : f req with ⟨res, crw, cerr⟩
    rw [hfr] at hfb
    simp only [Proxy.Connect, hf, hfr]
    exact if_pos (Or.inr hfb)

theorem connect_without_hook (px : Proxy) (env : WriteEnv) (req : Request) :
    ({ px with ConnectFunc := none } : Proxy).connect env req = px.connect env req := rfl

/-- C12: a `ConnectFunc` hook asks for the fallback and returns, with the fallback
error, a response and connection 9. In front of a default path whose dial fails,
`Connect` returns the response and the error of the default path together with the
connection of the hook, where the default path on its own (the same proxy without the
hook) returns no connection: the result of the hook is not wholly replaced. In front
of a default path whose dial succeeds, the connection of the hook is dropped from the
result. -/
theorem Connect_fallback_keeps_hook_conn :
    (∃ f, hookFallbackProxy.ConnectFunc = some f ∧
      (f connectUnreachable).1.isSome = true ∧
      (f connectUnreachable).2.1 = some (ReadWriteCloser.conn 9) ∧
      (f connectUnreachable).2.2 = some ErrConnectFallback) ∧
    hookFallbackProxy.isConnectFallback (some ErrConnectFallback) = true ∧
    hookFallbackProxy.Connect sampleWriteEnv connectUnreachable false =
      { res := none, crw := some (ReadWriteCloser.conn 9),
        cerr := some (Err.other "dial tcp: connection refused"),
        events := [Event.connectFunc connectUnreachable,
          Event.dial "tcp" "unreachable.example:443"] } ∧
    hookFallbackProxy.connect sampleWriteEnv connectUnreachable =
      { res := none, conn := none, err := some (Err.other "dial tcp: connection refused"),
        events := [Event.dial "tcp" "unreachable.example:443"] } ∧
    ({ hookFallbackProxy with ConnectFunc := none } : Proxy).Connect sampleWriteEnv
        connectUnreachable false =
      { res := none, crw := none, cerr := some (Err.other "dial tcp: connection refused"),
        events := [Event.dial "tcp" "unreachable.example:443"] } ∧
    (hookFallbackProxy.Connect sampleWriteEnv connectVia false).crw =
      some (ReadWriteCloser.conn 1) :=
  ⟨⟨_, rfl, by decide, by decide, by decide⟩, by decide, by decide, by decide, by decide,
    by decide⟩

/-- What `Connect` returns, hook by hook: with a `ConnectFunc` hook whose error does
not wrap `ErrConnectFallback` (a nil error included), `Connect` returns the triple of the hook
and neither asks `ProxyURL` nor dials; with a hook whose error wraps
`ErrConnectFallback`, `Connect` returns the response and the error of the default path
(the path taken with no hook), and its connection when it yields one, the read/write/closer
of the hook being kept only when the default path yields no connection; with no hook
`Connect` is the default path: the outcome of `connect`, then the TLS step. -/
theorem Connect_hook (px : Proxy) (env : WriteEnv) (req : Request) (terminateTLS : Bool) :
    (∀ f, px.ConnectFunc = some f → px.isConnectFallback (f req).2.2 = false →
      px.Connect env req terminateTLS =
        { res := (f req).1, crw := (f req).2.1, cerr := (f req).2.2,
          events := [Event.connectFunc req] } ∧
      ∀ e ∈ (px.Connect env req terminateTLS).events,
        e.dials = false ∧ e ≠ Event.proxyURL req) ∧
    (∀ f, px.ConnectFunc = some f → px.isConnectFallback (f req).2.2 = true →
      let d := ({ px with ConnectFunc := none } : Proxy).Connect env req terminateTLS
      (px.Connect env req terminateTLS).res = d.res ∧
      (px.Connect env req terminateTLS).cerr = d.cerr ∧
      (px.Connect env req terminateTLS).crw =
        (match d.crw with
          | some crw => some crw
          | none => (f req).2.1) ∧
      (px.Connect env req terminateTLS).events = Event.connectFunc req :: d.events) ∧
    (px.ConnectFunc = none →
      (px.Connect env req terminateTLS).res = (px.connect env req).res ∧
      (∃ tail, (px.Connect env req terminateTLS).events = (px.connect env req).events ++ tail ∧
        ∀ e ∈ tail, e.handshakes = true) ∧
      ((px.connect env req).conn = none →
        (px.Connect env req terminateTLS).crw = none ∧
        (px.Connect env req terminateTLS).cerr = (px.connect env req).err)) := by
  refine ⟨?_, ?_, ?_⟩
  · intro f hf hno
    have h := Connect_hook_result px env req terminateTLS f hf hno
    refine ⟨h, ?_⟩
    rw [h]
    intro e he
    simp only [List.mem_singleton] at he
    subst he
    exact ⟨rfl, by simp⟩
  · intro f hf hfb d
    have h1 := Connect_default_eq px env req terminateTLS (Or.inr ⟨f, hf, hfb⟩)
    have h2 := Connect_default_eq ({ px with ConnectFunc := none } : Proxy) env req
      terminateTLS (Or.inl rfl)
    rw [connect_without_hook] at h2
    simp only [hf] at h1
    simp only [d]
    rw [h1, h2]
    cases (px.connect env req).conn with
    | none => simp
    | some cconn =>
      simp only []
      cases terminateTLS with
      | false => simp
      | true =>
        simp only [if_true]
        have e : ({ px with ConnectFunc := none } : Proxy).tlsClientHandshake cconn =
            px.tlsClientHandshake cconn := rfl
        rw [e]
        cases px.tlsClientHandshake cconn <;> simp
  · intro hn
    have h1 := Connect_default_eq px env req terminateTLS (Or.inl hn)
    simp only [hn] at h1
    rw [h1]
    cases hc : (px.connect env req).conn with
    | none => simp
    | some cconn =>
      simp only []
      cases terminateTLS with
      | false => simp
      | true =>
        simp only [if_true]
        cases px.tlsClientHandshake cconn <;> simp [Event.handshakes]

theorem Connect_hook_witness :
    hookProxy.Connect sampleWriteEnv connectVia true =
      { res := some { Status := "200 OK", StatusCode := 200, ProtoMajor := 1,
                      ProtoMinor := 1, Header := [("X-Hook", ["1"])], Trailer := [],
                      Close := false, Request := connectVia },
        crw := some (ReadWriteCloser.conn 5), cerr := none,
        events := [Event.connectFunc connectVia] } ∧
    (hookFallbackProxy.Connect sampleWriteEnv connectVia false).crw =
      some (ReadWriteCloser.conn 1) :=
  ⟨((Connect_hook hookProxy sampleWriteEnv connectVia true).1 _ rfl (by decide)).1,
    (((Connect_hook hookFallbackProxy sampleWriteEnv connectVia false).2.1 _ rfl
      (by decide)).2.2.1).trans (by decide)⟩

/-- C15 (as stated, refuted): a `ConnectFunc` hook obtains a connection, `terminateTLS`
is set and the client-side handshake would succeed, and yet `Connect` returns the
connection of the hook as it is and attempts no handshake. -/
theorem Connect_hook_not_wrapped :
    hookProxy.tlsClientHandshake 5 = none ∧
    (hookProxy.Connect sampleWriteEnv connectVia true).crw = some (ReadWriteCloser.conn 5) ∧
    (hookProxy.Connect sampleWriteEnv connectVia true).cerr = none ∧
    (hookProxy.Connect sampleWriteEnv connectVia true).events =
      [Event.connectFunc connectVia] := by
  decide

/-- C15 (amended): on the default connect path (no `ConnectFunc` hook, or a hook that
asks for the fallback), when `connect` yields a connection: with `terminateTLS` set a
client-side TLS handshake is run on it, and on success `Connect` returns the TLS
connection with the error of `connect` unchanged, on failure the connection as dialed
with the handshake error; with `terminateTLS` not set `Connect` returns the connection
as dialed and the error of `connect`, and no handshake is attempted. -/
theorem Connect_terminateTLS (px : Proxy) (env : WriteEnv) (req : Request)
    (terminateTLS : Bool) (cconn : Nat)
    (h : px.ConnectFunc = none ∨
      ∃ f, px.ConnectFunc = some f ∧ px.isConnectFallback (f req).2.2 = true)
    (hc : (px.connect env req).conn = some cconn) :
    (terminateTLS = true → px.tlsClientHandshake cconn = none →
      (px.Connect env req terminateTLS).crw = some (ReadWriteCloser.tlsClient cconn) ∧
      (px.Connect env req terminateTLS).cerr = (px.connect env req).err ∧
      Event.tlsClientHandshake cconn ∈ (px.Connect env req terminateTLS).events) ∧
    (∀ err, terminateTLS = true → px.tlsClientHandshake cconn = some err →
      (px.Connect env req terminateTLS).crw = some (ReadWriteCloser.conn cconn) ∧
      (px.Connect env req terminateTLS).cerr = some err ∧
      Event.tlsClientHandshake cconn ∈ (px.Connect env req terminateTLS).events) ∧
    (terminateTLS = false →
      (px.Connect env req terminateTLS).crw = some (ReadWriteCloser.conn cconn) ∧
      (px.Connect env req terminateTLS).cerr = (px.connect env req).err ∧
      ∀ e ∈ (px.Connect env req terminateTLS).events, e.handshakes = false) ∧
    (px.Connect env req terminateTLS).res = (px.connect env req).res := by
  have h1 := Connect_default_eq px env req terminateTLS h
  rw [hc] at h1
  simp only [] at h1
  refine ⟨?_, ?_, ?_, ?_⟩
  · intro ht hh
    rw [h1, ht]
    simp only [if_true, hh]
    simp
  · intro err ht hh
    rw [h1, ht]
    simp only [if_true, hh]
    simp
  · intro ht
    rw [h1, ht]
    simp only [Bool.false_eq_true, if_false]
    refine ⟨trivial, trivial, ?_⟩
    intro e he
    simp only [List.mem_append] at he
    rcases he with he | he
    · cases hf : px.ConnectFunc with
      | none => rw [hf] at he; simp at he
      | some f =>
        rw [hf] at he
        simp only [List.mem_singleton] at he
        subst he
        rfl
    · exact connect_no_handshake px env req e he
  · rw [h1]
    cases terminateTLS with
    | false => rfl
    | true =>
      simp only [if_true]
      cases px.tlsClientHandshake cconn <;> rfl

theorem Connect_terminateTLS_witness :
    ((sampleProxy.Connect sampleWriteEnv connectVia true).crw =
        some (ReadWriteCloser.tlsClient 1) ∧
      (sampleProxy.Connect sampleWriteEnv connectVia true).cerr = none ∧
      Event.tlsClientHandshake 1 ∈ (sampleProxy.Connect sampleWriteEnv connectVia true).events) ∧
    (handshakeFailsProxy.Connect sampleWriteEnv connectVia true).crw =
      some (ReadWriteCloser.conn 1) ∧
    (handshakeFailsProxy.Connect sampleWriteEnv connectVia true).cerr =
      some (Err.other "tls: handshake failure") ∧
    (sampleProxy.Connect sampleWriteEnv connectVia false).events =
      [Event.dial "tcp" "example.com:443"] :=
  ⟨(Connect_terminateTLS sampleProxy sampleWriteEnv connectVia true 1 (Or.inl rfl)
      (by decide)).1 rfl (by decide),
    by decide, by decide, by decide⟩

/-! ## CONNECT requests -/

theorem Header.Values_Del (h : Header) (key : String) : (h.Del key).Values key = [] := by
  induction h with
  | nil => rfl
  | cons e t ih =>
    obtain ⟨k, vs⟩ := e
    by_cases hk : k = key
    · simpa [Header.Del, List.filter, hk] using ih
    · have : (Header.Del ((k, vs) :: t) key) = (k, vs) :: Header.Del t key := by
        simp [Header.Del, List.filter, hk]
      rw [this]
      simp only [Header.Values, hk, if_false]
      exact ih

theorem Header.Values_Set (h : Header) (key value : String) :
    (h.Set key value).Values key = [value] := by
  induction h with
  | nil => simp [Header.Set, Header.Values]
  | cons e t ih =>
    obtain ⟨k, vs⟩ := e
    by_cases hk : k = key
    · simp [Header.Set, Header.Values, hk]
    · simp [Header.Set, Header.Values, hk, ih]

theorem Header.Values_Set_ne (h : Header) (key value other : String) (hne : other ≠ key) :
    (h.Set key value).Values other = h.Values other := by
  induction h with
  | nil =>
    have : ¬ key = other := fun e => hne e.symm
    simp [Header.Set, Header.Values, this]
  | cons e t ih =>
    obtain ⟨k, vs⟩ := e
    by_cases hk : k = key
    · have : ¬ key = other := fun e => hne e.symm
      simp [Header.Set, Header.Values, hk, this]
    · by_cases ho : k = other
      · subst ho
        simp [Header.Set, Header.Values, hk]
      · simp [Header.Set, Header.Values, hk, ho, ih]

theorem handleConnectRequest_events_head (env : HandlerEnv) (px : Proxy) (closing : Bool)
    (p : ProxyConn) (req : Request) (r : HandleResult)
    (h : handleConnectRequest env px closing p req = some r) :
    r.events.head? =
      some (Event.modifyRequest { req with Header := req.Header.Del terminateTLSHeader }) := by
  simp only [handleConnectRequest] at h
  repeat' split at h
  all_goals first
    | (cases h; done)
    | (simp only [Option.some.injEq] at h; subst h; simp)

theorem handleConnectRequest_connect (env : HandlerEnv) (px : Proxy) (closing : Bool)
    (p : ProxyConn) (req req2 : Request) (r : HandleResult)
    (hm : px.modifyRequest { req with Header := req.Header.Del terminateTLSHeader } =
      (req2, none))
    (hmitm : px.shouldMITM req2 = false)
    (h : handleConnectRequest env px closing p req = some r) :
    r.events.take 2 =
      [Event.modifyRequest { req with Header := req.Header.Del terminateTLSHeader },
        Event.connect req2 (shouldTerminateTLS req)] := by
  simp only [handleConnectRequest, hm, hmitm, Bool.false_eq_true, if_false] at h
  repeat' split at h
  all_goals first
    | (cases h; done)
    | (simp only [Option.some.injEq] at h; subst h; simp)

/-- C16: `shouldTerminateTLS` is true exactly when the first value of the
`X-Martian-Terminate-Tls` header is one of the true literals of `strconv.ParseBool`
(`true` and `1` among them), hence false when the header is absent, empty, or `false`,
`0`, `yes`; and `handleConnectRequest` reads the flag, deletes the header, and only then
runs the request-modifier chain, on a request without the header; the request handed to
`Connect` is the one the chain leaves, with the flag read before, and the outcome
depends on the incoming header through the flag only. -/
theorem shouldTerminateTLS_consumed (env : HandlerEnv) (px : Proxy) (closing : Bool)
    (p : ProxyConn) (req : Request) :
    (shouldTerminateTLS req = true ↔
      req.Header.Get terminateTLSHeader ∈ ["1", "t", "T", "TRUE", "true", "True"]) ∧
    (req.Header.Get terminateTLSHeader = "true" ∨ req.Header.Get terminateTLSHeader = "1" →
      shouldTerminateTLS req = true) ∧
    (req.Header.Values terminateTLSHeader = [] → shouldTerminateTLS req = false) ∧
    (req.Header.Get terminateTLSHeader = "" → shouldTerminateTLS req = false) ∧
    (req.Header.Get terminateTLSHeader = "false" ∨ req.Header.Get terminateTLSHeader = "0" ∨
      req.Header.Get terminateTLSHeader = "yes" → shouldTerminateTLS req = false) ∧
    (∀ v vs, req.Header.Values terminateTLSHeader = v :: vs →
      req.Header.Get terminateTLSHeader = v) ∧
    ({ req with Header := req.Header.Del terminateTLSHeader } : Request).Header.Values
      terminateTLSHeader = [] ∧
    (∀ r, handleConnectRequest env px closing p req = some r →
      r.events.head? =
        some (Event.modifyRequest { req with Header := req.Header.Del terminateTLSHeader })) ∧
    (∀ req2 r,
      px.modifyRequest { req with Header := req.Header.Del terminateTLSHeader } = (req2, none) →
      px.shouldMITM req2 = false →
      handleConnectRequest env px closing p req = some r →
      r.events.take 2 =
        [Event.modifyRequest { req with Header := req.Header.Del terminateTLSHeader },
          Event.connect req2 (shouldTerminateTLS req)]) ∧
    (∀ other : Request,
      shouldTerminateTLS other = shouldTerminateTLS req →
      ({ other with Header := other.Header.Del terminateTLSHeader } : Request) =
        { req with Header := req.Header.Del terminateTLSHeader } →
      handleConnectRequest env px closing p other =
        handleConnectRequest env px closing p req) := by
  have hchar : shouldTerminateTLS req = true ↔
      req.Header.Get terminateTLSHeader ∈ ["1", "t", "T", "TRUE", "true", "True"] := by
    simp only [shouldTerminateTLS, ParseBool]
    by_cases h0 : req.Header.Get terminateTLSHeader = ""
    · rw [h0]; decide
    · simp only [h0, if_false]
      by_cases h1 : req.Header.Get terminateTLSHeader = "1" ∨
          req.Header.Get terminateTLSHeader = "t" ∨ req.Header.Get terminateTLSHeader = "T" ∨
          req.Header.Get terminateTLSHeader = "TRUE" ∨
          req.Header.Get terminateTLSHeader = "true" ∨
          req.Header.Get terminateTLSHeader = "True"
      · simp only [h1, if_true]
        simpa using h1
      · simp only [h1, if_false]
        have : req.Header.Get terminateTLSHeader ∉ ["1", "t", "T", "TRUE", "true", "True"] := by
          simpa using h1
        constructor
        · intro h
          split at h <;> cases h
        · intro h
          exact absurd h this
  have hfalse : ∀ v, req.Header.Get terminateTLSHeader = v →
      v ∉ ["1", "t", "T", "TRUE", "true", "True"] → shouldTerminateTLS req = false := by
    intro v hv hn
    cases hs : shouldTerminateTLS req with
    | false => rfl
    | true => exact absurd (hv ▸ hchar.1 hs) hn
  refine ⟨hchar, ?_, ?_, ?_, ?_, ?_, Header.Values_Del _ _, ?_, ?_, ?_⟩
  · rintro (h | h) <;> exact hchar.2 (by rw [h]; decide)
  · intro h
    exact hfalse "" (by simp [Header.Get, h]) (by decide)
  · intro h
    exact hfalse "" h (by decide)
  · rintro (h | h | h)
    · exact hfalse _ h (by decide)
    · exact hfalse _ h (by decide)
    · exact hfalse _ h (by decide)
  · intro v vs h
    simp [Header.Get, h]
  · intro r h
    exact handleConnectRequest_events_head env px closing p req r h
  · intro req2 r hm hmitm h
    exact handleConnectRequest_connect env px closing p req req2 r hm hmitm h
  · intro other hflag hreq
    simp only [handleConnectRequest, hflag, hreq]

theorem shouldTerminateTLS_consumed_witness :
    shouldTerminateTLS connectTerminate = true ∧
    ({ connectTerminate with
        Header := connectTerminate.Header.Del terminateTLSHeader } : Request) = connectVia ∧
    (∃ r, handleConnectRequest sampleHandlerEnv sampleProxy false plaintextConn
        connectTerminate = some r ∧
      r.events.take 2 = [Event.modifyRequest connectVia, Event.connect connectVia true]) :=
  ⟨by decide, by decide,
    ⟨_, rfl,
      ((shouldTerminateTLS_consumed sampleHandlerEnv sampleProxy false plaintextConn
        connectTerminate).2.2.2.2.2.2.2.2.1 connectVia _ (by decide) (by decide) rfl).trans
        (by decide)⟩⟩

/-- What `handleConnectRequest` does once the request modifiers, `Connect` and the
response modifiers have succeeded on the tunnel path. -/
theorem handleConnectRequest_connected (env : HandlerEnv) (px : Proxy) (closing : Bool)
    (p : ProxyConn) (req req2 : Request) (res0 res : Response)
    (hm : px.modifyRequest { req with Header := req.Header.Del terminateTLSHeader } =
      (req2, none))
    (hmitm : px.shouldMITM req2 = false)
    (hcerr : (px.Connect env.wenv req2 (shouldTerminateTLS req)).cerr = none)
    (hres : (px.Connect env.wenv req2 (shouldTerminateTLS req)).res = some res0)
    (hmr : env.modifyResponse res0 = (res, none)) :
    handleConnectRequest env px closing p req =
      (if Int.tdiv res.StatusCode 100 ≠ 2 then
        some { p := { p with w := (writeResponse env.wenv closing p.w res).w },
               err := (writeResponse env.wenv closing p.w res).err,
               events :=
                 [Event.modifyRequest { req with Header := req.Header.Del terminateTLSHeader }] ++
                 [Event.connect req2 (shouldTerminateTLS req)] ++
                 (px.Connect env.wenv req2 (shouldTerminateTLS req)).events ++
                 [Event.writeResponse (writeResponse env.wenv closing p.w res).res] ++
                 traceEvents (writeResponse env.wenv closing p.w res) ++
                 connectDeferred (px.Connect env.wenv req2 (shouldTerminateTLS req)) }
      else
        some { p := (tunnel env px closing p "CONNECT" res
                 (px.Connect env.wenv req2 (shouldTerminateTLS req)).crw).p,
               err := some Err.errClose,
               events :=
                 [Event.modifyRequest { req with Header := req.Header.Del terminateTLSHeader }] ++
                 [Event.connect req2 (shouldTerminateTLS req)] ++
                 (px.Connect env.wenv req2 (shouldTerminateTLS req)).events ++
                 (tunnel env px closing p "CONNECT" res
                   (px.Connect env.wenv req2 (shouldTerminateTLS req)).crw).events ++
                 connectDeferred (px.Connect env.wenv req2 (shouldTerminateTLS req)) }) := by
  simp only [handleConnectRequest, hm, hmitm, Bool.false_eq_true, if_false, hcerr, hres, hmr]

theorem traceEvents_tunnels (r : WriteResult) : ∀ e ∈ traceEvents r, e.tunnels = false := by
  intro e he
  simp only [traceEvents] at he
  split at he
  · simp only [List.mem_singleton] at he
    subst he
    rfl
  · cases he

theorem connectDeferred_tunnels (c : ConnectResult) :
    ∀ e ∈ connectDeferred c, e.tunnels = false := by
  intro e he
  simp only [connectDeferred, List.mem_append] at he
  rcases he with he | he
  · split at he
    · simp only [List.mem_singleton] at he
      subst he
      rfl
    · cases he
  · split at he
    · simp only [List.mem_singleton] at he
      subst he
      rfl
    · cases he

/-- The steps of `tunnel`: the response is written first; when the write succeeds the
read buffer is drained, and when the drain succeeds too the two-way copy runs. -/
theorem tunnel_events (env : HandlerEnv) (px : Proxy) (closing : Bool) (p : ProxyConn)
    (name : String) (res : Response) (crw : Option ReadWriteCloser) :
    (tunnel env px closing p name res crw).events.head? =
      some (Event.writeResponse (markClose closing res)) ∧
    ((writeResponse env.wenv closing p.w res).err = none →
      Event.drainBuffer crw ∈ (tunnel env px closing p name res crw).events ∧
      ((px.drainBuffer crw
          { p with w := (writeResponse env.wenv closing p.w res).w }).2 = none →
        Event.bicopy name crw ∈ (tunnel env px closing p name res crw).events ∧
        (tunnel env px closing p name res crw).err = none)) := by
  refine ⟨?_, ?_⟩
  · simp only [tunnel]
    split
    · simp [writeResponse_res]
    · split <;> simp [writeResponse_res]
  · intro hw
    simp only [tunnel, hw]
    rcases hd : px.drainBuffer crw { p with w := (writeResponse env.wenv closing p.w res).w }
      with ⟨p2, _ | e⟩
    · simp
    · simp

/-- C19: on the tunnel path of a CONNECT request, once `Connect` and the response
modifiers have succeeded: a response whose status is not 2xx is written, no tunnel step
follows, and the handler returns what `writeResponse` returns (nil unless the write or
the flush fails or the response is marked to close); a response whose status is 2xx is
handed to `tunnel`, and the handler returns `errClose` whatever `tunnel` returns. -/
theorem handleConnectRequest_tunnel_path (env : HandlerEnv) (px : Proxy) (closing : Bool)
    (p : ProxyConn) (req req2 : Request) (res0 res : Response)
    (hm : px.modifyRequest { req with Header := req.Header.Del terminateTLSHeader } =
      (req2, none))
    (hmitm : px.shouldMITM req2 = false)
    (hcerr : (px.Connect env.wenv req2 (shouldTerminateTLS req)).cerr = none)
    (hres : (px.Connect env.wenv req2 (shouldTerminateTLS req)).res = some res0)
    (hmr : env.modifyResponse res0 = (res, none)) :
    let c := px.Connect env.wenv req2 (shouldTerminateTLS req)
    let pre :=
      [Event.modifyRequest { req with Header := req.Header.Del terminateTLSHeader },
        Event.connect req2 (shouldTerminateTLS req)] ++ c.events
    (¬ (200 ≤ res.StatusCode ∧ res.StatusCode ≤ 299) →
      ∃ r post, handleConnectRequest env px closing p req = some r ∧
        r.err = (writeResponse env.wenv closing p.w res).err ∧
        (r.err = none ↔
          ((writeBody env.wenv p.w (markClose closing res)).2 = none ∧
            env.wenv.flush (writeBody env.wenv p.w (markClose closing res)).1 = none ∧
            (markClose closing res).Close = false)) ∧
        (r.err = none ∨ r.err = some Err.errClose) ∧
        r.p = { p with w := (writeResponse env.wenv closing p.w res).w } ∧
        r.events = pre ++ post ∧
        post.head? = some (Event.writeResponse (markClose closing res)) ∧
        ∀ e ∈ post, e.tunnels = false) ∧
    (200 ≤ res.StatusCode ∧ res.StatusCode ≤ 299 →
      ∃ r, handleConnectRequest env px closing p req = some r ∧
        r.err = some Err.errClose ∧
        r.p = (tunnel env px closing p "CONNECT" res c.crw).p ∧
        r.events = pre ++ (tunnel env px closing p "CONNECT" res c.crw).events ++
          connectDeferred c ∧
        (tunnel env px closing p "CONNECT" res c.crw).events.head? =
          some (Event.writeResponse (markClose closing res)) ∧
        ((writeResponse env.wenv closing p.w res).err = none →
          Event.drainBuffer c.crw ∈ r.events)) := by
  intro c pre
  have heq := handleConnectRequest_connected env px closing p req req2 res0 res hm hmitm
    hcerr hres hmr
  refine ⟨?_, ?_⟩
  · intro hno
    have h2 : Int.tdiv res.StatusCode 100 ≠ 2 := fun h => hno ((tdiv_hundred_eq_two_iff _).1 h)
    rw [if_pos h2] at heq
    refine ⟨_, [Event.writeResponse (writeResponse env.wenv closing p.w res).res] ++
      traceEvents (writeResponse env.wenv closing p.w res) ++ connectDeferred c, heq, rfl,
      ?_, ?_, rfl, ?_, ?_, ?_⟩
    · simp only []
      rw [writeResponse_err]
      split
      · simp [*]
      · rename_i hn
        simp [hn]
    · simp only []
      rw [writeResponse_err]
      split
      · left; rfl
      · right; rfl
    · simp only [pre, c, List.append_assoc, List.cons_append, List.nil_append]
    · simp [writeResponse_res]
    · intro e he
      simp only [List.mem_append, List.mem_singleton] at he
      rcases he with (he | he) | he
      · subst he; rfl
      · exact traceEvents_tunnels _ e he
      · exact connectDeferred_tunnels _ e he
  · intro hyes
    have h2 : ¬ (Int.tdiv res.StatusCode 100 ≠ 2) :=
      fun h => h ((tdiv_hundred_eq_two_iff _).2 hyes)
    rw [if_neg h2] at heq
    refine ⟨_, heq, rfl, rfl, ?_, (tunnel_events env px closing p "CONNECT" res c.crw).1, ?_⟩
    · simp only [pre, c, List.append_assoc, List.cons_append, List.nil_append]
    · intro hw
      have := ((tunnel_events env px closing p "CONNECT" res c.crw).2 hw).1
      simp only [List.mem_append]
      left; right
      exact this

theorem handleConnectRequest_tunnel_path_witness :
    (∃ r, handleConnectRequest sampleHandlerEnv rejectingProxy false plaintextConn
        connectVia = some r ∧ r.err = none ∧
      r.p.w.out = "HTTP/1.1 407\r\n\r\n".data) ∧
    (∃ r, handleConnectRequest sampleHandlerEnv sampleProxy false plaintextConn
        connectVia = some r ∧ r.err = some Err.errClose ∧
      Event.bicopy "CONNECT" (some (ReadWriteCloser.conn 1)) ∈ r.events) :=
  ⟨(((handleConnectRequest_tunnel_path sampleHandlerEnv rejectingProxy false plaintextConn
        connectVia connectVia
        { Status := "407 Proxy Authentication Required", StatusCode := 407,
          ProtoMajor := 1, ProtoMinor := 1, Header := [], Trailer := [], Close := false,
          Request := connectVia, Body := Body.reader 3 }
        { Status := "407 Proxy Authentication Required", StatusCode := 407,
          ProtoMajor := 1, ProtoMinor := 1, Header := [], Trailer := [], Close := false,
          Request := connectVia, Body := Body.reader 3 }
        (by decide) (by decide) (by decide) (by decide) (by decide)).1 (by decide)).imp
      (fun r h => h.imp (fun _ hp => ⟨hp.1, hp.2.1.trans (by decide), by
        rw [hp.2.2.2.2.1]; decide⟩))).elim
      (fun r h => h.elim (fun _ hp => ⟨r, hp⟩)),
    ⟨_, rfl, by decide, by decide⟩⟩

/-! ## Protocol upgrades -/

theorem Header.Values_Add_ne (h : Header) (key value other : String) (hne : other ≠ key) :
    (h.Add key value).Values other = h.Values other := by
  induction h with
  | nil =>
    have : ¬ key = other := fun e => hne e.symm
    simp [Header.Add, Header.Values, this]
  | cons e t ih =>
    obtain ⟨k, vs⟩ := e
    by_cases hk : k = key
    · have : ¬ key = other := fun e => hne e.symm
      simp [Header.Add, Header.Values, hk, this]
    · by_cases ho : k = other
      · subst ho
        simp [Header.Add, Header.Values, hk]
      · simp [Header.Add, Header.Values, hk, ho, ih]

/-- The header `markClose` leaves: the header it was given, with `close` appended to
the `Connection` values when the response is marked to close. -/
theorem markClose_header (closing : Bool) (res : Response) :
    (markClose closing res).Header = res.Header ∨
    (markClose closing res).Header = res.Header.Add "Connection" "close" := by
  simp only [markClose]
  cases closing with
  | true => right; simp
  | false =>
    simp only [Bool.false_eq_true, if_false]
    split <;> split <;> split <;> simp_all

theorem markClose_upgrade_headers (closing : Bool) (res : Response) :
    (markClose closing res).Header.Values "Upgrade" = res.Header.Values "Upgrade" ∧
    (∀ v, v ∈ res.Header.Values "Connection" →
      v ∈ (markClose closing res).Header.Values "Connection") := by
  rcases markClose_header closing res with h | h
  · rw [h]
    exact ⟨rfl, fun _ hv => hv⟩
  · rw [h]
    refine ⟨Header.Values_Add_ne _ _ _ _ (by decide), ?_⟩
    intro v hv
    rw [Header.Values_Add]
    exact List.mem_append_left _ hv

theorem markClose_StatusCode (closing : Bool) (res : Response) :
    (markClose closing res).StatusCode = res.StatusCode := by
  simp only [markClose]
  cases closing with
  | true => simp
  | false =>
    simp only [Bool.false_eq_true, if_false]
    split <;> split <;> split <;> simp_all

/-- The upgrade pair `handle` re-inserts into a header. -/
theorem upgrade_pair (h : Header) (up : String) :
    ((h.Set "Connection" "Upgrade").Set "Upgrade" up).Values "Connection" = ["Upgrade"] ∧
    ((h.Set "Connection" "Upgrade").Set "Upgrade" up).Values "Upgrade" = [up] := by
  refine ⟨?_, Header.Values_Set _ _ _⟩
  rw [Header.Values_Set_ne _ _ _ _ (by decide)]
  exact Header.Values_Set _ _ _

/-- What `handle` does with a request that is not CONNECT once the request is read,
the proxy is not closing, and modifiers and round trip have succeeded. -/
theorem handle_roundTrip_eq (env : HandlerEnv) (px : Proxy) (closing : Bool) (p : ProxyConn)
    (req0 req2 : Request) (res0 res2 : Response)
    (hr : (readRequest env px p).out = Except.ok req0)
    (hmeth : req0.Method ≠ MethodConnect)
    (hm : px.modifyRequest (px.fixRequestScheme req0) = (req2, none))
    (hrt : px.roundTrip
        (if px.upgradeType (px.fixRequestScheme req0).Header ≠ "" then
          { req2 with
            Header := (req2.Header.Set "Connection" "Upgrade").Set "Upgrade"
              (px.upgradeType (px.fixRequestScheme req0).Header) }
        else req2) = (some res0, none))
    (hmr : env.modifyResponse
        { res0 with
          Request :=
            (if px.upgradeType (px.fixRequestScheme req0).Header ≠ "" then
              { req2 with
                Header := (req2.Header.Set "Connection" "Upgrade").Set "Upgrade"
                  (px.upgradeType (px.fixRequestScheme req0).Header) }
            else req2) } = (res2, none)) :
    let req : Request :=
      if px.upgradeType (px.fixRequestScheme req0).Header ≠ "" then
        { req2 with
          Header := (req2.Header.Set "Connection" "Upgrade").Set "Upgrade"
            (px.upgradeType (px.fixRequestScheme req0).Header) }
      else req2
    let res : Response :=
      if px.upgradeType res0.Header ≠ "" then
        { res2 with
          Header := (res2.Header.Set "Connection" "Upgrade").Set "Upgrade"
            (px.upgradeType res0.Header) }
      else res2
    let pre := (readRequest env px p).events ++
      [Event.traceReadRequest, Event.modifyRequest (px.fixRequestScheme req0),
        Event.roundTrip req]
    let deferred := [Event.bodyClose res0.Body, Event.requestBodyClose]
    handle env px false closing p =
      (if res.StatusCode = 101 then
        some { handleUpgradeResponse env px closing (readRequest env px p).p res with
               events := pre ++
                 (handleUpgradeResponse env px closing (readRequest env px p).p res).events ++
                 deferred }
      else
        some { p := { (readRequest env px p).p with
                      w := (writeResponse env.wenv closing (readRequest env px p).p.w res).w },
               err := (writeResponse env.wenv closing (readRequest env px p).p.w res).err,
               events := pre ++
                 [Event.writeResponse
                   (writeResponse env.wenv closing (readRequest env px p).p.w res).res] ++
                 traceEvents (writeResponse env.wenv closing (readRequest env px p).p.w res) ++
                 deferred }) := by
  intro req res pre deferred
  simp only [handle, hr, Bool.false_eq_true, if_false, hmeth, hm, hrt, hmr]
  by_cases hY : px.upgradeType res0.Header = "" <;>
    by_cases h101 : res2.StatusCode = 101 <;>
    simp [pre, deferred, req, res, hY, h101]

theorem handleUpgradeResponse_err (env : HandlerEnv) (px : Proxy) (closing : Bool)
    (p : ProxyConn) (res : Response) :
    (handleUpgradeResponse env px closing p res).err = some Err.errClose := by
  simp only [handleUpgradeResponse]
  split <;> rfl

theorem handleUpgradeResponse_writable (env : HandlerEnv) (px : Proxy) (closing : Bool)
    (p : ProxyConn) (res : Response) (id : Nat) (hb : res.Body = Body.readWriter id) :
    handleUpgradeResponse env px closing p res =
      { p := (tunnel env px closing p (px.upgradeType res.Header)
               { res with Body := Body.panicBody } (some (ReadWriteCloser.body id))).p,
        err := some Err.errClose,
        events := (tunnel env px closing p (px.upgradeType res.Header)
               { res with Body := Body.panicBody } (some (ReadWriteCloser.body id))).events } := by
  simp only [handleUpgradeResponse, hb]

theorem handleUpgradeResponse_not_writable (env : HandlerEnv) (px : Proxy) (closing : Bool)
    (p : ProxyConn) (res : Response) (hb : ∀ id, res.Body ≠ Body.readWriter id) :
    handleUpgradeResponse env px closing p res =
      { p := p, err := some Err.errClose, events := [Event.traceWroteResponse] } := by
  cases hbd : res.Body with
  | readWriter id => exact absurd hbd (hb id)
  | noBody => simp only [handleUpgradeResponse, hbd]
  | reader id => simp only [handleUpgradeResponse, hbd]
  | panicBody => simp only [handleUpgradeResponse, hbd]

/-- C17 (as stated, refuted): a request that asks to switch to `websocket`, answered
upstream with `101 Switching Protocols` for `h2c`: the response written to the client
carries `Upgrade: h2c` and not `Upgrade: websocket`; and when the body of the `101`
reply cannot be written to, nothing is written and no tunnel runs. -/
theorem handle_upgrade_mismatch :
    sampleUpgradeType upgradeRequest.Header = "websocket" ∧
    (∃ r, handle sampleHandlerEnv mismatchProxy false false plaintextConn = some r ∧
      r.err = some Err.errClose ∧
      (r.events.filterMap Event.written).map (fun res => res.Header) =
        [[("Connection", ["Upgrade"]), ("Upgrade", ["h2c"])]] ∧
      r.p.w.out = "HTTP/1.1 101\r\nConnection: Upgrade\r\nUpgrade: h2c\r\n\r\n".data ∧
      Event.bicopy "h2c" (some (ReadWriteCloser.body 7)) ∈ r.events) ∧
    (∃ r, handle sampleHandlerEnv readOnlyBodyProxy false false plaintextConn = some r ∧
      r.err = some Err.errClose ∧
      r.events.filterMap Event.written = [] ∧
      r.p.w.out = [] ∧
      ∀ e ∈ r.events, e.tunnels = false) :=
  ⟨by decide, ⟨_, rfl, by decide, by decide, by decide, by decide⟩,
    ⟨_, rfl, by decide, by decide, by decide, by decide⟩⟩

/-- C17 (amended): for a request that is not CONNECT and whose upgrade type is `X`,
with modifiers that succeed and a round trip whose response has status 101 once the
response modifiers have run: the request sent upstream carries `Connection: Upgrade`
and `Upgrade: X` whatever the request modifiers left; when the response as received
carries an upgrade type `Y`, the response handed to the writer carries
`Connection: Upgrade` and `Upgrade: Y` whatever the response modifiers left (`X` only
when the upstream answers with the same type); when the body of the response can be
written to, the handler runs the tunnel over it, and otherwise writes nothing; in both
cases it returns `errClose`. -/
theorem handle_upgrade (env : HandlerEnv) (px : Proxy) (closing : Bool) (p : ProxyConn)
    (req0 req2 : Request) (res0 res2 : Response) (X : String)
    (hr : (readRequest env px p).out = Except.ok req0)
    (hmeth : req0.Method ≠ MethodConnect)
    (hX : px.upgradeType (px.fixRequestScheme req0).Header = X) (hXne : X ≠ "")
    (hm : px.modifyRequest (px.fixRequestScheme req0) = (req2, none))
    (hrt : px.roundTrip
        { req2 with Header := (req2.Header.Set "Connection" "Upgrade").Set "Upgrade" X } =
      (some res0, none))
    (hmr : env.modifyResponse
        { res0 with
          Request :=
            { req2 with Header := (req2.Header.Set "Connection" "Upgrade").Set "Upgrade" X } } =
      (res2, none))
    (h101 : res2.StatusCode = 101) :
    let req : Request :=
      { req2 with Header := (req2.Header.Set "Connection" "Upgrade").Set "Upgrade" X }
    let res : Response :=
      if px.upgradeType res0.Header ≠ "" then
        { res2 with
          Header := (res2.Header.Set "Connection" "Upgrade").Set "Upgrade"
            (px.upgradeType res0.Header) }
      else res2
    let pre := (readRequest env px p).events ++
      [Event.traceReadRequest, Event.modifyRequest (px.fixRequestScheme req0),
        Event.roundTrip req]
    let deferred := [Event.bodyClose res0.Body, Event.requestBodyClose]
    req.Header.Values "Connection" = ["Upgrade"] ∧
    req.Header.Values "Upgrade" = [X] ∧
    (px.upgradeType res0.Header ≠ "" →
      res.Header.Values "Connection" = ["Upgrade"] ∧
      res.Header.Values "Upgrade" = [px.upgradeType res0.Header] ∧
      "Upgrade" ∈ (markClose closing { res with Body := Body.panicBody }).Header.Values
        "Connection" ∧
      (markClose closing { res with Body := Body.panicBody }).Header.Values "Upgrade" =
        [px.upgradeType res0.Header]) ∧
    ∃ r, handle env px false closing p = some r ∧
      r.err = some Err.errClose ∧
      (∀ id, res2.Body = Body.readWriter id →
        r.events = pre ++
          (tunnel env px closing (readRequest env px p).p (px.upgradeType res.Header)
            { res with Body := Body.panicBody } (some (ReadWriteCloser.body id))).events ++
          deferred ∧
        (tunnel env px closing (readRequest env px p).p (px.upgradeType res.Header)
            { res with Body := Body.panicBody } (some (ReadWriteCloser.body id))).events.head? =
          some (Event.writeResponse (markClose closing { res with Body := Body.panicBody })) ∧
        ((writeResponse env.wenv closing (readRequest env px p).p.w
            { res with Body := Body.panicBody }).err = none →
          Event.drainBuffer (some (ReadWriteCloser.body id)) ∈ r.events)) ∧
      ((∀ id, res2.Body ≠ Body.readWriter id) →
        r.events = pre ++ [Event.traceWroteResponse] ++ deferred ∧
        r.p = (readRequest env px p).p) := by
  intro req res pre deferred
  subst hX
  have hrt2 : px.roundTrip
      (if px.upgradeType (px.fixRequestScheme req0).Header ≠ "" then
        { req2 with
          Header := (req2.Header.Set "Connection" "Upgrade").Set "Upgrade"
            (px.upgradeType (px.fixRequestScheme req0).Header) }
      else req2) = (some res0, none) := by
    rw [if_pos hXne]; exact hrt
  have hmr2 : env.modifyResponse
      { res0 with
        Request :=
          (if px.upgradeType (px.fixRequestScheme req0).Header ≠ "" then
            { req2 with
              Header := (req2.Header.Set "Connection" "Upgrade").Set "Upgrade"
                (px.upgradeType (px.fixRequestScheme req0).Header) }
          else req2) } = (res2, none) := by
    rw [if_pos hXne]; exact hmr
  have heq := handle_roundTrip_eq env px closing p req0 req2 res0 res2 hr hmeth hm hrt2 hmr2
  simp only [if_pos hXne] at heq
  have hsc : res.StatusCode = 101 := by
    simp only [res]
    split <;> exact h101
  have hbody : res.Body = res2.Body := by
    simp only [res]
    split <;> rfl
  rw [if_pos hsc] at heq
  refine ⟨(upgrade_pair _ _).1, (upgrade_pair _ _).2, ?_, _, heq,
    handleUpgradeResponse_err _ _ _ _ _, ?_, ?_⟩
  · intro hY
    have hres : res.Header = (res2.Header.Set "Connection" "Upgrade").Set "Upgrade"
        (px.upgradeType res0.Header) := by
      simp only [res, if_pos hY]
    have hm1 := markClose_upgrade_headers closing { res with Body := Body.panicBody }
    refine ⟨?_, ?_, ?_, ?_⟩
    · rw [hres]; exact (upgrade_pair _ _).1
    · rw [hres]; exact (upgrade_pair _ _).2
    · apply hm1.2
      show "Upgrade" ∈ res.Header.Values "Connection"
      rw [hres, (upgrade_pair _ _).1]
      simp
    · rw [hm1.1]
      show res.Header.Values "Upgrade" = _
      rw [hres]; exact (upgrade_pair _ _).2
  · intro id hb
    have hw := handleUpgradeResponse_writable env px closing (readRequest env px p).p res id
      (hbody.trans hb)
    have ht := tunnel_events env px closing (readRequest env px p).p
      (px.upgradeType res.Header) { res with Body := Body.panicBody }
      (some (ReadWriteCloser.body id))
    refine ⟨?_, ht.1, ?_⟩
    · simp only [hw]
    · intro hwr
      simp only [hw, List.mem_append]
      left; right
      exact (ht.2 hwr).1
  · intro hb
    have hw := handleUpgradeResponse_not_writable env px closing (readRequest env px p).p res
      (fun id => by rw [hbody]; exact hb id)
    simp only [hw]
    exact ⟨trivial, trivial⟩

theorem handle_upgrade_witness :
    ∃ r, handle sampleHandlerEnv sampleProxy false false plaintextConn = some r ∧
      r.err = some Err.errClose ∧
      Event.roundTrip { upgradeRequest with RemoteAddr := "192.0.2.1:50000" } ∈ r.events ∧
      r.p.w.out = "HTTP/1.1 101\r\nConnection: Upgrade\r\nUpgrade: websocket\r\n\r\n".data ∧
      Event.bicopy "websocket" (some (ReadWriteCloser.body 7)) ∈ r.events :=
  (handle_upgrade sampleHandlerEnv sampleProxy false plaintextConn
      { upgradeRequest with RemoteAddr := "192.0.2.1:50000" }
      { upgradeRequest with RemoteAddr := "192.0.2.1:50000" }
      { Status := "101 Switching Protocols", StatusCode := 101, ProtoMajor := 1,
        ProtoMinor := 1, Header := [("Connection", ["Upgrade"]), ("Upgrade", ["websocket"])],
        Trailer := [], Close := false,
        Request := { upgradeRequest with RemoteAddr := "192.0.2.1:50000" },
        Body := Body.readWriter 7 }
      { Status := "101 Switching Protocols", StatusCode := 101, ProtoMajor := 1,
        ProtoMinor := 1, Header := [("Connection", ["Upgrade"]), ("Upgrade", ["websocket"])],
        Trailer := [], Close := false,
        Request := { upgradeRequest with RemoteAddr := "192.0.2.1:50000" },
        Body := Body.readWriter 7 }
      "websocket" (by decide) (by decide) (by decide) (by decide) (by decide) (by decide)
      (by decide) (by decide)).2.2.2.imp
    (fun r h => ⟨h.1, h.2.1, by
      have e : r = _ := Option.some.inj (h.1.symm.trans rfl)
      rw [e]; decide, by
      have e : r = _ := Option.some.inj (h.1.symm.trans rfl)
      rw [e]; decide, by
      have e : r = _ := Option.some.inj (h.1.symm.trans rfl)
      rw [e]; decide⟩)

/-! ## PAC results: unknown types, empty input, malformed segments, the first proxy -/

theorem pac.Cut_found (s : List Char) (sep : Char) :
    (pac.Cut s sep).2.2 = true ↔ sep ∈ s := by
  induction s with
  | nil => simp [pac.Cut]
  | cons x xs ih =>
    simp only [pac.Cut]
    by_cases hx : x = sep
    · simp [hx]
    · simp only [hx, if_false, List.mem_cons]
      rw [ih]
      constructor
      · intro h; exact Or.inr h
      · rintro (h | h)
        · exact absurd h.symm hx
        · exact h

theorem pac.Cut_append (t rest : List Char) (sep : Char) (h : sep ∉ t) :
    pac.Cut (t ++ sep :: rest) sep = (t, rest, true) := by
  induction t with
  | nil => simp [pac.Cut]
  | cons x xs ih =>
    have hx : ¬ x = sep := fun e => h (by simp [e])
    have hxs : sep ∉ xs := fun e => h (by simp [e])
    rw [List.cons_append]
    simp only [pac.Cut, hx, if_false]
    rw [ih hxs]

theorem pac.Split_head (s : List Char) (sep : Char) :
    (pac.Split s sep).head? = some (pac.Cut s sep).1 := by
  induction s with
  | nil => simp [pac.Split, pac.Cut]
  | cons x xs ih =>
    simp only [pac.Split, pac.Cut]
    by_cases hx : x = sep
    · simp [hx]
    · simp only [hx, if_false]
      cases h : pac.Split xs sep with
      | nil => exact absurd h (pac.Split_ne_nil xs sep)
      | cons a t =>
        rw [h] at ih
        simp only [List.head?_cons, Option.some.injEq] at ih
        simp [ih]

/-- The error of `parseProxy` is there exactly for the malformed segments, and the
value is then `noProxy`. -/
theorem pac.parseProxy_error (v : List Char) :
    ((pac.parseProxy (String.mk v)).2 ≠ none ↔ pac.malformed v = true) ∧
    ((pac.parseProxy (String.mk v)).2 ≠ none → (pac.parseProxy (String.mk v)).1 = pac.noProxy) := by
  simp only [pac.parseProxy, pac.malformed]
  by_cases h1 : pac.TrimSpace v = []
  · simp [h1]
  · by_cases h2 : pac.TrimSpace v = "DIRECT".data
    · simp [h1, h2]
    · have h2d : ¬ pac.TrimSpace v = ['D', 'I', 'R', 'E', 'C', 'T'] := h2
      simp only [h1, h2, if_false]
      rcases hc : pac.Cut (pac.TrimSpace v) ' ' with ⟨mode, hostport, found⟩
      have hf := pac.Cut_found (pac.TrimSpace v) ' '
      rw [hc] at hf
      simp only at hf
      cases found with
      | false =>
        have hno : ' ' ∉ pac.TrimSpace v := fun h => by simpa using hf.2 h
        simp [hno, h1, h2d]
      | true =>
        have hyes : ' ' ∈ pac.TrimSpace v := hf.1 rfl
        simp only []
        rcases hs : splitHostPort hostport with why | ⟨host, port⟩
        · simp [hyes, h1, h2d]
        · simp [hyes, h1, h2d]

theorem pac.Cut_not_mem (s : List Char) (sep : Char) (h : sep ∉ s) :
    pac.Cut s sep = (s, [], false) := by
  induction s with
  | nil => rfl
  | cons x xs ih =>
    have hx : ¬ x = sep := fun e => h (by simp [e])
    have hxs : sep ∉ xs := fun e => h (by simp [e])
    simp only [pac.Cut, hx, if_false]
    rw [ih hxs]

theorem pac.Split_not_mem (s : List Char) (sep : Char) (h : sep ∉ s) :
    pac.Split s sep = [s] := by
  induction s with
  | nil => rfl
  | cons x xs ih =>
    have hx : ¬ x = sep := fun e => h (by simp [e])
    have hxs : sep ∉ xs := fun e => h (by simp [e])
    simp only [pac.Split, hx, if_false]
    rw [ih hxs]

/-- C21: a directive `T host:port` whose type token `T` (a text without a space) is
none of DIRECT, PROXY, SOCKS, HTTP, HTTPS, SOCKS4, compared case-sensitively, parses
without error to the mode DIRECT with the host and the port of the pair; so do `First`
and `All` on a string that is this one directive. `SOCKS5 h:1` and `proxy h:1` parse
to DIRECT with host `h` and port `1`. -/
theorem pac_unknown_type_is_direct (seg T : String) (hp host port : List Char)
    (htok : ' ' ∉ T.data)
    (hT : T ∉ ["DIRECT", "PROXY", "SOCKS", "HTTP", "HTTPS", "SOCKS4"])
    (hs : pac.TrimSpace seg.data = T.data ++ ' ' :: hp)
    (hsp : splitHostPort hp = Except.ok (host, port)) :
    pac.parseProxy seg =
      ({ Mode := pac.Mode.DIRECT, Host := String.mk host, Port := String.mk port }, none) ∧
    (';' ∉ seg.data →
      pac.First seg =
        ({ Mode := pac.Mode.DIRECT, Host := String.mk host, Port := String.mk port }, none) ∧
      pac.All seg =
        ([{ Mode := pac.Mode.DIRECT, Host := String.mk host, Port := String.mk port }], none)) ∧
    pac.parseProxy "SOCKS5 h:1" = ({ Mode := pac.Mode.DIRECT, Host := "h", Port := "1" }, none) ∧
    pac.parseProxy "proxy h:1" = ({ Mode := pac.Mode.DIRECT, Host := "h", Port := "1" }, none) ∧
    pac.All "SOCKS5 h:1" = ([{ Mode := pac.Mode.DIRECT, Host := "h", Port := "1" }], none) := by
  have hmode : pac.parseMode T = pac.Mode.DIRECT := by
    simp only [List.mem_cons, List.mem_singleton, List.not_mem_nil, or_false, not_or] at hT
    obtain ⟨h1, h2, h3, h4, h5, h6⟩ := hT
    simp [pac.parseMode, h1, h2, h3, h4, h5, h6]
  have hne : T.data ++ ' ' :: hp ≠ [] := by simp
  have hnd : T.data ++ ' ' :: hp ≠ "DIRECT".data := by
    intro e
    have hmem : ' ' ∈ T.data ++ ' ' :: hp := by simp
    rw [e] at hmem
    exact absurd hmem (by decide)
  have hparse : pac.parseProxy seg =
      ({ Mode := pac.Mode.DIRECT, Host := String.mk host, Port := String.mk port }, none) := by
    have hT2 : String.mk T.data = T := rfl
    simp only [pac.parseProxy, hs, hne, hnd, if_false, pac.Cut_append _ _ _ htok, hsp, hT2,
      hmode]
  refine ⟨hparse, ?_, by decide, by decide, by decide⟩
  intro hsemi
  have hseg : seg ≠ "" := by
    intro e
    rw [e] at hs
    have : pac.TrimSpace "".data = [] := by decide
    rw [this] at hs
    exact hne hs.symm
  have hseg2 : String.mk seg.data = seg := rfl
  refine ⟨?_, ?_⟩
  · simp only [pac.First, hseg, if_false, pac.Cut_not_mem _ _ hsemi, hseg2, hparse]
  · simp only [pac.All, hseg, if_false, pac.Split_not_mem _ _ hsemi, pac.allLoop, hseg2,
      hparse, List.nil_append]

theorem pac_unknown_type_is_direct_witness :
    pac.parseProxy " socks5 [::1]:1080 " =
      ({ Mode := pac.Mode.DIRECT, Host := "::1", Port := "1080" }, none) :=
  (pac_unknown_type_is_direct " socks5 [::1]:1080 " "socks5" "[::1]:1080".data "::1".data
    "1080".data (by decide) (by decide) (by decide) (by decide)).1

/-- C22: on the empty string `First` returns the DIRECT proxy with empty host and port
and no error, and `All` returns the empty list and no error. -/
theorem pac_empty :
    pac.First "" = ({ Mode := pac.Mode.DIRECT, Host := "", Port := "" }, none) ∧
    pac.All "" = ([], none) ∧
    (pac.First "").2 = none ∧ (pac.All "").2 = none := by
  decide

theorem pac.exists_first {α : Type} (P : α → Bool) (l : List α)
    (h : ∃ v ∈ l, P v = true) :
    ∃ pre v post, l = pre ++ v :: post ∧ (∀ u ∈ pre, P u = false) ∧ P v = true := by
  induction l with
  | nil =>
    obtain ⟨v, hv, _⟩ := h
    cases hv
  | cons a t ih =>
    by_cases ha : P a = true
    · exact ⟨[], a, t, rfl, by simp, ha⟩
    · have ht : ∃ v ∈ t, P v = true := by
        obtain ⟨v, hv, hp⟩ := h
        rcases List.mem_cons.mp hv with hv | hv
        · rw [hv] at hp; exact absurd hp ha
        · exact ⟨v, hv, hp⟩
      obtain ⟨pre, v, post, hl, hpre, hv⟩ := ih ht
      refine ⟨a :: pre, v, post, by simp [hl], ?_, hv⟩
      intro u hu
      rcases List.mem_cons.mp hu with hu | hu
      · rw [hu]; simpa using ha
      · exact hpre u hu

/-- The loop of `All` stops at the first segment that does not parse, with no list and
the position and text of that segment. -/
theorem pac.allLoop_first_error (pre : List (List Char)) (v : List Char)
    (post : List (List Char)) (e : pac.ParseError) (i : Nat) (res : List pac.Proxy)
    (hpre : ∀ u ∈ pre, (pac.parseProxy (String.mk u)).2 = none)
    (hv : (pac.parseProxy (String.mk v)).2 = some e) :
    pac.allLoop i res (pre ++ v :: post) =
      ([], some { pos := i + pre.length, spec := String.mk v, cause := e }) := by
  induction pre generalizing i res with
  | nil =>
    rcases hp : pac.parseProxy (String.mk v) with ⟨p, err⟩
    rw [hp] at hv
    simp only at hv
    subst hv
    simp [pac.allLoop, hp]
  | cons u us ih =>
    rcases hp : pac.parseProxy (String.mk u) with ⟨p, err⟩
    have hu := hpre u (List.mem_cons_self _ _)
    rw [hp] at hu
    simp only at hu
    subst hu
    rw [List.cons_append]
    simp only [pac.allLoop, hp]
    rw [ih _ _ (fun w hw => hpre w (List.mem_cons_of_mem _ hw))]
    simp only [List.length_cons]
    have : i + 1 + us.length = i + (us.length + 1) := by omega
    rw [this]

theorem pac.malformed_iff (v : List Char) :
    pac.malformed v = true ↔
      (pac.TrimSpace v ≠ [] ∧ pac.TrimSpace v ≠ "DIRECT".data ∧
        (' ' ∉ pac.TrimSpace v ∨
          ∃ why, splitHostPort (pac.Cut (pac.TrimSpace v) ' ').2.1 = Except.error why)) := by
  simp only [pac.malformed]
  by_cases hsp : ' ' ∈ pac.TrimSpace v
  · rcases hs : splitHostPort (pac.Cut (pac.TrimSpace v) ' ').2.1 with why | ok
    · simp [hsp]
    · simp [hsp]
  · simp [hsp]

/-- C23: when some semicolon-separated segment of a string is malformed (its trimmed
text is not empty, is not DIRECT, and it holds no space or the text after its first
space is not a valid host:port), `All` returns an error and no list, and the error
carries the zero-based position and the text of the first malformed segment; `First`
returns an error exactly when the first segment is malformed, and then its value is
the DIRECT proxy and its error carries position 0 and the text of that segment. -/
theorem pac_malformed_segment (s : String)
    (h : ∃ v ∈ pac.Split s.data ';', pac.malformed v = true) :
    s ≠ "" ∧
    (∀ v, pac.malformed v = true ↔
      (pac.TrimSpace v ≠ [] ∧ pac.TrimSpace v ≠ "DIRECT".data ∧
        (' ' ∉ pac.TrimSpace v ∨
          ∃ why, splitHostPort (pac.Cut (pac.TrimSpace v) ' ').2.1 = Except.error why))) ∧
    (∃ pre v post e, pac.Split s.data ';' = pre ++ v :: post ∧
      (∀ u ∈ pre, pac.malformed u = false) ∧ pac.malformed v = true ∧
      (pac.parseProxy (String.mk v)).2 = some e ∧
      pac.All s = ([], some { pos := pre.length, spec := String.mk v, cause := e })) ∧
    (pac.Split s.data ';').head? = some (pac.Cut s.data ';').1 ∧
    ((pac.First s).2 ≠ none ↔ pac.malformed (pac.Cut s.data ';').1 = true) ∧
    ((pac.First s).2 ≠ none →
      (pac.First s).1 = { Mode := pac.Mode.DIRECT, Host := "", Port := "" } ∧
      ∃ e, (pac.parseProxy (String.mk (pac.Cut s.data ';').1)).2 = some e ∧
        (pac.First s).2 =
          some { pos := 0, spec := String.mk (pac.Cut s.data ';').1, cause := e }) := by
  have hne : s ≠ "" := by
    intro e
    subst e
    obtain ⟨v, hv, hm⟩ := h
    have : pac.Split "".data ';' = [[]] := by decide
    rw [this] at hv
    simp only [List.mem_singleton] at hv
    subst hv
    exact absurd hm (by decide)
  have hfirst : ∀ (p : pac.Proxy × Option pac.ParseError),
      pac.parseProxy (String.mk (pac.Cut s.data ';').1) = p →
      pac.First s =
        (match p with
          | (_, some err) =>
            (pac.noProxy, some { pos := 0, spec := String.mk (pac.Cut s.data ';').1, cause := err })
          | (q, none) => (q, none)) := by
    intro p hp
    simp only [pac.First, hne, if_false, hp]
  refine ⟨hne, pac.malformed_iff, ?_, pac.Split_head _ _, ?_, ?_⟩
  · obtain ⟨pre, v, post, hsplit, hpre, hv⟩ := pac.exists_first pac.malformed _ h
    have hverr : (pac.parseProxy (String.mk v)).2 ≠ none := (pac.parseProxy_error v).1.2 hv
    obtain ⟨e, he⟩ := Option.ne_none_iff_exists'.mp hverr
    refine ⟨pre, v, post, e, hsplit, hpre, hv, he, ?_⟩
    have hpre2 : ∀ u ∈ pre, (pac.parseProxy (String.mk u)).2 = none := by
      intro u hu
      by_contra hc
      have := (pac.parseProxy_error u).1.1 hc
      rw [hpre u hu] at this
      cases this
    have := pac.allLoop_first_error pre v post e 0 [] hpre2 he
    simp only [pac.All, hne, if_false, hsplit, this, Nat.zero_add]
  · rw [← (pac.parseProxy_error (pac.Cut s.data ';').1).1]
    rcases hp : pac.parseProxy (String.mk (pac.Cut s.data ';').1) with ⟨q, _ | err⟩
    · rw [hfirst _ hp]
      simp
    · rw [hfirst _ hp]
      simp
  · intro herr
    rcases hp : pac.parseProxy (String.mk (pac.Cut s.data ';').1) with ⟨q, _ | err⟩
    · rw [hfirst _ hp] at herr
      exact absurd rfl herr
    · rw [hfirst _ hp]
      exact ⟨rfl, err, rfl, rfl⟩

theorem pac_malformed_segment_witness :
    pac.All "PROXY h:1; SOCKS h ;bogus" =
      ([], some { pos := 1, spec := " SOCKS h ",
                  cause := pac.ParseError.splitHostPort "missing port in address" }) ∧
    (pac.First "PROXY h:1; SOCKS h ;bogus").2 = none ∧
    (pac.First "bogus;DIRECT") =
      (pac.noProxy, some { pos := 0, spec := "bogus", cause := pac.ParseError.missingHostPort }) ∧
    ("PROXY h:1; SOCKS h ;bogus" : String) ≠ "" :=
  ⟨by decide, by decide, by decide,
    (pac_malformed_segment "PROXY h:1; SOCKS h ;bogus"
      ⟨" SOCKS h ".data, by decide, by decide⟩).1⟩

/-- C24: for a non-empty string, `First` is the parse of the text before the first
';' (the same proxy, an error exactly when that parse fails, then with position 0 and
that text), so it depends on that text only; whenever `All` succeeds, `First` succeeds
with the first proxy of the list; and `First` succeeds on `PROXY h:1;bogus`, on which
`All` fails at position 1. -/
theorem pac_First_is_first_segment (s : String) (hne : s ≠ "") :
    (pac.First s).1 = (pac.parseProxy (String.mk (pac.Cut s.data ';').1)).1 ∧
    ((pac.First s).2 = none ↔
      (pac.parseProxy (String.mk (pac.Cut s.data ';').1)).2 = none) ∧
    (∀ e, (pac.parseProxy (String.mk (pac.Cut s.data ';').1)).2 = some e →
      (pac.First s).2 =
        some { pos := 0, spec := String.mk (pac.Cut s.data ';').1, cause := e }) ∧
    (∀ other : String, other ≠ "" → (pac.Cut other.data ';').1 = (pac.Cut s.data ';').1 →
      pac.First other = pac.First s) ∧
    (∀ l, pac.All s = (l, none) →
      (pac.First s).2 = none ∧ l.head? = some (pac.First s).1) ∧
    pac.First "PROXY h:1;bogus" =
      ({ Mode := pac.Mode.PROXY, Host := "h", Port := "1" }, none) ∧
    pac.All "PROXY h:1;bogus" =
      ([], some { pos := 1, spec := "bogus", cause := pac.ParseError.missingHostPort }) := by
  have hfirst : ∀ (t : String), t ≠ "" → ∀ (p : pac.Proxy × Option pac.ParseError),
      pac.parseProxy (String.mk (pac.Cut t.data ';').1) = p →
      pac.First t =
        (match p with
          | (_, some err) =>
            (pac.noProxy, some { pos := 0, spec := String.mk (pac.Cut t.data ';').1, cause := err })
          | (q, none) => (q, none)) := by
    intro t ht p hp
    simp only [pac.First, ht, if_false, hp]
  refine ⟨?_, ?_, ?_, ?_, ?_, by decide, by decide⟩
  · rcases hp : pac.parseProxy (String.mk (pac.Cut s.data ';').1) with ⟨q, _ | err⟩
    · rw [hfirst s hne _ hp]
    · rw [hfirst s hne _ hp]
      have := (pac.parseProxy_error (pac.Cut s.data ';').1).2 (by rw [hp]; simp)
      rw [hp] at this
      exact this.symm
  · rcases hp : pac.parseProxy (String.mk (pac.Cut s.data ';').1) with ⟨q, _ | err⟩
    · rw [hfirst s hne _ hp]
      simp
    · rw [hfirst s hne _ hp]
      simp
  · intro e he
    rcases hp : pac.parseProxy (String.mk (pac.Cut s.data ';').1) with ⟨q, err⟩
    rw [hp] at he
    simp only at he
    subst he
    rw [hfirst s hne _ hp]
  · intro other ho hcut
    rw [hfirst other ho _ rfl, hfirst s hne _ rfl, hcut]
  · intro l hl
    have hloop : pac.allLoop 0 [] (pac.Split s.data ';') = (l, none) := by
      simpa [pac.All, hne] using hl
    obtain ⟨hmap, hall⟩ := pac.allLoop_ok _ _ _ _ hloop
    simp only [List.nil_append] at hmap
    have hhead := pac.Split_head s.data ';'
    cases hsp : pac.Split s.data ';' with
    | nil => exact absurd hsp (pac.Split_ne_nil _ _)
    | cons a t =>
      rw [hsp] at hhead hmap hall
      simp only [List.head?_cons, Option.some.injEq] at hhead
      have ha : (pac.parseProxy (String.mk a)).2 = none := hall a (List.mem_cons_self _ _)
      rw [hhead] at ha
      rcases hp : pac.parseProxy (String.mk (pac.Cut s.data ';').1) with ⟨q, err⟩
      rw [hp] at ha
      simp only at ha
      subst ha
      rw [hfirst s hne _ hp, hmap, hhead, List.map_cons, List.head?_cons, hp]
      exact ⟨rfl, rfl⟩

theorem pac_First_is_first_segment_witness :
    (pac.First "HTTPS h:2;DIRECT").2 = none ∧
    (pac.All "HTTPS h:2;DIRECT").1.head? = some (pac.First "HTTPS h:2;DIRECT").1 ∧
    pac.First "HTTPS h:2;DIRECT" = ({ Mode := pac.Mode.HTTPS, Host := "h", Port := "2" }, none) :=
  ⟨((pac_First_is_first_segment "HTTPS h:2;DIRECT" (by decide)).2.2.2.2.1 _ rfl).1,
    by decide, by decide⟩

end Forwarder
